import Mathlib

/-! minikube: the Fake command runner, the `node delete` command, the caching code of
package `node` and the argument check of `mkcmp`.

A shallow embedding of

* `pkg/minikube/command/fake_runner.go` (the in-memory `FakeCommandRunner`),
* `cmd/minikube/cmd/node_delete.go` (the `minikube node delete` command),
* `pkg/minikube/node/cache.go` (image and binary caching, the download-only mode), and
* `cmd/performance/cmd/mkcmp.go` (`validateArgs`),

followed by the properties proved about them.

Conventions of the embedding:

* Go strings are Lean `String`s; a Go `error` value is a term of `error`, and a
  nil error is `none : Option error`.
* A method with a pointer receiver that mutates the receiver returns the new
  receiver next to its Go results.
* Logging through `glog` inside the runner and the measurement of elapsed time
  do not influence any result and are left out of the runner; the command in
  `node_delete.go` records every call it makes in a trace.
* The caching code records its calls as steps; of its logging only the lines written
  with `glog.Errorln` are kept. A goroutine launched on an `errgroup.Group` is one step,
  taken when the group is waited for, in an order an arbitrary scheduler chooses.
-/

namespace Minikube

/-! ## Go library pieces the code relies on -/

/-- Go errors: `fmt.Errorf` with its formatted text, `errors.Wrap`/`errors.Wrapf`
around a cause, and errors handed back by collaborators outside the code under study. -/
inductive error where
  | Errorf (text : String)
  | Wrap (cause : error) (message : String)
  | external (text : String)
  deriving DecidableEq, Repr

/-- A finite map with string keys, listed in the order an iteration visits the
entries; the keys are pairwise distinct. It stands for Go's `map[string]T` under
`range` and for `syncmap.Map` under `Range`, whose iteration orders are unspecified. -/
structure StrMap (β : Type) where
  entries : List (String × β)
  nodupKeys : (entries.map Prod.fst).Nodup

namespace StrMap

variable {β : Type}

/-- The keys in iteration order. -/
def keys (m : StrMap β) : List String := m.entries.map Prod.fst

/-- The zero value: no entries. -/
def empty : StrMap β := ⟨[], List.nodup_nil⟩

/-- Lookup `m[key]`, `none` when the key is absent. -/
def get? (m : StrMap β) (key : String) : Option β :=
  (m.entries.find? (fun e => e.1 == key)).map Prod.snd

/-- Assignment `m[key] = value` on a Go map. The entry comes first in the iteration
order afterwards, an order Go leaves unspecified. -/
def set (m : StrMap β) (key : String) (value : β) : StrMap β :=
  ⟨(key, value) :: m.entries.filter (fun e => e.1 != key), by
    have hsub : ((m.entries.filter (fun e => e.1 != key)).map Prod.fst).Sublist
        (m.entries.map Prod.fst) := (List.filter_sublist m.entries).map Prod.fst
    simp only [List.map_cons, List.nodup_cons]
    exact ⟨by simp, hsub.nodup m.nodupKeys⟩⟩

end StrMap

instance {β : Type} [DecidableEq β] : DecidableEq (StrMap β) := fun a b =>
  decidable_of_iff (a.entries = b.entries)
    ⟨fun h => by cases a; cases b; simp only at h; subst h; rfl, fun h => by rw [h]⟩

instance {β : Type} [Repr β] : Repr (StrMap β) := ⟨fun m n => reprPrec m.entries n⟩

namespace syncmap

/-- The type `syncmap.Map` with string keys. -/
abbrev Map (β : Type) := StrMap β

namespace Map

variable {β σ : Type}

/-- Method `Load` returns the value stored for a key; `none` stands for `ok == false`. -/
def Load (m : Map β) (key : String) : Option β := m.get? key

/-- Method `Delete` deletes the value for a key. -/
def Delete (m : Map β) (key : String) : Map β :=
  ⟨m.entries.filter (fun e => e.1 != key), by
    have h := m.nodupKeys
    have hsub : ((m.entries.filter (fun e => e.1 != key)).map Prod.fst).Sublist
        (m.entries.map Prod.fst) := (List.filter_sublist m.entries).map Prod.fst
    exact hsub.nodup h⟩

/-- Method `Store` sets the value for a key, replacing the value stored before, if any. -/
def Store (m : Map β) (key : String) (value : β) : Map β :=
  ⟨(key, value) :: (m.Delete key).entries, by
    have h := (m.Delete key).nodupKeys
    simp only [List.map_cons, List.nodup_cons]
    refine ⟨?_, h⟩
    simp [Delete]⟩

/-- The loop of `Range` over the entries still to visit. -/
def rangeLoop (f : String → β → σ → σ × Bool) : List (String × β) → σ → σ
  | [], s => s
  | (k, v) :: rest, s =>
    match f k v s with
    | (s', true) => rangeLoop f rest s'
    | (s', false) => s'

/-- Method `Range` calls `f` for each key and value present in the map, one after the
other, and stops as soon as `f` returns false. The variables the Go closure captures
and updates are the state `σ`. -/
def Range (m : Map β) (f : String → β → σ → σ × Bool) (init : σ) : σ :=
  rangeLoop f m.entries init

end Map

end syncmap

namespace strings

/-- Function `strings.Join` concatenates the elements with the separator between them. -/
def Join (elems : List String) (sep : String) : String := sep.intercalate elems

end strings

namespace bytes

/-- A `bytes.Buffer`, reduced to the bytes written to it so far. -/
structure Buffer where
  buf : String
  deriving DecidableEq, Repr

namespace Buffer

/-- The zero value is an empty buffer ready to use. -/
def empty : Buffer := ⟨""⟩

/-- Method `WriteString` appends the string; it returns the length written and an
error that is always nil. -/
def WriteString (b : Buffer) (s : String) : Buffer × Nat × Option error :=
  (⟨b.buf ++ s⟩, s.utf8ByteSize, none)

end Buffer

/-- Method `String` returns the contents of the buffer as a string. -/
def Buffer.String (b : Buffer) : String := b.buf

end bytes

namespace fmt

/-- The verb `%v` applied to a `[]string`: the elements separated by spaces, in brackets. -/
def sliceV (xs : List String) : String := "[" ++ " ".intercalate xs ++ "]"

/-- The call ``fmt.Sprintf("`%s`", k)``: the string between two backticks. -/
def backquoted (k : String) : String := "`" ++ k ++ "`"

end fmt

namespace exec

/-- The part of `exec.Cmd` the runner reads: the argument vector. -/
structure Cmd where
  Args : List String
  deriving DecidableEq, Repr

end exec

namespace assets

/-- A value behind the interface `assets.CopyableFile`, which is a reader with a state:
its logical name, its destination and permissions, and what reading it to the end
delivers from where it stands, namely the bytes `data` not read yet and then either end
of file (`readErr = none`) or a read error. -/
structure CopyableFile where
  AssetName : String
  TargetDir : String
  TargetName : String
  Permissions : String
  data : String
  readErr : Option error
  deriving DecidableEq, Repr

/-- Method `GetAssetName`. -/
def CopyableFile.GetAssetName (file : CopyableFile) : String := file.AssetName

end assets

namespace io

/-- Function `io.Copy(&b, file)` copies from the file to the buffer until end of file
or an error; it returns the number of bytes copied and the first error met, if any. The
bytes copied are consumed: the file is left with nothing more to deliver, and nothing
rewinds it; a file whose read failed is taken to fail again. The second component is the
file after the call. -/
def Copy (b : bytes.Buffer) (file : assets.CopyableFile) :
    bytes.Buffer × assets.CopyableFile × Nat × Option error :=
  (⟨b.buf ++ file.data⟩, { file with data := "" }, file.data.utf8ByteSize, file.readErr)

end io

/-! ## `pkg/minikube/command/fake_runner.go` -/

namespace command

/-- The result of one command execution (declared in `command_runner.go`): the argument
vector and the captured standard output and standard error. -/
structure RunResult where
  Stdout : bytes.Buffer
  Stderr : bytes.Buffer
  Args : List String
  deriving DecidableEq, Repr

/-- FakeCommandRunner mocks command output without running the commands. The values of
`cmdMap` are Go interface values: `none` is the nil interface, `some s` a string. -/
structure FakeCommandRunner where
  cmdMap : syncmap.Map (Option String)
  fileMap : syncmap.Map String

/-- NewFakeCommandRunner returns a new FakeCommandRunner, with both maps empty. -/
def NewFakeCommandRunner : FakeCommandRunner := ⟨StrMap.empty, StrMap.empty⟩

namespace FakeCommandRunner

/-- The unexported method `commands` collects every key of `cmdMap` between backticks. -/
def commands (f : FakeCommandRunner) : List String :=
  f.cmdMap.Range (fun k _ cmds => (cmds ++ [fmt.backquoted k], true)) []

/-- The text of the error for a command that is not registered:
``fmt.Errorf("unregistered command: `%s`\nexpected: %v\n", rr.Command(), f.commands())``. -/
def unregisteredText (command : String) (cmds : List String) : String :=
  "unregistered command: `" ++ command ++ "`\nexpected: " ++ fmt.sliceV cmds ++ "\n"

/-- RunCmd implements the Command Runner interface to run an `exec.Cmd` object. The
method `rr.Command()`, which renders the argument vector for messages, is declared in
`command_runner.go` and is the parameter `Command`. -/
def RunCmd (Command : RunResult → String) (f : FakeCommandRunner) (cmd : exec.Cmd) :
    RunResult × Option error :=
  let rr : RunResult := { Args := cmd.Args, Stdout := bytes.Buffer.empty, Stderr := bytes.Buffer.empty }
  match f.cmdMap.Load (strings.Join rr.Args " ") with
  | none => (rr, some (error.Errorf (unregisteredText (Command rr) f.commands)))
  | some out =>
    let buf := bytes.Buffer.empty
    let outStr := match out with
      | some s => s
      | none => ""
    match buf.WriteString outStr with
    | (_, _, some err) => (rr, some (error.Wrap err "Writing outStr to FakeCommandRunner's buffer"))
    | (buf, _, none) => ({ rr with Stdout := buf, Stderr := buf }, none)

/-- Copy adds the filename, file contents key value pair to the stored map. The error
of a failed read is wrapped with the format of the message, the rendering of the file
by `%+v` being left out. The results are the runner after the call, the error returned
and the file after the call, which the call has read. -/
def Copy (f : FakeCommandRunner) (file : assets.CopyableFile) :
    FakeCommandRunner × Option error × assets.CopyableFile :=
  let b := bytes.Buffer.empty
  match io.Copy b file with
  | (_, file, _, some err) => (f, some (error.Wrap err "error reading file: %+v"), file)
  | (b, file, _, none) =>
    ({ f with fileMap := f.fileMap.Store file.GetAssetName b.String }, none, file)

/-- Remove removes the filename, file contents key value pair from the stored map. -/
def Remove (f : FakeCommandRunner) (file : assets.CopyableFile) : FakeCommandRunner × Option error :=
  ({ f with fileMap := f.fileMap.Delete file.GetAssetName }, none)

/-- SetFileToContents stores the file to contents map for the FakeCommandRunner. -/
def SetFileToContents (f : FakeCommandRunner) (fileToContents : StrMap String) : FakeCommandRunner :=
  fileToContents.entries.foldl (fun f e => { f with fileMap := f.fileMap.Store e.1 e.2 }) f

/-- SetCommandToOutput stores the command to output map for the FakeCommandRunner. -/
def SetCommandToOutput (f : FakeCommandRunner) (cmdToOutput : StrMap String) : FakeCommandRunner :=
  cmdToOutput.entries.foldl (fun f e => { f with cmdMap := f.cmdMap.Store e.1 (some e.2) }) f

/-- GetFileToContents returns the contents stored for a file name. -/
def GetFileToContents (f : FakeCommandRunner) (filename : String) : String × Option error :=
  match f.fileMap.Load filename with
  | none => ("", some (error.Errorf ("unavailable file: " ++ filename)))
  | some contents => (contents, none)

end FakeCommandRunner

end command

/-! ## Collaborators of `cmd/minikube/cmd/node_delete.go` -/

namespace viper

/-- The settings held by viper: the pairs of a key and the string bound to it. -/
structure Settings where
  values : List (String × String)
  deriving DecidableEq, Repr

/-- Function `viper.GetString` returns the string bound to the key, the empty string
when the key is not set. -/
def GetString (v : Settings) (key : String) : String := (v.values.lookup key).getD ""

end viper

namespace config

/-- Modelled from the spec: the type `config.Node`, declared outside the files under
study: a Node has a name, unique within a profile, and role flags (control-plane,
worker). -/
structure Node where
  Name : String
  ControlPlane : Bool
  Worker : Bool
  deriving DecidableEq, Repr

/-- Modelled from the spec: the type `config.ClusterConfig`, declared outside the files
under study: a named profile with a backend/driver identifier, the target Kubernetes
version, an ordered list of Node records and the addons set for the profile, the map
`Addons` from the name of an addon to whether it is enabled. -/
structure ClusterConfig where
  Name : String
  Driver : String
  KubernetesVersion : String
  Nodes : List Node
  Addons : StrMap Bool := StrMap.empty
  deriving DecidableEq, Repr

end config

namespace machine

/-- The API client handle returned by `machine.NewAPIClient`. -/
structure API where
  id : Nat
  deriving DecidableEq, Repr

end machine

/-- One completed call made by the delete-node command, with the result the command
got back where there is one. -/
inductive Event where
  | UsageT (message : String)
  | WithError (message : String) (err : error)
  | NewAPIClient
  | Load (profile : String)
  | Retrieve (name : String)
  | IsHostRunning (name : String) (running : Bool)
  | Stop (n : config.Node) (err : Option error)
  | Warningf (message : String)
  | Delete (name : String) (err : Option error)
  | FatalT (format : String) (name : String)
  deriving DecidableEq, Repr

namespace Event

/-- Whether the event is a call of `cluster.IsHostRunning`. -/
def isIsHostRunning : Event → Bool
  | IsHostRunning _ _ => true
  | _ => false

/-- Whether the event is a call of `node.Stop`. -/
def isStop : Event → Bool
  | Stop _ _ => true
  | _ => false

/-- Whether the event is a call of `node.Delete`. -/
def isDelete : Event → Bool
  | Delete _ _ => true
  | _ => false

/-- Whether the event is one of the calls that touch the node or its host:
`cluster.IsHostRunning`, `node.Stop`, `node.Delete`. -/
def touchesNode (e : Event) : Bool := e.isIsHostRunning || e.isStop || e.isDelete

/-- Whether the event is a call of a collaborator that acts outside the process:
creating the API client, loading the config, retrieving, probing, stopping or deleting
the node. -/
def isSideEffect : Event → Bool
  | NewAPIClient => true
  | Load _ => true
  | Retrieve _ => true
  | IsHostRunning _ _ => true
  | Stop _ _ => true
  | Delete _ _ => true
  | _ => false

end Event

/-- The behaviour of the collaborators the command calls and whose code is outside the
files under study: the constant `config.MachineProfile` (the viper key of the profile
name), whether an API client can be created, whether reading the profile store fails,
what the live probe of a host reports, what stopping a node returns and what the destroy
operation of the backend returns. -/
structure Env where
  MachineProfile : String
  NewAPIClient : Except error machine.API
  readFailure : String → Option error
  IsHostRunning : machine.API → String → Bool
  Stop : config.ClusterConfig → config.Node → Option error
  Destroy : String → Option error

/-- The state a run of the command threads through its steps: the persisted profile
store and the calls made so far, oldest first. -/
structure State where
  profiles : StrMap config.ClusterConfig
  trace : List Event

/-- Append a completed call to the trace. -/
def State.record (st : State) (e : Event) : State := { st with trace := st.trace ++ [e] }

/-- How a run of the command ends: `Run` returns to its caller, after which the process
exits with status 0, or the process is terminated from within with a usage error or a
fatal error. -/
inductive Termination where
  | returned
  | usageError
  | fatalError
  deriving DecidableEq, Repr

/-- The exit status of the process is non-zero. -/
def Termination.nonZeroExit : Termination → Bool
  | returned => false
  | usageError => true
  | fatalError => true

/-- The final state of a run and how it ended. -/
structure Outcome where
  state : State
  termination : Termination

namespace exit

/-- Modelled from the spec: `exit.UsageT`, declared outside the files under study,
reports a usage error (missing or invalid required input) and terminates the process
with a non-zero exit status. -/
def UsageT (message : String) (st : State) : Outcome :=
  ⟨st.record (Event.UsageT message), Termination.usageError⟩

/-- Modelled from the spec: `exit.WithError`, declared outside the files under study,
surfaces a fatal, process-terminating error with a user-facing message: non-zero exit
status. -/
def WithError (message : String) (err : error) (st : State) : Outcome :=
  ⟨st.record (Event.WithError message err), Termination.fatalError⟩

end exit

namespace out

/-- Modelled from the spec: `out.FatalT`, declared outside the files under study, writes
the templated fatal message; a delete failure is a fatal error, a non-zero exit with a
diagnostic message. The template argument is the value bound to `name`. -/
def FatalT (format : String) (name : String) (st : State) : Outcome :=
  ⟨st.record (Event.FatalT format name), Termination.fatalError⟩

end out

namespace config

/-- Modelled from the spec: `config.Load`, declared outside the files under study, reads
the named profile from the persisted store; it fails when the store cannot be read or is
corrupt and when the profile is absent. -/
def Load (env : Env) (profiles : StrMap ClusterConfig) (profile : String) :
    Except error ClusterConfig :=
  match env.readFailure profile with
  | some err => Except.error err
  | none =>
    match profiles.get? profile with
    | some cc => Except.ok cc
    | none => Except.error (error.external "profile not found")

end config

namespace node

/-- The search of `Retrieve` through the nodes from position `i` on. -/
def retrieveFrom (name : String) : List config.Node → Nat → Option (config.Node × Nat)
  | [], _ => none
  | n :: rest, i => if n.Name == name then some (n, i) else retrieveFrom name rest (i + 1)

/-- Modelled from the spec: `node.Retrieve`, declared outside the files under study,
looks up a Node by name within the ClusterConfig and fails with a not-found error if it
is absent; it returns the node and its position. -/
def Retrieve (cc : config.ClusterConfig) (name : String) : Except error (config.Node × Nat) :=
  match retrieveFrom name cc.Nodes 0 with
  | some r => Except.ok r
  | none => Except.error (error.external "Could not find node")

/-- Modelled from the spec: `node.Stop`, declared outside the files under study, issues
an orderly shutdown of the node; what it returns is up to the backend. -/
def Stop (env : Env) (cc : config.ClusterConfig) (n : config.Node) : Option error :=
  env.Stop cc n

/-- Modelled from the spec: `node.Delete`, declared outside the files under study,
invokes the destroy operation of the backend; if destroy fails it returns the error and
the persisted ClusterConfig keeps the node; on success it removes the Node from the
ClusterConfig and persists the profile. -/
def Delete (env : Env) (v : viper.Settings) (cc : config.ClusterConfig) (name : String)
    (st : State) : State × Option error :=
  match env.Destroy name with
  | some err => (st, some err)
  | none =>
    let cc' := { cc with Nodes := cc.Nodes.filter (fun n => n.Name != name) }
    let profile := viper.GetString v env.MachineProfile
    ({ st with profiles := syncmap.Map.Store st.profiles profile cc' }, none)

end node

namespace cluster

/-- The live probe `cluster.IsHostRunning`, declared outside the files under study. -/
def IsHostRunning (env : Env) (api : machine.API) (name : String) : Bool :=
  env.IsHostRunning api name

end cluster

/-! ## `cmd/minikube/cmd/node_delete.go` -/

namespace cmd

namespace nodeDeleteCmd

/-- The end of `Run`, from the call of `node.Delete` on. -/
def deleteStep (env : Env) (v : viper.Settings) (cc : config.ClusterConfig) (name : String)
    (st : State) : Outcome :=
  match node.Delete env v cc name st with
  | (st, some err) =>
    out.FatalT "Failed to delete node \x7b\x7b.name\x7d\x7d" name (st.record (Event.Delete name (some err)))
  | (st, none) => ⟨st.record (Event.Delete name none), Termination.returned⟩

/-- The field `Run` of `nodeDeleteCmd`: deletes a node from a cluster. The run starts
from the persisted profile store with an empty trace. -/
def Run (env : Env) (v : viper.Settings) (profiles : StrMap config.ClusterConfig) : Outcome :=
  let st : State := ⟨profiles, []⟩
  let name := viper.GetString v "name"
  if name == "" then exit.UsageT "name is required" st
  else
    -- Make sure it's not running
    let st := st.record Event.NewAPIClient
    match env.NewAPIClient with
    | Except.error err => exit.WithError "creating api client" err st
    | Except.ok api =>
      let profile := viper.GetString v env.MachineProfile
      let st := st.record (Event.Load profile)
      match config.Load env st.profiles profile with
      | Except.error err => exit.WithError "loading config" err st
      | Except.ok cc =>
        let st := st.record (Event.Retrieve name)
        match node.Retrieve cc name with
        | Except.error err => exit.WithError "retrieving node" err st
        | Except.ok (n, _) =>
          let running := cluster.IsHostRunning env api name
          let st := st.record (Event.IsHostRunning name running)
          if running then
            match node.Stop env cc n with
            | some err =>
              let st := st.record (Event.Stop n (some err))
              let st := st.record (Event.Warningf "Failed to stop node, will still try to delete")
              deleteStep env v cc name st
            | none => deleteStep env v cc name (st.record (Event.Stop n none))
          else deleteStep env v cc name st

end nodeDeleteCmd

end cmd


/-! ## Collaborators of `pkg/minikube/node/cache.go` -/

namespace viper

/-- Function `viper.GetBool` returns the value bound to the key as a boolean: true for
the strings `strconv.ParseBool` reads as true, false for every other string and when
the key is not set. -/
def GetBool (v : Settings) (key : String) : Bool :=
  ["1", "t", "T", "TRUE", "true", "True"].contains (GetString v key)

end viper

namespace errgroup

variable {τ σ : Type}

/-- A `errgroup.Group` without a context, as the zero value is: `running` holds the
functions launched with `Go` that no `Wait` has collected yet, in launch order, and
`err` the first non-nil error returned so far. Nothing is cancelled when a function
fails. The `label` is the name of the variable holding the group; it only tells the
groups apart in a trace. -/
structure Group (τ : Type) where
  label : String
  running : List τ
  err : Option error

/-- The zero value of a `Group`. -/
def zero (label : String) : Group τ := ⟨label, [], none⟩

/-- Method `Go` calls the given function in a new goroutine. -/
def Group.Go (g : Group τ) (f : τ) : Group τ := { g with running := g.running ++ [f] }

/-- The order in which the running functions finish: time after time the scheduler,
`pick`, names one of those still running, and that one finishes next. -/
def finishOrder (pick : List τ → Nat) : Nat → List τ → List τ
  | 0, _ => []
  | n + 1, running =>
    match running[pick running % running.length]? with
    | none => []
    | some f => f :: finishOrder pick n (running.eraseIdx (pick running % running.length))

/-- The error a group keeps: the first non-nil one, later ones are dropped. -/
def firstError : Option error → Option error → Option error
  | some e, _ => some e
  | none, e => e

/-- Method `Wait` blocks until all function calls from the `Go` method have returned,
then returns the first non-nil error (if any) from them. The functions run concurrently
with the caller; what the model keeps of that is that each of them has finished, with
its effect `run` on the state, when `Wait` returns, in an order the scheduler chooses. -/
def Group.Wait (run : τ → σ → σ × Option error) (pick : List τ → Nat) (g : Group τ) (s : σ) :
    Group τ × σ × Option error :=
  let r := (finishOrder pick g.running.length g.running).foldl
    (fun acc f => ((run f acc.1).1, firstError acc.2 (run f acc.1).2)) (s, g.err)
  ({ g with running := [], err := r.2 }, r.1, r.2)

end errgroup

namespace config

/-- A value of the free-form configuration file that is not a mapping. -/
inductive Scalar where
  | null
  | bool (b : Bool)
  | number (n : Int)
  | string (s : String)
  deriving DecidableEq, Repr

/-- A value of the free-form configuration file, a Go `interface{}`: a string-keyed
mapping (`map[string]interface{}`) or a value of another type. -/
inductive Value where
  | mapping (m : StrMap Scalar)
  | scalar (s : Scalar)

/-- The type `config.MinikubeConfig`, a `map[string]interface{}`. -/
abbrev MinikubeConfig := StrMap Value

end config

namespace node

/-- The functions `cache.go` hands to `errgroup.Group.Go`, each named by the call it
makes: `machine.CacheImagesForBootstrapper`, `image.WriteImageToDaemon` and
`preload.CacheTarball`. -/
inductive Task where
  | CacheImagesForBootstrapper (imageRepository version bootstrapper : String)
  | WriteImageToDaemon (img : String)
  | CacheTarball (k8sVersion : String)
  deriving DecidableEq, Repr

/-- One step of the caching code: a call it makes, with the result it got back where
there is one, or a function of a group finishing (`Done`). -/
inductive Step where
  | IsKIC (driverName : String) (kic : Bool)
  | Go (group : String) (f : Task)
  | Done (group : String) (f : Task) (err : Option error)
  | Wait (group : String) (err : Option error)
  | Errorln (message : String) (err : error)
  | CacheBinariesForBootstrapper (version bootstrapper : String) (err : Option error)
  | CacheBinary (binary version os arch : String) (path : String) (err : Option error)
  | ReadConfig (file : String)
  | SaveToDir (images : List String) (dir : String) (err : Option error)
  | CacheAndLoadImages (images : List String) (err : Option error)
  | WithError (message : String) (err : error)
  | T (message : String)
  | Exit (code : Nat)
  deriving DecidableEq, Repr

namespace Step

/-- Whether the step is a function of a group finishing. -/
def isDone : Step → Bool
  | Done _ _ _ => true
  | _ => false

/-- Whether the step is a line written to the error log. -/
def isErrorln : Step → Bool
  | Errorln _ _ => true
  | _ => false

/-- Whether the step is a call made by the thread of `handleDownloadOnly` itself other
than logging: everything but a function of a group finishing and a log line. -/
def isCall (s : Step) : Bool := !s.isDone && !s.isErrorln

/-- Whether the step is a call of `machine.CacheAndLoadImages`. -/
def isCacheAndLoadImages : Step → Bool
  | CacheAndLoadImages _ _ => true
  | _ => false

/-- Whether the step is a call of `image.SaveToDir`. -/
def isSaveToDir : Step → Bool
  | SaveToDir _ _ _ => true
  | _ => false

end Step

end node

/-- The constants and the behaviour of the collaborators of `cache.go` whose code is
outside the files under study: the constants `cacheImages`, `cmdcfg.Bootstrapper`,
`cacheImageConfigKey`, `localpath.ConfigFile`, `constants.ImageCacheDir`, `kic.BaseImage`,
`runtime.GOOS` and `runtime.GOARCH`; `driver.IsKIC`; `config.ReadConfig`; the images and
binaries a Kubernetes version requires; whether fetching one image or one binary fails;
what `image.WriteImageToDaemon`, `preload.CacheTarball`, `image.SaveToDir` and
`machine.CacheAndLoadImages` return; and the scheduler of the goroutines. -/
structure CacheEnv where
  cacheImages : String
  Bootstrapper : String
  cacheImageConfigKey : String
  ConfigFile : String
  ImageCacheDir : String
  BaseImage : String
  GOOS : String
  GOARCH : String
  IsKIC : String → Bool
  ReadConfig : String → Except error config.MinikubeConfig
  KubeadmCachedImages : String → String → List String
  KubeadmCachedBinaries : List String
  fetchImage : String → Option error
  fetchBinary : String → String → String → String → Option error
  WriteImageToDaemon : String → Option error
  CacheTarball : String → Option error
  SaveToDir : List String → String → Option error
  CacheAndLoadImages : List String → Option error
  pick : List node.Task → Nat

namespace machine

/-- Modelled from the spec: the loop of the caching functions of package `machine`,
declared outside the files under study: every artifact of the list is fetched and stored
under its path; an artifact that was fetched stays on disk even if a sibling failed, a
failure does not stop the others, and the first failure is the error reported. -/
def cacheAll (fetch : String → Option error) (path : String → String) :
    List String → List String → List String × Option error
  | [], files => (files, none)
  | a :: rest, files =>
    match fetch a with
    | none => cacheAll fetch path rest (files ++ [path a])
    | some err => ((cacheAll fetch path rest files).1, some err)

/-- Modelled from the spec: `machine.CacheImagesForBootstrapper`, declared outside the
files under study, fetches and stores a local copy of each image the Kubernetes version
requires, under `images/<image>` below the minikube home. -/
def CacheImagesForBootstrapper (env : CacheEnv) (imageRepository version : String)
    (files : List String) : List String × Option error :=
  cacheAll env.fetchImage (fun img => "images/" ++ img)
    (env.KubeadmCachedImages imageRepository version) files

/-- Modelled from the spec: `machine.CacheBinariesForBootstrapper`, declared outside the
files under study, fetches and stores the binaries the bootstrapper requires for the
version and the host OS and architecture, under `cache/<version>/<binary>` below the
minikube home. -/
def CacheBinariesForBootstrapper (env : CacheEnv) (version : String) (files : List String) :
    List String × Option error :=
  cacheAll (fun bin => env.fetchBinary bin version env.GOOS env.GOARCH)
    (fun bin => "cache/" ++ version ++ "/" ++ bin) env.KubeadmCachedBinaries files

/-- Modelled from the spec: `machine.CacheBinary`, declared outside the files under
study, fetches and stores one binary under `cache/<version>/<binary>` below the minikube
home and returns that path, or the error of the fetch. -/
def CacheBinary (env : CacheEnv) (binary version os arch : String) (files : List String) :
    List String × String × Option error :=
  match env.fetchBinary binary version os arch with
  | none =>
    (files ++ ["cache/" ++ version ++ "/" ++ binary], "cache/" ++ version ++ "/" ++ binary, none)
  | some err => (files, "", some err)

end machine

namespace node

/-- What the caching code acts on: the state of the process as the exit helpers see it,
the files below the minikube home, and the steps taken so far, oldest first. -/
structure World where
  proc : State
  files : List String
  steps : List Step

/-- Append a step to the steps taken. -/
def World.step (w : World) (s : Step) : World := { w with steps := w.steps ++ [s] }

/-- How a function of the caching code ends: it returns to its caller, the process exits
through `os.Exit` with the given code, the process is ended by one of the exit helpers,
or a run-time panic ends the process. -/
inductive Ending where
  | returned
  | exited (code : Nat)
  | ended (t : Termination)
  | panicked (reason : String)
  deriving DecidableEq, Repr

/-- The process ends with a non-zero exit status. -/
def Ending.nonZeroExit : Ending → Bool
  | Ending.returned => false
  | Ending.exited code => code != 0
  | Ending.ended t => t.nonZeroExit
  | Ending.panicked _ => true

/-- The final world of a function that may end the process, and how it ended. -/
structure Result where
  world : World
  ending : Ending

/-- What a function that may panic hands back: its results, or the panic. -/
inductive Ret (α : Type) where
  | value (a : α)
  | panic (reason : String)

/-- A call of `exit.WithError` from the caching code: the step is recorded and the
process ends the way `exit.WithError` ends it. -/
def fatal (message : String) (err : error) (w : World) : Result :=
  ⟨{ w with proc := (exit.WithError message err w.proc).state }.step (Step.WithError message err),
    Ending.ended (exit.WithError message err w.proc).termination⟩

end node

namespace os

/-- Function `os.Exit` causes the current program to exit with the given status code. -/
def Exit (code : Nat) (w : node.World) : node.Result :=
  ⟨w.step (node.Step.Exit code), node.Ending.exited code⟩

end os

/-! ## `pkg/minikube/node/cache.go` -/

namespace node

/-- The body of a function handed to `Go`: the call it makes, on the files. -/
def Task.call (env : CacheEnv) : Task → List String → List String × Option error
  | Task.CacheImagesForBootstrapper imageRepository version _, files =>
    machine.CacheImagesForBootstrapper env imageRepository version files
  | Task.WriteImageToDaemon img, files => (files, env.WriteImageToDaemon img)
  | Task.CacheTarball k8sVersion, files => (files, env.CacheTarball k8sVersion)

/-- A function of the group `group` finishes: its call is made and the step recorded. -/
def finish (env : CacheEnv) (group : String) (f : Task) (w : World) : World × Option error :=
  ({ w with files := (f.call env w.files).1 }.step (Step.Done group f (f.call env w.files).2),
    (f.call env w.files).2)

/-- The call `g.Wait()` of the caching code, recorded as a step with the error it got. -/
def wait (env : CacheEnv) (g : errgroup.Group Task) (w : World) : World × Option error :=
  ((g.Wait (finish env g.label) env.pick w).2.1.step
      (Step.Wait g.label (g.Wait (finish env g.label) env.pick w).2.2),
    (g.Wait (finish env g.label) env.pick w).2.2)

/-- The function beginCacheRequiredImages caches images required for kubernetes version
in the background. -/
def beginCacheRequiredImages (env : CacheEnv) (v : viper.Settings) (g : errgroup.Group Task)
    (imageRepository k8sVersion : String) (w : World) : errgroup.Group Task × World :=
  if !viper.GetBool v "cache-images" then (g, w)
  else
    (g.Go (Task.CacheImagesForBootstrapper imageRepository k8sVersion
        (viper.GetString v env.Bootstrapper)),
      w.step (Step.Go g.label (Task.CacheImagesForBootstrapper imageRepository k8sVersion
        (viper.GetString v env.Bootstrapper))))

/-- CacheKubectlBinary caches the kubectl binary. -/
def CacheKubectlBinary (env : CacheEnv) (k8sVerison : String) (w : World) :
    World × String × Option error :=
  let binary := if env.GOOS == "windows" then "kubectl.exe" else "kubectl"
  let r := machine.CacheBinary env binary k8sVerison env.GOOS env.GOARCH w.files
  ({ w with files := r.1 }.step
    (Step.CacheBinary binary k8sVerison env.GOOS env.GOARCH r.2.1 r.2.2), r.2.1, r.2.2)

/-- The function doCacheBinaries caches Kubernetes binaries in the foreground. -/
def doCacheBinaries (env : CacheEnv) (v : viper.Settings) (k8sVersion : String) (w : World) :
    World × Option error :=
  let r := machine.CacheBinariesForBootstrapper env k8sVersion w.files
  ({ w with files := r.1 }.step
    (Step.CacheBinariesForBootstrapper k8sVersion (viper.GetString v env.Bootstrapper) r.2), r.2)

/-- The function beginDownloadKicArtifacts launches the download of the kic base image
and the caching of the tarball of preloaded images. -/
def beginDownloadKicArtifacts (env : CacheEnv) (g : errgroup.Group Task) (k8sVersion : String)
    (w : World) : errgroup.Group Task × World :=
  ((g.Go (Task.WriteImageToDaemon env.BaseImage)).Go (Task.CacheTarball k8sVersion),
    (w.step (Step.Go g.label (Task.WriteImageToDaemon env.BaseImage))).step
      (Step.Go g.label (Task.CacheTarball k8sVersion)))

/-- The function waitDownloadKicArtifacts joins the group and logs its error, if any. -/
def waitDownloadKicArtifacts (env : CacheEnv) (g : errgroup.Group Task) (w : World) : World :=
  match wait env g w with
  | (w, some err) => w.step (Step.Errorln "Error downloading kic artifacts: " err)
  | (w, none) => w

/-- The function waitCacheRequiredImages blocks until the required images are all
cached. -/
def waitCacheRequiredImages (env : CacheEnv) (v : viper.Settings) (g : errgroup.Group Task)
    (w : World) : World :=
  if !viper.GetBool v env.cacheImages then w
  else
    match wait env g w with
    | (w, some err) => w.step (Step.Errorln "Error caching images: " err)
    | (w, none) => w

/-- The function imagesInConfigFile lists the image names recorded in the config file.
The type assertion on the value under the key panics when the value is not a mapping. -/
def imagesInConfigFile (env : CacheEnv) (w : World) : World × Ret (List String × Option error) :=
  let w := w.step (Step.ReadConfig env.ConfigFile)
  match env.ReadConfig env.ConfigFile with
  | Except.error err => (w, Ret.value ([], some err))
  | Except.ok configFile =>
    match configFile.get? env.cacheImageConfigKey with
    | some (config.Value.mapping values) =>
      (w, Ret.value (values.entries.foldl (fun images e => images ++ [e.1]) [], none))
    | some (config.Value.scalar _) =>
      (w, Ret.panic "interface conversion: interface is not map[string]interface")
    | none => (w, Ret.value ([], none))

/-- The function saveImagesToTarFromConfig saves images to tar in cache which specified
in config file. -/
def saveImagesToTarFromConfig (env : CacheEnv) (w : World) : World × Ret (Option error) :=
  match imagesInConfigFile env w with
  | (w, Ret.panic reason) => (w, Ret.panic reason)
  | (w, Ret.value (_, some err)) => (w, Ret.value (some err))
  | (w, Ret.value (images, none)) =>
    if images.length == 0 then (w, Ret.value none)
    else
      (w.step (Step.SaveToDir images env.ImageCacheDir (env.SaveToDir images env.ImageCacheDir)),
        Ret.value (env.SaveToDir images env.ImageCacheDir))

/-- CacheAndLoadImagesInConfig loads the images currently in the config file. -/
def CacheAndLoadImagesInConfig (env : CacheEnv) (w : World) : World × Ret (Option error) :=
  match imagesInConfigFile env w with
  | (w, Ret.panic reason) => (w, Ret.panic reason)
  | (w, Ret.value (_, some err)) => (w, Ret.value (some err))
  | (w, Ret.value (images, none)) =>
    if images.length == 0 then (w, Ret.value none)
    else
      (w.step (Step.CacheAndLoadImages images (env.CacheAndLoadImages images)),
        Ret.value (env.CacheAndLoadImages images))

/-- The end of `handleDownloadOnly`, from the join of the image-cache group on. -/
def finishDownloadOnly (env : CacheEnv) (v : viper.Settings) (cacheGroup : errgroup.Group Task)
    (kicArtifactsGroup : errgroup.Group Task) (w : World) : Result :=
  let w := waitCacheRequiredImages env v cacheGroup w
  let w := waitDownloadKicArtifacts env kicArtifactsGroup w
  match saveImagesToTarFromConfig env w with
  | (w, Ret.panic reason) => ⟨w, Ending.panicked reason⟩
  | (w, Ret.value (some err)) => fatal "Failed to cache images to tar" err w
  | (w, Ret.value none) => os.Exit 0 (w.step (Step.T "Download complete!"))

/-- The part of `handleDownloadOnly` from the call of `doCacheBinaries` on. -/
def cacheThenFinish (env : CacheEnv) (v : viper.Settings) (cacheGroup : errgroup.Group Task)
    (kicArtifactsGroup : errgroup.Group Task) (k8sVersion : String) (w : World) : Result :=
  match doCacheBinaries env v k8sVersion w with
  | (w, some err) => fatal "Failed to cache binaries" err w
  | (w, none) =>
    match CacheKubectlBinary env k8sVersion w with
    | (w, _, some err) => fatal "Failed to cache kubectl" err w
    | (w, _, none) => finishDownloadOnly env v cacheGroup kicArtifactsGroup w

/-- The function handleDownloadOnly: if --download-only, complete the remaining
downloads and exit. -/
def handleDownloadOnly (env : CacheEnv) (v : viper.Settings) (cacheGroup : errgroup.Group Task)
    (k8sVersion driverName : String) (w : World) : Result :=
  if !viper.GetBool v "download-only" then ⟨w, Ending.returned⟩
  else
    let kicArtifactsGroup : errgroup.Group Task := errgroup.zero "kicArtifactsGroup"
    if env.IsKIC driverName then
      let r := beginDownloadKicArtifacts env kicArtifactsGroup k8sVersion
        (w.step (Step.IsKIC driverName true))
      cacheThenFinish env v cacheGroup r.1 k8sVersion r.2
    else
      cacheThenFinish env v cacheGroup kicArtifactsGroup k8sVersion
        (w.step (Step.IsKIC driverName false))

/-- Modelled from the spec: the part of the start flow around the caching code, declared
outside the files under study: the image-cache tasks are launched on a new group before
the synchronous binary caching begins, and `handleDownloadOnly` is called with that
group. -/
def startDownloadOnly (env : CacheEnv) (v : viper.Settings)
    (imageRepository k8sVersion driverName : String) (w : World) : Result :=
  let r := beginCacheRequiredImages env v (errgroup.zero "cacheGroup") imageRepository
    k8sVersion w
  handleDownloadOnly env v r.1 k8sVersion driverName r.2

end node

/-! ## `cmd/performance/cmd/mkcmp.go` -/

namespace errors

/-- Function `errors.New` returns an error that formats as the given text. -/
def New (text : String) : error := error.Errorf text

end errors

namespace performance.cmd

/-- The function validateArgs of mkcmp checks the number of arguments. -/
def validateArgs (args : List String) : Option error :=
  if args.length != 2 then
    some (errors.New "mkcmp requries two minikube binaries to compare: mkcmp [path to first binary] [path to second binary]")
  else none

end performance.cmd

/-! ## `pkg/minikube/assets/addons.go` -/

namespace strings

/-- The loop of `Split` over the characters still to read: `cur` holds the piece being
read, last character first, and `skip` counts the characters of a separator just found
that are still to pass over. -/
def splitLoop (sep : List Char) : List Char → List Char → Nat → List String
  | [], cur, _ => [String.mk cur.reverse]
  | _ :: rest, cur, skip + 1 => splitLoop sep rest cur skip
  | c :: rest, cur, 0 =>
    if sep.isPrefixOf (c :: rest) then
      String.mk cur.reverse :: splitLoop sep rest [] (sep.length - 1)
    else splitLoop sep rest (c :: cur) 0

/-- Function `strings.Split` slices `s` into all substrings separated by `sep`; if `s`
does not contain `sep` the result is `s` alone, and if `sep` is empty `s` is split after
each character. -/
def Split (s sep : String) : List String :=
  if sep.data.isEmpty then s.data.map String.singleton
  else splitLoop sep.data s.data [] 0

/-- Function `strings.HasSuffix` tests whether the string ends with the suffix. -/
def HasSuffix (s suffix : String) : Bool := suffix.data.isSuffixOf s.data

end strings

namespace out

/-- A message written through package `out`: a warning (`out.WarningT`) with its format
and the value of its one template argument, or a line on stderr (`out.ErrT`) with its
format and the values of the arguments `registry` and `image`. -/
inductive Message where
  | WarningT (format : String) (value : String)
  | ErrT (format : String) (registry : String) (image : String)
  deriving DecidableEq, Repr

end out

namespace config

/-- The fields of `config.KubernetesConfig`, declared outside the files under study,
that `GenerateTemplateData` reads. -/
structure KubernetesConfig where
  ImageRepository : String
  LoadBalancerStartIP : String
  LoadBalancerEndIP : String
  CustomIngressCert : String
  deriving DecidableEq, Repr

end config

namespace assets

/-- The arguments of `MustBinAsset`, which stand for the asset it builds: the name of
the embedded file, the target directory, the target name and the permissions. -/
structure BinAsset where
  name : String
  targetDir : String
  targetName : String
  permissions : String
  deriving DecidableEq, Repr

/-- Addon is a named list of assets, that can be enabled. The maps `Images` and
`Registries` may be nil, which is `none`. -/
structure Addon where
  Assets : List BinAsset
  enabled : Bool
  addonName : String
  Images : Option (StrMap String)
  Registries : Option (StrMap String)
  deriving DecidableEq, Repr

/-- NewAddon creates a new Addon. -/
def NewAddon (assets : List BinAsset) (enabled : Bool) (addonName : String)
    (images : Option (StrMap String)) (registries : Option (StrMap String)) : Addon :=
  { Assets := assets, enabled := enabled, addonName := addonName, Images := images,
    Registries := registries }

/-- Name get the addon name. -/
def Addon.Name (a : Addon) : String := a.addonName

/-- IsEnabled checks if an Addon is enabled for the given profile. -/
def Addon.IsEnabled (a : Addon) (cc : config.ClusterConfig) : Bool :=
  match cc.Addons.get? a.Name with
  | some status => status
  | none =>
    -- Return the default unconfigured state of the addon
    a.enabled

/-- The constants `GenerateTemplateData` reads and whose declarations are outside the
files under study: `runtime.GOARCH` and the viper keys `config.AddonImages` and
`config.AddonRegistries`. -/
structure TemplateEnv where
  GOARCH : String
  AddonImages : String
  AddonRegistries : String

/-- The value `opts` that `GenerateTemplateData` builds and returns. -/
structure TemplateData where
  Arch : String
  ExoticArch : String
  ImageRepository : String
  LoadBalancerStartIP : String
  LoadBalancerEndIP : String
  CustomIngressCert : String
  Images : StrMap String
  Registries : StrMap String
  CustomRegistries : StrMap String
  deriving DecidableEq, Repr

/-- What a call of `GenerateTemplateData` leaves: the value returned, the addon, whose
maps the call writes to when they are not nil, and the messages written. -/
structure Generated where
  opts : TemplateData
  addon : Addon
  messages : List out.Message

/-- The body of the loop over the entries of the custom images setting: the images
after the entry, and the warning if the entry is ignored. -/
def customImage (images : StrMap String) (image : String) : StrMap String × List out.Message :=
  match strings.Split image "=" with
  | [name, value] =>
    if value == "" then
      (images, [out.Message.WarningT "Ignoring invalid custom image \x7b\x7b.conf\x7d\x7d" image])
    else if (images.get? name).isSome then (images.set name value, [])
    else
      (images, [out.Message.WarningT "Ignoring unknown custom image \x7b\x7b.name\x7d\x7d" name])
  | _ => (images, [out.Message.WarningT "Ignoring invalid custom image \x7b\x7b.conf\x7d\x7d" image])

/-- The body of the loop over the entries of the custom registries setting: the custom
registries after the entry, and the warning if the entry is ignored. The name is looked
up in the images, because the registry map may omit the default registry. -/
def customRegistry (images : StrMap String) (custom : StrMap String) (registry : String) :
    StrMap String × List out.Message :=
  match strings.Split registry "=" with
  | [name, value] =>
    if (images.get? name).isSome then (custom.set name value, [])
    else
      (custom, [out.Message.WarningT "Ignoring unknown custom registry \x7b\x7b.name\x7d\x7d" name])
  | _ =>
    (custom, [out.Message.WarningT "Ignoring invalid custom registry \x7b\x7b.conf\x7d\x7d" registry])

/-- The entries the loop over a comma-separated setting visits: none for the empty
setting, else the pieces of the setting between the commas. -/
def entriesOf (setting : String) : List String :=
  if setting != "" then strings.Split setting "," else []

/-- The loop over a comma-separated setting: the body on each entry in turn, the
messages collected. -/
def eachEntry (body : StrMap String → String → StrMap String × List out.Message)
    (setting : String) (start : StrMap String) : StrMap String × List out.Message :=
  (entriesOf setting).foldl
    (fun acc entry => ((body acc.1 entry).1, acc.2 ++ (body acc.1 entry).2)) (start, [])

/-- The loops that append the postfix `/` to the registries: every value of the map that
is not empty and does not end with `/` gets one. -/
def appendSlashes (m : StrMap String) : StrMap String :=
  m.entries.foldl
    (fun acc e => if e.2 != "" && !strings.HasSuffix e.2 "/" then acc.set e.1 (e.2 ++ "/") else acc) m

/-- The body of the last loop, for one image: the registry of the image is set to the
empty string if it has none, and the image in use is reported on stderr. -/
def useImage (imageRepository : String) (custom : StrMap String) (registries : StrMap String)
    (name image : String) : StrMap String × out.Message :=
  let registries := if (registries.get? name).isSome then registries else registries.set name ""
  match custom.get? name with
  | some override =>
    (registries, out.Message.ErrT "Using image \x7b\x7b.registry\x7d\x7d\x7b\x7b.image\x7d\x7d"
      override image)
  | none =>
    if imageRepository != "" then
      (registries, out.Message.ErrT
        "Using image \x7b\x7b.registry\x7d\x7d\x7b\x7b.image\x7d\x7d (global image repository)"
        imageRepository image)
    else
      (registries, out.Message.ErrT "Using image \x7b\x7b.registry\x7d\x7d\x7b\x7b.image\x7d\x7d"
        ((registries.get? name).getD "") image)

/-- GenerateTemplateData generates template data for template assets. -/
def GenerateTemplateData (env : TemplateEnv) (v : viper.Settings) (addon : Addon)
    (cfg : config.KubernetesConfig) : Generated :=
  let a := env.GOARCH
  -- Some legacy docker images still need the -arch suffix
  -- for less common architectures blank suffix for amd64
  let ea := if env.GOARCH != "amd64" then "-" ++ env.GOARCH else ""
  let imageRepository :=
    if cfg.ImageRepository != "" && !strings.HasSuffix cfg.ImageRepository "/" then
      cfg.ImageRepository ++ "/"
    else cfg.ImageRepository
  -- a nil map is replaced by an empty one
  let images0 := addon.Images.getD StrMap.empty
  let imgs := eachEntry customImage (viper.GetString v env.AddonImages) images0
  let registries0 := addon.Registries.getD StrMap.empty
  let custom := eachEntry (customRegistry imgs.1) (viper.GetString v env.AddonRegistries)
    StrMap.empty
  -- Append postfix "/" to registries
  let registries1 := appendSlashes registries0
  let custom1 := appendSlashes custom.1
  let last := imgs.1.entries.foldl
    (fun acc e => ((useImage imageRepository custom1 acc.1 e.1 e.2).1,
      acc.2 ++ [(useImage imageRepository custom1 acc.1 e.1 e.2).2])) (registries1, [])
  { opts :=
      { Arch := a, ExoticArch := ea, ImageRepository := imageRepository,
        LoadBalancerStartIP := cfg.LoadBalancerStartIP,
        LoadBalancerEndIP := cfg.LoadBalancerEndIP,
        CustomIngressCert := cfg.CustomIngressCert,
        Images := imgs.1, Registries := last.1, CustomRegistries := custom1 },
    addon :=
      { addon with
        Images := addon.Images.map (fun _ => imgs.1),
        Registries := addon.Registries.map (fun _ => last.1) },
    messages := imgs.2 ++ custom.2 ++ last.2 }

/-- A registry prefix `r` is the normalised form of the value `v`, in the words of the
specification: the empty value stays empty, a value that already ends with `/` is
unchanged, and any other value has exactly one `/` appended. -/
def normalised (v r : String) : Prop :=
  (v = "" → r = "") ∧ (strings.HasSuffix v "/" = true → r = v) ∧
    (v ≠ "" → strings.HasSuffix v "/" = false → r = v ++ "/")

instance (v r : String) : Decidable (normalised v r) := by
  unfold normalised
  infer_instance

/-- The image name and the value of an entry of the custom images setting, in the words
of the specification: the entry splits on `=` into exactly two parts and the second part
is not empty; `none` for every other entry. -/
def validOverride (entry : String) : Option (String × String) :=
  match strings.Split entry "=" with
  | [name, value] => if value = "" then none else some (name, value)
  | _ => none

/-- The value the entries of the custom images setting give the image `name`, in the
words of the specification: that of the last valid entry for the name, `none` when no
entry is a valid entry for it. -/
def lastOverride (name : String) : List String → Option String
  | [] => none
  | entry :: later =>
    match lastOverride name later with
    | some value => some value
    | none =>
      match validOverride entry with
      | some (n, value) => if n = name then some value else none
      | none => none

end assets

/-! ## `pkg/minikube/sysinit/systemd.go` -/

namespace sysinit

/-- A value behind the interface `Runner`, of which the code calls the method `RunCmd`:
from the state of the runner and a command, the state afterwards and the results. -/
structure Runner (σ : Type) where
  RunCmd : σ → exec.Cmd → σ × command.RunResult × Option error

/-- The state of a runner together with the commands issued to it so far, oldest first. -/
structure Session (σ : Type) where
  state : σ
  issued : List exec.Cmd

/-- Systemd is a service manager for systemd distributions. -/
structure Systemd (σ : Type) where
  r : Runner σ

end sysinit

namespace exec

/-- Function `exec.Command` returns the `Cmd` to execute the named program with the
given arguments; its `Args` hold the name followed by the arguments. -/
def Command (name : String) (arg : List String) : Cmd := ⟨name :: arg⟩

end exec

namespace sysinit

namespace Systemd

variable {σ : Type}

/-- A call `s.r.RunCmd(cmd)` whose first result is dropped: the command is issued to the
runner and its error handed back. -/
def run (s : Systemd σ) (cmd : exec.Cmd) (w : Session σ) : Session σ × Option error :=
  (⟨(s.r.RunCmd w.state cmd).1, w.issued ++ [cmd]⟩, (s.r.RunCmd w.state cmd).2.2)

/-- Name returns the name of the init system. -/
def Name (_ : Systemd σ) : String := "systemd"

/-- The method reload reloads systemd configuration. -/
def reload (s : Systemd σ) (w : Session σ) : Session σ × Option error :=
  s.run (exec.Command "sudo" ["systemctl", "daemon-reload"]) w

/-- Active checks if a service is running. -/
def Active (s : Systemd σ) (svc : String) (w : Session σ) : Session σ × Bool :=
  ((s.run (exec.Command "sudo" ["systemctl", "is-active", "--quiet", "service", svc]) w).1,
    (s.run (exec.Command "sudo" ["systemctl", "is-active", "--quiet", "service", svc]) w).2.isNone)

/-- Disable disables a service. -/
def Disable (s : Systemd σ) (svc : String) (w : Session σ) : Session σ × Option error :=
  s.run (exec.Command "sudo" ["systemctl", "disable", svc]) w

/-- Enable enables a service. -/
def Enable (s : Systemd σ) (svc : String) (w : Session σ) : Session σ × Option error :=
  s.run (exec.Command "sudo" ["systemctl", "enable", svc]) w

/-- Start starts a service. -/
def Start (s : Systemd σ) (svc : String) (w : Session σ) : Session σ × Option error :=
  match s.reload w with
  | (w, some err) => (w, some err)
  | (w, none) => s.run (exec.Command "sudo" ["systemctl", "start", svc]) w

/-- Restart restarts a service. -/
def Restart (s : Systemd σ) (svc : String) (w : Session σ) : Session σ × Option error :=
  match s.reload w with
  | (w, some err) => (w, some err)
  | (w, none) => s.run (exec.Command "sudo" ["systemctl", "restart", svc]) w

/-- Stop stops a service. -/
def Stop (s : Systemd σ) (svc : String) (w : Session σ) : Session σ × Option error :=
  s.run (exec.Command "sudo" ["systemctl", "stop", svc]) w

/-- ForceStop terminates a service with prejudice. -/
def ForceStop (s : Systemd σ) (svc : String) (w : Session σ) : Session σ × Option error :=
  s.run (exec.Command "sudo" ["systemctl", "stop", "-f", svc]) w

end Systemd

/-- The function usesSystemd tells whether `systemctl --version` runs without error. -/
def usesSystemd {σ : Type} (r : Runner σ) (w : Session σ) : Session σ × Bool :=
  (⟨(r.RunCmd w.state (exec.Command "systemctl" ["--version"])).1,
      w.issued ++ [exec.Command "systemctl" ["--version"]]⟩,
    (r.RunCmd w.state (exec.Command "systemctl" ["--version"])).2.2.isNone)

end sysinit

/-! ## Concrete inputs used to exercise the definitions -/

namespace command

/-- The rendering of an argument vector used in the examples: the arguments joined by
spaces. -/
def plainCommand (rr : RunResult) : String := strings.Join rr.Args " "

/-- A Go map registering the output of one command. -/
def echoOutputs : StrMap String := ⟨[("echo hi", "hi")], by decide⟩

/-- A fresh runner on which `echo hi` has been registered. -/
def echoRunner : FakeCommandRunner := NewFakeCommandRunner.SetCommandToOutput echoOutputs

/-- A file that reads to its end. -/
def helloFile : assets.CopyableFile :=
  { AssetName := "hello.txt", TargetDir := "/tmp", TargetName := "hello.txt",
    Permissions := "0644", data := "hello world", readErr := none }

/-- Another file with the logical name of `helloFile` and a different content. -/
def helloFile2 : assets.CopyableFile :=
  { AssetName := "hello.txt", TargetDir := "/tmp", TargetName := "hello.txt",
    Permissions := "0644", data := "bye", readErr := none }

/-- A file whose `Read` fails. -/
def unreadableFile : assets.CopyableFile :=
  { AssetName := "kubeadm.yaml", TargetDir := "/var/tmp", TargetName := "kubeadm.yaml",
    Permissions := "0640", data := "", readErr := some (error.external "read failed") }

end command

namespace cmd

/-- The profile `minikube` with the nodes `m01` and `node2`. -/
def minikubeProfile : config.ClusterConfig :=
  { Name := "minikube", Driver := "docker", KubernetesVersion := "v1.20.0",
    Nodes := [⟨"m01", true, true⟩, ⟨"node2", false, true⟩] }

/-- A profile store holding the profile `minikube`. -/
def twoNodeProfiles : StrMap config.ClusterConfig := ⟨[("minikube", minikubeProfile)], by decide⟩

/-- The settings of `minikube node delete --name node2` on the profile `minikube`. -/
def deleteNode2 : viper.Settings := ⟨[("name", "node2"), ("profile", "minikube")]⟩

/-- The settings of `minikube node delete` without a name. -/
def deleteNoName : viper.Settings := ⟨[("profile", "minikube")]⟩

/-- The settings of `minikube node delete --name node9`, a node the profile lacks. -/
def deleteNode9 : viper.Settings := ⟨[("name", "node9"), ("profile", "minikube")]⟩

/-- Collaborators for which the host is running, stopping the node fails and the
destroy operation succeeds. -/
def stopFailsEnv : Env :=
  { MachineProfile := "profile"
    NewAPIClient := Except.ok ⟨0⟩
    readFailure := fun _ => none
    IsHostRunning := fun _ _ => true
    Stop := fun _ _ => some (error.external "stop failed")
    Destroy := fun _ => none }

/-- Collaborators for which the host is stopped and the destroy operation fails. -/
def destroyFailsEnv : Env :=
  { MachineProfile := "profile"
    NewAPIClient := Except.ok ⟨0⟩
    readFailure := fun _ => none
    IsHostRunning := fun _ _ => false
    Stop := fun _ _ => none
    Destroy := fun _ => some (error.external "destroy failed") }

end cmd

namespace node

/-- A config file recording one image under the key `cache`. -/
def oneImageConfig : config.MinikubeConfig :=
  ⟨[("cache", config.Value.mapping ⟨[("busybox:latest", config.Scalar.null)], by decide⟩)],
    by decide⟩

/-- Collaborators of the caching code for which every fetch and every call succeeds, on
linux with a Kubernetes version that requires two images and two binaries. -/
def allSucceedEnv : CacheEnv :=
  { cacheImages := "cache-images"
    Bootstrapper := "bootstrapper"
    cacheImageConfigKey := "cache"
    ConfigFile := "config/config.json"
    ImageCacheDir := "cache/images"
    BaseImage := "gcr.io/k8s-minikube/kicbase:v0.0.8"
    GOOS := "linux"
    GOARCH := "amd64"
    IsKIC := fun d => d == "docker" || d == "podman"
    ReadConfig := fun _ => Except.ok oneImageConfig
    KubeadmCachedImages := fun _ _ => ["k8s.gcr.io/pause:3.2", "k8s.gcr.io/etcd:3.4.3-0"]
    KubeadmCachedBinaries := ["kubelet", "kubeadm"]
    fetchImage := fun _ => none
    fetchBinary := fun _ _ _ _ => none
    WriteImageToDaemon := fun _ => none
    CacheTarball := fun _ => none
    SaveToDir := fun _ _ => none
    CacheAndLoadImages := fun _ => none
    pick := fun _ => 0 }

/-- A config file in which the value under the key `cache` is a string, not a mapping. -/
def stringValueConfig : config.MinikubeConfig :=
  ⟨[("cache", config.Value.scalar (config.Scalar.string "busybox:latest"))], by decide⟩

/-- The same collaborators, except that the config file read is `stringValueConfig`. -/
def stringValueEnv : CacheEnv :=
  { allSucceedEnv with ReadConfig := fun _ => Except.ok stringValueConfig }

/-- The same collaborators, except that fetching the etcd image fails. -/
def imageFailsEnv : CacheEnv :=
  { allSucceedEnv with
    fetchImage := fun img =>
      if img == "k8s.gcr.io/etcd:3.4.3-0" then some (error.external "pull failed") else none }

/-- The same collaborators, except that fetching the kubeadm binary fails. -/
def binaryFailsEnv : CacheEnv :=
  { allSucceedEnv with
    fetchBinary := fun bin _ _ _ =>
      if bin == "kubeadm" then some (error.external "download failed") else none }

/-- The settings of `minikube start --download-only` with image caching enabled. -/
def downloadOnly : viper.Settings :=
  ⟨[("download-only", "true"), ("cache-images", "true"), ("bootstrapper", "kubeadm")]⟩

/-- A world with no file below the minikube home and no step taken. -/
def emptyWorld : World := ⟨⟨StrMap.empty, []⟩, [], []⟩

end node

namespace assets

/-- An arm64 host on which the custom images are the setting `images` and the custom
registries the setting `registries`. -/
def arm64Env : TemplateEnv :=
  { GOARCH := "arm64", AddonImages := "images", AddonRegistries := "registries" }

/-- The addon `freshpod` of the table `Addons`, with `/etc/kubernetes/addons` standing for
`vmpath.GuestAddonsDir`. -/
def freshpod : Addon :=
  NewAddon [⟨"deploy/addons/freshpod/freshpod-rc.yaml.tmpl", "/etc/kubernetes/addons",
      "freshpod-rc.yaml", "0640"⟩]
    false "freshpod" (some ⟨[("FreshPod", "google-samples/freshpod:v0.0.1")], by decide⟩)
    (some ⟨[("FreshPod", "gcr.io")], by decide⟩)

/-- Settings with five custom images, of which the first and the fourth are valid for an
image of `freshpod`, and two custom registries, the first for an image of `freshpod`. -/
def customSettings : viper.Settings :=
  ⟨[("images", "FreshPod=freshpod:v1,Other=x:1,FreshPod=,FreshPod=freshpod:v2,bad"),
    ("registries", "FreshPod=docker.io,Other=quay.io")]⟩

/-- A KubernetesConfig with an image repository written without the final `/`. -/
def mirrorConfig : config.KubernetesConfig :=
  { ImageRepository := "registry.local", LoadBalancerStartIP := "", LoadBalancerEndIP := "",
    CustomIngressCert := "" }

end assets

/-! ## Lemmas on string-keyed maps -/

namespace StrMap

variable {β : Type}

theorem ext_entries {m m' : StrMap β} (h : m.entries = m'.entries) : m = m' := by
  cases m
  cases m'
  simp only at h
  subst h
  rfl

theorem get?_eq_none_iff (m : StrMap β) (k : String) : m.get? k = none ↔ k ∉ m.keys := by
  simp [get?, keys, List.find?_eq_none]
  constructor
  · intro h v hv
    exact h k v hv rfl
  · intro h a b hab hak
    subst hak
    exact h b hab

theorem get?_isSome_iff (m : StrMap β) (k : String) : (m.get? k).isSome ↔ k ∈ m.keys := by
  rw [← not_iff_not, ← get?_eq_none_iff]
  cases m.get? k <;> simp

theorem find_filter_self (l : List (String × β)) (k : String) :
    (l.filter (fun e => e.1 != k)).find? (fun e => e.1 == k) = none := by
  simp [List.find?_eq_none]

theorem find_filter_ne (l : List (String × β)) {k k' : String} (h : k' ≠ k) :
    (l.filter (fun e => e.1 != k)).find? (fun e => e.1 == k') =
      l.find? (fun e => e.1 == k') := by
  induction l with
  | nil => rfl
  | cons e l ih =>
    obtain ⟨a, b⟩ := e
    by_cases h1 : a = k
    · subst h1
      have h2 : ¬ a = k' := fun h3 => h h3.symm
      simp [List.filter_cons, List.find?_cons, h2, ih]
    · by_cases h2 : a = k'
      · subst h2
        simp [List.filter_cons, List.find?_cons, h1]
      · simp [List.filter_cons, List.find?_cons, h1, h2, ih]

end StrMap

namespace syncmap.Map

variable {β σ : Type}

theorem Load_Store_self (m : Map β) (k : String) (v : β) : (m.Store k v).Load k = some v := by
  simp [Load, Store, StrMap.get?]

theorem Load_Store_ne (m : Map β) {k k' : String} (v : β) (h : k' ≠ k) :
    (m.Store k v).Load k' = m.Load k' := by
  have h2 : ¬ k = k' := fun h3 => h h3.symm
  simp [Load, Store, Delete, StrMap.get?, List.find?_cons, h2, StrMap.find_filter_ne _ h]

theorem Load_Delete_self (m : Map β) (k : String) : (m.Delete k).Load k = none := by
  simp [Load, Delete, StrMap.get?, StrMap.find_filter_self]

theorem Load_Delete_ne (m : Map β) {k k' : String} (h : k' ≠ k) :
    (m.Delete k).Load k' = m.Load k' := by
  simp [Load, Delete, StrMap.get?, StrMap.find_filter_ne _ h]

theorem Delete_Store (m : Map β) (k : String) (v : β) : (m.Store k v).Delete k = m.Delete k := by
  apply StrMap.ext_entries
  simp [Store, Delete, List.filter_cons, List.filter_filter]

theorem Store_Store (m : Map β) (k : String) (v v' : β) :
    (m.Store k v).Store k v' = m.Store k v' := by
  apply StrMap.ext_entries
  have h := congrArg StrMap.entries (Delete_Store m k v)
  simp only [Store] at h ⊢
  rw [h]

theorem rangeLoop_continue (g : String → σ → σ) (l : List (String × β)) (init : σ) :
    rangeLoop (fun k _ s => (g k s, true)) l init = l.foldl (fun s e => g e.1 s) init := by
  induction l generalizing init with
  | nil => rfl
  | cons e l ih =>
    obtain ⟨k, v⟩ := e
    simp [rangeLoop, ih]

end syncmap.Map


/-! ## Lemmas on the Go library pieces -/

namespace fmt

theorem backquoted_injective {k k' : String} (h : backquoted k = backquoted k') : k = k' := by
  have h1 := congrArg String.data h
  simp only [backquoted, String.data_append, List.append_assoc] at h1
  have h2 := List.append_cancel_right (List.append_cancel_left h1)
  exact String.ext h2

theorem intercalate_go_contains (sep : String) (rest : List String) :
    ∀ acc : String,
      (∀ x : List Char, x <:+: acc.data → x <:+: (String.intercalate.go acc sep rest).data) ∧
      (∀ a ∈ rest, a.data <:+: (String.intercalate.go acc sep rest).data) := by
  induction rest with
  | nil =>
    intro acc
    exact ⟨fun x hx => by simpa [String.intercalate.go] using hx, fun a ha => by simp at ha⟩
  | cons b rest ih =>
    intro acc
    obtain ⟨ih1, ih2⟩ := ih (acc ++ sep ++ b)
    refine ⟨fun x hx => ?_, fun a ha => ?_⟩
    · simp only [String.intercalate.go]
      apply ih1
      simp only [String.data_append, List.append_assoc]
      exact hx.trans (List.infix_append' [] acc.data (sep.data ++ b.data))
    · simp only [String.intercalate.go]
      rcases List.mem_cons.mp ha with rfl | hmem
      · apply ih1
        simp only [String.data_append]
        exact (List.suffix_append _ _).isInfix
      · exact ih2 a hmem

theorem infix_intercalate (sep : String) {xs : List String} {a : String} (h : a ∈ xs) :
    a.data <:+: (sep.intercalate xs).data := by
  cases xs with
  | nil => simp at h
  | cons b rest =>
    simp only [String.intercalate]
    rcases List.mem_cons.mp h with rfl | hmem
    · exact (intercalate_go_contains sep rest a).1 a.data (List.infix_refl _)
    · exact (intercalate_go_contains sep rest b).2 a hmem

theorem infix_sliceV {xs : List String} {a : String} (h : a ∈ xs) :
    a.data <:+: (sliceV xs).data := by
  simp only [sliceV, String.data_append]
  exact (infix_intercalate " " h).trans
    ((List.suffix_append _ _).isInfix.trans (List.prefix_append _ _).isInfix)

end fmt


/-! ## Lemmas on the Fake runner -/

namespace command.FakeCommandRunner

theorem commands_eq (f : FakeCommandRunner) : f.commands = f.cmdMap.keys.map fmt.backquoted := by
  have hfold : ∀ (l : List (String × Option String)) (init : List String),
      l.foldl (fun s e => s ++ [fmt.backquoted e.1]) init =
        init ++ (l.map Prod.fst).map fmt.backquoted := by
    intro l
    induction l with
    | nil => intro init; simp
    | cons e l ih => intro init; simp [ih]
  unfold commands syncmap.Map.Range
  rw [syncmap.Map.rangeLoop_continue (fun k s => s ++ [fmt.backquoted k])]
  simpa [StrMap.keys] using hfold f.cmdMap.entries []

theorem mem_entries_of_get? {β : Type} (m : StrMap β) {k : String} {o : β}
    (h : m.get? k = some o) : (k, o) ∈ m.entries := by
  simp only [StrMap.get?, Option.map_eq_some'] at h
  obtain ⟨e, he, ho⟩ := h
  have hk := List.find?_some he
  have hmem := List.mem_of_find?_eq_some he
  obtain ⟨a, b⟩ := e
  simp only [beq_iff_eq] at hk
  simp only at ho
  subst hk
  subst ho
  exact hmem

theorem foldl_cmd_not_mem (l : List (String × String)) (k : String) :
    ∀ f : FakeCommandRunner, k ∉ l.map Prod.fst →
      (l.foldl (fun f e => { f with cmdMap := f.cmdMap.Store e.1 (some e.2) }) f).cmdMap.Load k =
        f.cmdMap.Load k := by
  induction l with
  | nil => intro f _; rfl
  | cons e l ih =>
    intro f hk
    simp only [List.map_cons, List.mem_cons, not_or] at hk
    simp only [List.foldl_cons]
    rw [ih _ hk.2]
    exact syncmap.Map.Load_Store_ne _ _ hk.1

theorem foldl_cmd_mem (l : List (String × String)) (k o : String) :
    ∀ f : FakeCommandRunner, (l.map Prod.fst).Nodup → (k, o) ∈ l →
      (l.foldl (fun f e => { f with cmdMap := f.cmdMap.Store e.1 (some e.2) }) f).cmdMap.Load k =
        some (some o) := by
  induction l with
  | nil => intro f _ h; simp at h
  | cons e l ih =>
    intro f hnd hmem
    simp only [List.map_cons, List.nodup_cons] at hnd
    simp only [List.foldl_cons]
    rcases List.mem_cons.mp hmem with rfl | hin
    · rw [foldl_cmd_not_mem l _ _ hnd.1]
      exact syncmap.Map.Load_Store_self _ _ _
    · exact ih _ hnd.2 hin

theorem Load_SetCommandToOutput_of_get? (f : FakeCommandRunner) (m : StrMap String)
    {k o : String} (h : m.get? k = some o) :
    (f.SetCommandToOutput m).cmdMap.Load k = some (some o) :=
  foldl_cmd_mem m.entries k o f m.nodupKeys (mem_entries_of_get? m h)

theorem Load_SetCommandToOutput_of_none (f : FakeCommandRunner) (m : StrMap String)
    {k : String} (h : m.get? k = none) :
    (f.SetCommandToOutput m).cmdMap.Load k = f.cmdMap.Load k :=
  foldl_cmd_not_mem m.entries k f ((StrMap.get?_eq_none_iff m k).mp h)

theorem mem_keys_SetCommandToOutput (f : FakeCommandRunner) (m : StrMap String) (k : String) :
    k ∈ (f.SetCommandToOutput m).cmdMap.keys ↔ k ∈ m.keys ∨ k ∈ f.cmdMap.keys := by
  rw [← StrMap.get?_isSome_iff, ← StrMap.get?_isSome_iff, ← StrMap.get?_isSome_iff]
  cases h : m.get? k with
  | none =>
    have h1 := Load_SetCommandToOutput_of_none f m h
    simp only [syncmap.Map.Load] at h1
    simp [h1]
  | some o =>
    have h1 := Load_SetCommandToOutput_of_get? f m h
    simp only [syncmap.Map.Load] at h1
    simp [h1]

theorem RunCmd_of_Load_none (Command : RunResult → String) (f : FakeCommandRunner)
    (cmd : exec.Cmd) (h : f.cmdMap.Load (strings.Join cmd.Args " ") = none) :
    f.RunCmd Command cmd =
      (⟨bytes.Buffer.empty, bytes.Buffer.empty, cmd.Args⟩,
        some (error.Errorf (unregisteredText
          (Command ⟨bytes.Buffer.empty, bytes.Buffer.empty, cmd.Args⟩) f.commands))) := by
  simp [RunCmd, h]

theorem RunCmd_of_Load_some (Command : RunResult → String) (f : FakeCommandRunner)
    (cmd : exec.Cmd) (o : String) (h : f.cmdMap.Load (strings.Join cmd.Args " ") = some (some o)) :
    f.RunCmd Command cmd = (⟨⟨o⟩, ⟨o⟩, cmd.Args⟩, none) := by
  have he : ("" : String) ++ o = o := by
    apply String.ext
    simp
  simp [RunCmd, h, bytes.Buffer.WriteString, bytes.Buffer.empty, he]

theorem RunCmd_err_of_Load_some (Command : RunResult → String) (f : FakeCommandRunner)
    (cmd : exec.Cmd) (out : Option String)
    (h : f.cmdMap.Load (strings.Join cmd.Args " ") = some out) :
    (f.RunCmd Command cmd).2 = none := by
  simp [RunCmd, h, bytes.Buffer.WriteString]

end command.FakeCommandRunner


/-! ## Properties of the Fake runner -/

namespace command.FakeCommandRunner

theorem Copy_readable (f : FakeCommandRunner) (file : assets.CopyableFile)
    (h : file.readErr = none) :
    f.Copy file = ({ f with fileMap := f.fileMap.Store file.AssetName file.data }, none,
      { file with data := "" }) := by
  have he : ("" : String) ++ file.data = file.data := by
    apply String.ext
    simp
  simp [Copy, io.Copy, h, bytes.Buffer.empty, bytes.Buffer.String,
    assets.CopyableFile.GetAssetName, he]

theorem GetFileToContents_of_Load_none (f : FakeCommandRunner) (name : String)
    (h : f.fileMap.Load name = none) :
    f.GetFileToContents name = ("", some (error.Errorf ("unavailable file: " ++ name))) := by
  simp [GetFileToContents, h]

theorem GetFileToContents_of_Load_some (f : FakeCommandRunner) (name c : String)
    (h : f.fileMap.Load name = some c) : f.GetFileToContents name = (c, none) := by
  simp [GetFileToContents, h]

/-- C3: for every state of the Fake runner and every argument vector, `RunCmd` returns
the unregistered-command error exactly when the space-joined argument vector is not a
key of the command map, and returns no error exactly when it is one; a new runner has
no registered key and `SetCommandToOutput` registers exactly the keys of its argument
on top of those registered before. -/
theorem C3_unregistered_command_fails (Command : RunResult → String) (f : FakeCommandRunner)
    (cmd : exec.Cmd) :
    (strings.Join cmd.Args " " ∉ f.cmdMap.keys ↔
      (f.RunCmd Command cmd).2 = some (error.Errorf (unregisteredText
        (Command ⟨bytes.Buffer.empty, bytes.Buffer.empty, cmd.Args⟩) f.commands))) ∧
    (strings.Join cmd.Args " " ∈ f.cmdMap.keys ↔ (f.RunCmd Command cmd).2 = none) ∧
    NewFakeCommandRunner.cmdMap.keys = [] ∧
    (∀ (m : StrMap String) (k : String),
      k ∈ (f.SetCommandToOutput m).cmdMap.keys ↔ k ∈ m.keys ∨ k ∈ f.cmdMap.keys) := by
  refine ⟨?_, ?_, rfl, fun m k => mem_keys_SetCommandToOutput f m k⟩
  · cases h : f.cmdMap.Load (strings.Join cmd.Args " ") with
    | none =>
      have hk := (StrMap.get?_eq_none_iff _ _).mp h
      simp [hk, RunCmd_of_Load_none Command f cmd h]
    | some o =>
      have hk : strings.Join cmd.Args " " ∈ f.cmdMap.keys := by
        rw [← StrMap.get?_isSome_iff]
        simp only [syncmap.Map.Load] at h
        simp [h]
      simp [hk, RunCmd_err_of_Load_some Command f cmd o h]
  · cases h : f.cmdMap.Load (strings.Join cmd.Args " ") with
    | none =>
      have hk := (StrMap.get?_eq_none_iff _ _).mp h
      simp [hk, RunCmd_of_Load_none Command f cmd h]
    | some o =>
      have hk : strings.Join cmd.Args " " ∈ f.cmdMap.keys := by
        rw [← StrMap.get?_isSome_iff]
        simp only [syncmap.Map.Load] at h
        simp [h]
      simp [hk, RunCmd_err_of_Load_some Command f cmd o h]

/-- C4: when the space-joined argument vector is a key of the Go map handed to
`SetCommandToOutput` with output `o`, then on the runner after that call, whatever was
registered before, `RunCmd` returns no error and a result whose `Args` are the argument
vector and whose `Stdout` is exactly `o`; and every key that is not in that Go map keeps
the value it had before the call. -/
theorem C4_registered_command_output (Command : RunResult → String) (f : FakeCommandRunner)
    (m : StrMap String) (cmd : exec.Cmd) (o : String)
    (h : m.get? (strings.Join cmd.Args " ") = some o) :
    (f.SetCommandToOutput m).RunCmd Command cmd = (⟨⟨o⟩, ⟨o⟩, cmd.Args⟩, none) ∧
    ((f.SetCommandToOutput m).RunCmd Command cmd).1.Args = cmd.Args ∧
    ((f.SetCommandToOutput m).RunCmd Command cmd).1.Stdout.String = o ∧
    (∀ k : String, m.get? k = none →
      (f.SetCommandToOutput m).cmdMap.Load k = f.cmdMap.Load k) := by
  have h1 := RunCmd_of_Load_some Command (f.SetCommandToOutput m) cmd o
    (Load_SetCommandToOutput_of_get? f m h)
  refine ⟨h1, ?_, ?_, fun k hk => Load_SetCommandToOutput_of_none f m hk⟩
  · rw [h1]
  · rw [h1]
    rfl

theorem C4_registered_command_output_witness :
    echoOutputs.get? (strings.Join (exec.Cmd.mk ["echo", "hi"]).Args " ") = some "hi" ∧
    (echoRunner.SetCommandToOutput echoOutputs).RunCmd plainCommand ⟨["echo", "hi"]⟩ =
      (⟨⟨"hi"⟩, ⟨"hi"⟩, ["echo", "hi"]⟩, none) :=
  ⟨by decide,
    (C4_registered_command_output plainCommand echoRunner echoOutputs ⟨["echo", "hi"]⟩ "hi"
      (by decide)).1⟩

/-- C5: for every state of the Fake runner and every command that is not registered,
the list built by `commands` has exactly one entry per key of the command map, each the
key between backticks, and no other entry; the error `RunCmd` returns is the
unregistered-command error whose text contains the rendered list, every entry of it and
the rendering of the attempted command. -/
theorem C5_error_lists_registered_commands (Command : RunResult → String)
    (f : FakeCommandRunner) (cmd : exec.Cmd)
    (h : strings.Join cmd.Args " " ∉ f.cmdMap.keys) :
    f.commands.length = f.cmdMap.keys.length ∧
    f.commands.Nodup ∧
    (∀ k ∈ f.cmdMap.keys, f.commands.count (fmt.backquoted k) = 1) ∧
    (∀ e ∈ f.commands, ∃ k ∈ f.cmdMap.keys, e = fmt.backquoted k) ∧
    ∃ text : String, (f.RunCmd Command cmd).2 = some (error.Errorf text) ∧
      (fmt.sliceV f.commands).data <:+: text.data ∧
      (∀ e ∈ f.commands, e.data <:+: text.data) ∧
      (Command (f.RunCmd Command cmd).1).data <:+: text.data := by
  have hnd : f.commands.Nodup := by
    rw [commands_eq]
    exact List.Nodup.map (fun _ _ hkk => fmt.backquoted_injective hkk) f.cmdMap.nodupKeys
  have hmem : ∀ k ∈ f.cmdMap.keys, fmt.backquoted k ∈ f.commands := by
    intro k hk
    rw [commands_eq]
    exact List.mem_map_of_mem _ hk
  have hload := (StrMap.get?_eq_none_iff _ _).mpr h
  have hrun := RunCmd_of_Load_none Command f cmd hload
  have hslice : (fmt.sliceV f.commands).data <:+:
      (unregisteredText (Command ⟨bytes.Buffer.empty, bytes.Buffer.empty, cmd.Args⟩)
        f.commands).data := by
    simp only [unregisteredText, String.data_append]
    exact (List.suffix_append _ _).isInfix.trans (List.prefix_append _ _).isInfix
  refine ⟨by rw [commands_eq, List.length_map], hnd,
    fun k hk => List.count_eq_one_of_mem hnd (hmem k hk), ?_, ?_⟩
  · intro e he
    rw [commands_eq] at he
    obtain ⟨k, hk, rfl⟩ := List.mem_map.mp he
    exact ⟨k, hk, rfl⟩
  · refine ⟨_, congrArg Prod.snd hrun, hslice, fun e he => (fmt.infix_sliceV he).trans hslice, ?_⟩
    rw [hrun]
    simp only [unregisteredText, String.data_append, List.append_assoc]
    exact (List.prefix_append _ _).isInfix.trans (List.suffix_append _ _).isInfix

theorem C5_error_lists_registered_commands_witness :
    strings.Join (exec.Cmd.mk ["ls", "-l"]).Args " " ∉ echoRunner.cmdMap.keys ∧
    echoRunner.commands.length = echoRunner.cmdMap.keys.length ∧
    echoRunner.commands.Nodup :=
  ⟨by decide,
    (C5_error_lists_registered_commands plainCommand echoRunner ⟨["ls", "-l"]⟩ (by decide)).1,
    (C5_error_lists_registered_commands plainCommand echoRunner ⟨["ls", "-l"]⟩ (by decide)).2.1⟩

/-- C6: for every state and every readable file with logical name `n` and content `c`,
`Copy` returns no error and `GetFileToContents n` on the resulting runner returns exactly
`c` with no error; on every runner `GetFileToContents` returns the unavailable-file error
exactly for the names that are not keys of the file map, and no error for the others. -/
theorem C6_copy_then_get_roundtrip (f : FakeCommandRunner) (file : assets.CopyableFile)
    (h : file.readErr = none) :
    (f.Copy file).2.1 = none ∧
    (f.Copy file).1.GetFileToContents file.GetAssetName = (file.data, none) ∧
    (∀ (g : FakeCommandRunner) (name : String),
      name ∉ g.fileMap.keys ↔
        g.GetFileToContents name = ("", some (error.Errorf ("unavailable file: " ++ name)))) ∧
    (∀ (g : FakeCommandRunner) (name : String),
      name ∈ g.fileMap.keys ↔ (g.GetFileToContents name).2 = none) := by
  refine ⟨by rw [Copy_readable f file h], ?_, ?_, ?_⟩
  · rw [Copy_readable f file h]
    exact GetFileToContents_of_Load_some _ _ _ (syncmap.Map.Load_Store_self _ _ _)
  · intro g name
    cases hl : g.fileMap.Load name with
    | none =>
      have hk := (StrMap.get?_eq_none_iff _ _).mp hl
      simp [hk, GetFileToContents_of_Load_none g name hl]
    | some c =>
      have hk : name ∈ g.fileMap.keys := by
        rw [← StrMap.get?_isSome_iff]
        simp only [syncmap.Map.Load] at hl
        simp [hl]
      simp [hk, GetFileToContents_of_Load_some g name c hl]
  · intro g name
    cases hl : g.fileMap.Load name with
    | none =>
      have hk := (StrMap.get?_eq_none_iff _ _).mp hl
      simp [hk, GetFileToContents_of_Load_none g name hl]
    | some c =>
      have hk : name ∈ g.fileMap.keys := by
        rw [← StrMap.get?_isSome_iff]
        simp only [syncmap.Map.Load] at hl
        simp [hl]
      simp [hk, GetFileToContents_of_Load_some g name c hl]

theorem C6_copy_then_get_roundtrip_witness :
    helloFile.readErr = none ∧
    (echoRunner.Copy helloFile).2.1 = none ∧
    (echoRunner.Copy helloFile).1.GetFileToContents "hello.txt" = ("hello world", none) :=
  ⟨rfl, (C6_copy_then_get_roundtrip echoRunner helloFile rfl).1,
    (C6_copy_then_get_roundtrip echoRunner helloFile rfl).2.1⟩

/-- C7, as stated, fails twice. `Copy` of a file whose read fails returns an error, so
copying two files with the same logical name does not succeed both times for every
file. And `Copy` reads the file to its end without rewinding it, so re-copying the same
readable file stores what is left to read, which is nothing: after the second `Copy` of
`helloFile` the name maps to the empty content, and the state is not the state after
copying it once, in which the name maps to `hello world`. -/
theorem C7_copy_fails_or_stores_rest :
    (NewFakeCommandRunner.Copy unreadableFile).2.1 =
      some (error.Wrap (error.external "read failed") "error reading file: %+v") ∧
    ¬ ((NewFakeCommandRunner.Copy unreadableFile).2.1 = none ∧
      ((NewFakeCommandRunner.Copy unreadableFile).1.Copy
        (NewFakeCommandRunner.Copy unreadableFile).2.2).2.1 = none) ∧
    helloFile.readErr = none ∧
    (NewFakeCommandRunner.Copy helloFile).1.GetFileToContents "hello.txt" =
      ("hello world", none) ∧
    ((NewFakeCommandRunner.Copy helloFile).1.Copy
      (NewFakeCommandRunner.Copy helloFile).2.2).1.GetFileToContents "hello.txt" = ("", none) ∧
    ¬ ((NewFakeCommandRunner.Copy helloFile).1.Copy (NewFakeCommandRunner.Copy helloFile).2.2).1 =
      (NewFakeCommandRunner.Copy helloFile).1 := by
  refine ⟨rfl, ?_, rfl, by decide, by decide, ?_⟩
  · intro hc
    have h1 : (NewFakeCommandRunner.Copy unreadableFile).2.1 =
        some (error.Wrap (error.external "read failed") "error reading file: %+v") := rfl
    rw [h1] at hc
    exact Option.noConfusion hc.1
  · intro hc
    have h1 := congrArg (fun g : FakeCommandRunner => g.GetFileToContents "hello.txt") hc
    revert h1
    decide

/-- C7, amended: for every state and any two readable files with the same logical name,
`Copy` of the first then `Copy` of the second succeeds both times and leaves the same
state as `Copy` of the second alone, in which the name maps to the content of the second
file. `Copy` leaves the file read to its end, with its name, so re-copying the same
readable file succeeds and stores the empty content under the name: the state is then
the state after copying it once exactly when the file had nothing to deliver. -/
theorem C7_copy_overwrites_readable (f : FakeCommandRunner) (a b : assets.CopyableFile)
    (ha : a.readErr = none) (hb : b.readErr = none) (hn : a.GetAssetName = b.GetAssetName) :
    (f.Copy a).2.1 = none ∧
    ((f.Copy a).1.Copy b).2.1 = none ∧
    ((f.Copy a).1.Copy b).1 = (f.Copy b).1 ∧
    ((f.Copy a).1.Copy b).1.GetFileToContents b.GetAssetName = (b.data, none) ∧
    (f.Copy a).2.2 = { a with data := "" } ∧
    ((f.Copy a).1.Copy (f.Copy a).2.2).2.1 = none ∧
    ((f.Copy a).1.Copy (f.Copy a).2.2).1.GetFileToContents a.GetAssetName = ("", none) ∧
    (((f.Copy a).1.Copy (f.Copy a).2.2).1 = (f.Copy a).1 ↔ a.data = "") := by
  have hn' : a.AssetName = b.AssetName := hn
  have ha' : ({ a with data := "" } : assets.CopyableFile).readErr = none := ha
  refine ⟨by rw [Copy_readable f a ha], by rw [Copy_readable _ b hb], ?_, ?_,
    by rw [Copy_readable f a ha], ?_, ?_, ?_⟩
  · rw [Copy_readable _ b hb, Copy_readable f a ha, Copy_readable f b hb]
    simp only [hn', syncmap.Map.Store_Store]
  · rw [Copy_readable _ b hb]
    exact GetFileToContents_of_Load_some _ _ _ (syncmap.Map.Load_Store_self _ _ _)
  · rw [Copy_readable f a ha, Copy_readable _ _ ha']
  · rw [Copy_readable f a ha, Copy_readable _ _ ha']
    exact GetFileToContents_of_Load_some _ _ _ (syncmap.Map.Load_Store_self _ _ _)
  · rw [Copy_readable f a ha, Copy_readable _ _ ha']
    simp only [syncmap.Map.Store_Store]
    constructor
    · intro h
      have h1 := congrArg (fun g : FakeCommandRunner => g.fileMap.Load a.AssetName) h
      simp only [syncmap.Map.Load_Store_self] at h1
      exact (Option.some.inj h1).symm
    · intro h
      rw [h]

theorem C7_copy_overwrites_readable_witness :
    helloFile.readErr = none ∧ helloFile2.readErr = none ∧
    helloFile.GetAssetName = helloFile2.GetAssetName ∧
    ((echoRunner.Copy helloFile).1.Copy helloFile2).1 = (echoRunner.Copy helloFile2).1 ∧
    ((echoRunner.Copy helloFile).1.Copy helloFile2).1.GetFileToContents "hello.txt" =
      ("bye", none) ∧
    ((echoRunner.Copy helloFile).1.Copy (echoRunner.Copy helloFile).2.2).1.GetFileToContents
      "hello.txt" = ("", none) :=
  ⟨rfl, rfl, rfl,
    (C7_copy_overwrites_readable echoRunner helloFile helloFile2 rfl rfl rfl).2.2.1,
    (C7_copy_overwrites_readable echoRunner helloFile helloFile2 rfl rfl rfl).2.2.2.1,
    (C7_copy_overwrites_readable echoRunner helloFile helloFile2 rfl rfl rfl).2.2.2.2.2.2.1⟩

/-- C8: for every state of the Fake runner and every file with logical name `n`, stored
or not, `Remove` returns no error, afterwards `GetFileToContents n` fails as unavailable
and every other name gets exactly the result it got before; the command map is left as
it was; and `Remove` after `Copy` of a file with that name leaves `n` absent again. -/
theorem C8_remove_deletes_only_its_key (f : FakeCommandRunner) (file : assets.CopyableFile) :
    (f.Remove file).2 = none ∧
    (f.Remove file).1.GetFileToContents file.GetAssetName =
      ("", some (error.Errorf ("unavailable file: " ++ file.GetAssetName))) ∧
    (∀ name : String, name ≠ file.GetAssetName →
      (f.Remove file).1.GetFileToContents name = f.GetFileToContents name) ∧
    (f.Remove file).1.cmdMap = f.cmdMap ∧
    ((f.Copy file).1.Remove file).2 = none ∧
    ((f.Copy file).1.Remove file).1.GetFileToContents file.GetAssetName =
      ("", some (error.Errorf ("unavailable file: " ++ file.GetAssetName))) ∧
    ((f.Copy file).1.Remove file).1.fileMap = (f.Remove file).1.fileMap := by
  refine ⟨rfl, ?_, ?_, rfl, rfl, ?_, ?_⟩
  · exact GetFileToContents_of_Load_none _ _ (syncmap.Map.Load_Delete_self _ _)
  · intro name hne
    simp only [GetFileToContents, Remove, syncmap.Map.Load_Delete_ne _ hne]
  · exact GetFileToContents_of_Load_none _ _ (syncmap.Map.Load_Delete_self _ _)
  · cases hr : file.readErr with
    | none =>
      rw [Copy_readable f file hr]
      simp only [Remove, assets.CopyableFile.GetAssetName, syncmap.Map.Delete_Store]
    | some err =>
      simp [Copy, io.Copy, hr, Remove]

end command.FakeCommandRunner


/-! ## Lemmas on the delete-node command -/

namespace node

theorem retrieveFrom_eq_none_iff (name : String) (l : List config.Node) :
    ∀ i : Nat, retrieveFrom name l i = none ↔ ∀ n ∈ l, n.Name ≠ name := by
  induction l with
  | nil => intro i; simp [retrieveFrom]
  | cons m l ih =>
    intro i
    by_cases hm : m.Name = name
    · simp [retrieveFrom, hm]
    · simp [retrieveFrom, hm, ih (i + 1)]

theorem retrieveFrom_some (name : String) (l : List config.Node) :
    ∀ (i : Nat) (n : config.Node) (j : Nat),
      retrieveFrom name l i = some (n, j) → n ∈ l ∧ n.Name = name := by
  induction l with
  | nil => intro i n j h; simp [retrieveFrom] at h
  | cons m l ih =>
    intro i n j h
    by_cases hm : m.Name = name
    · simp only [retrieveFrom, hm, beq_self_eq_true, if_true, Option.some.injEq,
        Prod.mk.injEq] at h
      obtain ⟨h1, _⟩ := h
      subst h1
      exact ⟨List.mem_cons_self _ _, hm⟩
    · have hb : (m.Name == name) = false := by simpa using hm
      simp only [retrieveFrom, hb] at h
      obtain ⟨h1, h2⟩ := ih (i + 1) n j h
      exact ⟨List.mem_cons_of_mem _ h1, h2⟩

theorem Retrieve_error_iff (cc : config.ClusterConfig) (name : String) :
    (∃ err, Retrieve cc name = Except.error err) ↔ ∀ n ∈ cc.Nodes, n.Name ≠ name := by
  rw [← retrieveFrom_eq_none_iff name cc.Nodes 0]
  unfold Retrieve
  cases retrieveFrom name cc.Nodes 0 <;> simp

theorem Retrieve_ok (cc : config.ClusterConfig) (name : String) (n : config.Node) (idx : Nat)
    (h : Retrieve cc name = Except.ok (n, idx)) : n ∈ cc.Nodes ∧ n.Name = name := by
  unfold Retrieve at h
  cases hr : retrieveFrom name cc.Nodes 0 with
  | none => simp [hr] at h
  | some r =>
    simp only [hr, Except.ok.injEq] at h
    subst h
    exact retrieveFrom_some name cc.Nodes 0 n idx hr

end node

namespace config

theorem Load_ok (env : Env) (profiles : StrMap ClusterConfig) (profile : String)
    (cc : ClusterConfig) (h : Load env profiles profile = Except.ok cc) :
    profiles.get? profile = some cc := by
  unfold Load at h
  cases hr : env.readFailure profile with
  | some err => simp [hr] at h
  | none =>
    cases hg : profiles.get? profile with
    | none => simp [hr, hg] at h
    | some cc' =>
      simp only [hr, hg, Except.ok.injEq] at h
      rw [h]

end config

namespace cmd.nodeDeleteCmd

theorem deleteStep_eq (env : Env) (v : viper.Settings) (cc : config.ClusterConfig)
    (name : String) (st : State) :
    deleteStep env v cc name st =
      match env.Destroy name with
      | some err =>
        ⟨⟨st.profiles, st.trace ++ [Event.Delete name (some err),
          Event.FatalT "Failed to delete node \x7b\x7b.name\x7d\x7d" name]⟩,
          Termination.fatalError⟩
      | none =>
        ⟨⟨syncmap.Map.Store st.profiles (viper.GetString v env.MachineProfile)
            { cc with Nodes := cc.Nodes.filter (fun n => n.Name != name) },
          st.trace ++ [Event.Delete name none]⟩, Termination.returned⟩ := by
  unfold deleteStep node.Delete
  cases env.Destroy name <;> simp [out.FatalT, State.record]

theorem Run_no_name (env : Env) (v : viper.Settings) (profiles : StrMap config.ClusterConfig)
    (hname : viper.GetString v "name" = "") :
    Run env v profiles = ⟨⟨profiles, [Event.UsageT "name is required"]⟩, Termination.usageError⟩ := by
  simp [Run, hname, exit.UsageT, State.record]

theorem Run_no_api (env : Env) (v : viper.Settings) (profiles : StrMap config.ClusterConfig)
    (err : error) (hname : viper.GetString v "name" ≠ "")
    (hapi : env.NewAPIClient = Except.error err) :
    Run env v profiles =
      ⟨⟨profiles, [Event.NewAPIClient, Event.WithError "creating api client" err]⟩,
        Termination.fatalError⟩ := by
  simp [Run, hname, hapi, exit.WithError, State.record]

theorem Run_no_config (env : Env) (v : viper.Settings) (profiles : StrMap config.ClusterConfig)
    (api : machine.API) (err : error) (hname : viper.GetString v "name" ≠ "")
    (hapi : env.NewAPIClient = Except.ok api)
    (hload : config.Load env profiles (viper.GetString v env.MachineProfile) = Except.error err) :
    Run env v profiles =
      ⟨⟨profiles, [Event.NewAPIClient, Event.Load (viper.GetString v env.MachineProfile),
        Event.WithError "loading config" err]⟩, Termination.fatalError⟩ := by
  simp [Run, hname, hapi, hload, exit.WithError, State.record]

theorem Run_no_node (env : Env) (v : viper.Settings) (profiles : StrMap config.ClusterConfig)
    (api : machine.API) (cc : config.ClusterConfig) (err : error)
    (hname : viper.GetString v "name" ≠ "")
    (hapi : env.NewAPIClient = Except.ok api)
    (hload : config.Load env profiles (viper.GetString v env.MachineProfile) = Except.ok cc)
    (hret : node.Retrieve cc (viper.GetString v "name") = Except.error err) :
    Run env v profiles =
      ⟨⟨profiles, [Event.NewAPIClient, Event.Load (viper.GetString v env.MachineProfile),
        Event.Retrieve (viper.GetString v "name"),
        Event.WithError "retrieving node" err]⟩, Termination.fatalError⟩ := by
  simp [Run, hname, hapi, hload, hret, exit.WithError, State.record]

theorem Run_found (env : Env) (v : viper.Settings) (profiles : StrMap config.ClusterConfig)
    (api : machine.API) (cc : config.ClusterConfig) (n : config.Node) (idx : Nat)
    (hname : viper.GetString v "name" ≠ "")
    (hapi : env.NewAPIClient = Except.ok api)
    (hload : config.Load env profiles (viper.GetString v env.MachineProfile) = Except.ok cc)
    (hret : node.Retrieve cc (viper.GetString v "name") = Except.ok (n, idx)) :
    Run env v profiles =
      deleteStep env v cc (viper.GetString v "name")
        ⟨profiles, [Event.NewAPIClient, Event.Load (viper.GetString v env.MachineProfile),
          Event.Retrieve (viper.GetString v "name"),
          Event.IsHostRunning (viper.GetString v "name")
            (env.IsHostRunning api (viper.GetString v "name"))] ++
          (if env.IsHostRunning api (viper.GetString v "name") = true then
            (match env.Stop cc n with
              | some err => [Event.Stop n (some err),
                  Event.Warningf "Failed to stop node, will still try to delete"]
              | none => [Event.Stop n none])
          else [])⟩ := by
  simp only [Run, hname, hapi, hload, hret, cluster.IsHostRunning, node.Stop, State.record]
  cases env.IsHostRunning api (viper.GetString v "name") <;> cases env.Stop cc n <;>
    simp [hname]

/-! ## Properties of the delete-node command -/

/-- C1: in every run of the delete-node command in which the name is non-empty and the
API client, the config load and `node.Retrieve` succeed, `node.Delete` is invoked exactly
once, for the given name, whatever `cluster.IsHostRunning` reports and whatever
`node.Stop` returns; the trace records what that call returned; no error is passed to
`exit.WithError`; if `node.Delete` returns no error the command returns with exit
status 0. In particular, when the host is running and
`node.Stop` returns an error, the run logs the warning and goes on to the one call of
`node.Delete`, whose result alone decides how the command ends. -/
theorem C1_delete_invoked_once_despite_stop_failure (env : Env) (v : viper.Settings)
    (profiles : StrMap config.ClusterConfig) (api : machine.API) (cc : config.ClusterConfig)
    (n : config.Node) (idx : Nat)
    (hname : viper.GetString v "name" ≠ "")
    (hapi : env.NewAPIClient = Except.ok api)
    (hload : config.Load env profiles (viper.GetString v env.MachineProfile) = Except.ok cc)
    (hret : node.Retrieve cc (viper.GetString v "name") = Except.ok (n, idx)) :
    ∃ derr : Option error,
      (∀ st : State, (node.Delete env v cc (viper.GetString v "name") st).2 = derr) ∧
      (Run env v profiles).state.trace.filter Event.isDelete =
        [Event.Delete (viper.GetString v "name") derr] ∧
      (∀ (msg : String) (err : error),
        Event.WithError msg err ∉ (Run env v profiles).state.trace) ∧
      (derr = none →
        (Run env v profiles).termination = Termination.returned ∧
        (Run env v profiles).termination.nonZeroExit = false) ∧
      (∀ serr : error,
        cluster.IsHostRunning env api (viper.GetString v "name") = true →
        node.Stop env cc n = some serr →
        (Run env v profiles).state.trace =
          [Event.NewAPIClient, Event.Load (viper.GetString v env.MachineProfile),
            Event.Retrieve (viper.GetString v "name"),
            Event.IsHostRunning (viper.GetString v "name") true,
            Event.Stop n (some serr),
            Event.Warningf "Failed to stop node, will still try to delete",
            Event.Delete (viper.GetString v "name") derr] ++
          (match derr with
            | some _ => [Event.FatalT "Failed to delete node \x7b\x7b.name\x7d\x7d"
                (viper.GetString v "name")]
            | none => [])) := by
  refine ⟨env.Destroy (viper.GetString v "name"), ?_, ?_⟩
  · intro st
    unfold node.Delete
    cases env.Destroy (viper.GetString v "name") <;> rfl
  rw [Run_found env v profiles api cc n idx hname hapi hload hret, deleteStep_eq]
  simp only [cluster.IsHostRunning, node.Stop]
  cases env.Destroy (viper.GetString v "name") <;>
    cases env.IsHostRunning api (viper.GetString v "name") <;>
    cases env.Stop cc n <;>
    simp [Event.isDelete, Termination.nonZeroExit, List.filter_cons]

theorem C1_delete_invoked_once_despite_stop_failure_witness :
    viper.GetString deleteNode2 "name" ≠ "" ∧
    stopFailsEnv.NewAPIClient = Except.ok ⟨0⟩ ∧
    ∃ derr : Option error,
      (Run stopFailsEnv deleteNode2 twoNodeProfiles).state.trace.filter Event.isDelete =
        [Event.Delete (viper.GetString deleteNode2 "name") derr] :=
  ⟨by decide, rfl,
    (C1_delete_invoked_once_despite_stop_failure stopFailsEnv deleteNode2 twoNodeProfiles ⟨0⟩
      minikubeProfile ⟨"node2", false, true⟩ 1 (by decide) rfl rfl rfl).imp (fun _ h => h.2.1)⟩

/-- C2: whenever a run of the delete-node command gets an error back from `node.Delete`,
that call was made for the given name, the run ends right after it with the fatal
message `Failed to delete node` for that name and a non-zero exit status, the persisted
profile store is what it was before the run, and in it the profile still holds a node
with that name. -/
theorem C2_delete_failure_is_fatal_and_keeps_node (env : Env) (v : viper.Settings)
    (profiles : StrMap config.ClusterConfig) (nm : String) (err : error)
    (hdel : Event.Delete nm (some err) ∈ (Run env v profiles).state.trace) :
    nm = viper.GetString v "name" ∧
    (Run env v profiles).termination = Termination.fatalError ∧
    (Run env v profiles).termination.nonZeroExit = true ∧
    (∃ pre : List Event, (∀ e ∈ pre, e.isDelete = false) ∧
      (Run env v profiles).state.trace =
        pre ++ [Event.Delete nm (some err),
          Event.FatalT "Failed to delete node \x7b\x7b.name\x7d\x7d" nm]) ∧
    (Run env v profiles).state.profiles = profiles ∧
    (∃ (cc : config.ClusterConfig) (n : config.Node),
      (Run env v profiles).state.profiles.get? (viper.GetString v env.MachineProfile) = some cc ∧
      n ∈ cc.Nodes ∧ n.Name = nm) := by
  by_cases hname : viper.GetString v "name" = ""
  · rw [Run_no_name env v profiles hname] at hdel
    simp at hdel
  · cases hapi : env.NewAPIClient with
    | error e =>
      rw [Run_no_api env v profiles e hname hapi] at hdel
      simp at hdel
    | ok api =>
      cases hload : config.Load env profiles (viper.GetString v env.MachineProfile) with
      | error e =>
        rw [Run_no_config env v profiles api e hname hapi hload] at hdel
        simp at hdel
      | ok cc =>
        cases hret : node.Retrieve cc (viper.GetString v "name") with
        | error e =>
          rw [Run_no_node env v profiles api cc e hname hapi hload hret] at hdel
          simp at hdel
        | ok r =>
          obtain ⟨n, idx⟩ := r
          have hg := config.Load_ok env profiles _ cc hload
          obtain ⟨hn1, hn2⟩ := node.Retrieve_ok cc _ n idx hret
          rw [Run_found env v profiles api cc n idx hname hapi hload hret, deleteStep_eq] at hdel ⊢
          cases hd : env.Destroy (viper.GetString v "name") with
          | none =>
            rw [hd] at hdel
            cases hr : env.IsHostRunning api (viper.GetString v "name") <;>
              cases hs : env.Stop cc n <;> simp [hr, hs] at hdel
          | some e =>
            rw [hd] at hdel
            have hne : nm = viper.GetString v "name" ∧ err = e := by
              cases hr : env.IsHostRunning api (viper.GetString v "name") <;>
                cases hs : env.Stop cc n <;> simp [hr, hs] at hdel <;> exact hdel
            obtain ⟨h1, h2⟩ := hne
            subst h2
            rw [h1]
            refine ⟨rfl, rfl, rfl, ⟨_, ?_, rfl⟩, rfl, cc, n, hg, hn1, hn2⟩
            cases hr : env.IsHostRunning api (viper.GetString v "name") <;>
              cases hs : env.Stop cc n <;> simp [Event.isDelete]

theorem C2_delete_failure_is_fatal_and_keeps_node_witness :
    Event.Delete "node2" (some (error.external "destroy failed")) ∈
      (Run destroyFailsEnv deleteNode2 twoNodeProfiles).state.trace ∧
    (Run destroyFailsEnv deleteNode2 twoNodeProfiles).termination = Termination.fatalError ∧
    (Run destroyFailsEnv deleteNode2 twoNodeProfiles).state.profiles = twoNodeProfiles :=
  ⟨by decide,
    (C2_delete_failure_is_fatal_and_keeps_node destroyFailsEnv deleteNode2 twoNodeProfiles
      "node2" (error.external "destroy failed") (by decide)).2.1,
    (C2_delete_failure_is_fatal_and_keeps_node destroyFailsEnv deleteNode2 twoNodeProfiles
      "node2" (error.external "destroy failed") (by decide)).2.2.2.2.1⟩

/-- C9: when the name is the empty string the delete-node command ends with the usage
error `name is required` and a non-zero exit status, and that is all it does: no API
client is created, the config is not loaded, none of `node.Retrieve`,
`cluster.IsHostRunning`, `node.Stop` and `node.Delete` is invoked, and the persisted
profile store is untouched. -/
theorem C9_missing_name_is_usage_error (env : Env) (v : viper.Settings)
    (profiles : StrMap config.ClusterConfig) (hname : viper.GetString v "name" = "") :
    (Run env v profiles).termination = Termination.usageError ∧
    (Run env v profiles).termination.nonZeroExit = true ∧
    (Run env v profiles).state.trace = [Event.UsageT "name is required"] ∧
    (∀ e ∈ (Run env v profiles).state.trace, e.isSideEffect = false) ∧
    (Run env v profiles).state.profiles = profiles := by
  rw [Run_no_name env v profiles hname]
  refine ⟨rfl, rfl, rfl, ?_, rfl⟩
  intro e he
  simp only [List.mem_singleton] at he
  subst he
  rfl

theorem C9_missing_name_is_usage_error_witness :
    viper.GetString deleteNoName "name" = "" ∧
    (Run stopFailsEnv deleteNoName twoNodeProfiles).state.trace =
      [Event.UsageT "name is required"] :=
  ⟨by decide, (C9_missing_name_is_usage_error stopFailsEnv deleteNoName twoNodeProfiles
    (by decide)).2.2.1⟩

/-- C10: when the name is non-empty and the profile config cannot be loaded, or it loads
and holds no node with the given name, the delete-node command ends with a fatal error
passed to `exit.WithError` and a non-zero exit status, none of `cluster.IsHostRunning`,
`node.Stop` and `node.Delete` is invoked, and the persisted profile store is untouched. -/
theorem C10_structural_failure_is_fatal (env : Env) (v : viper.Settings)
    (profiles : StrMap config.ClusterConfig)
    (hname : viper.GetString v "name" ≠ "")
    (hfail : (∃ err, config.Load env profiles (viper.GetString v env.MachineProfile) =
          Except.error err) ∨
        (∃ cc, config.Load env profiles (viper.GetString v env.MachineProfile) = Except.ok cc ∧
          ∀ n ∈ cc.Nodes, n.Name ≠ viper.GetString v "name")) :
    (Run env v profiles).termination = Termination.fatalError ∧
    (Run env v profiles).termination.nonZeroExit = true ∧
    (∃ (msg : String) (err : error),
      (Run env v profiles).state.trace.getLast? = some (Event.WithError msg err)) ∧
    (∀ e ∈ (Run env v profiles).state.trace, e.touchesNode = false) ∧
    (Run env v profiles).state.profiles = profiles ∧
    (∀ api, env.NewAPIClient = Except.ok api →
      (∀ err, config.Load env profiles (viper.GetString v env.MachineProfile) =
          Except.error err →
        (Run env v profiles).state.trace =
          [Event.NewAPIClient, Event.Load (viper.GetString v env.MachineProfile),
            Event.WithError "loading config" err]) ∧
      (∀ cc, config.Load env profiles (viper.GetString v env.MachineProfile) = Except.ok cc →
        ∃ err, node.Retrieve cc (viper.GetString v "name") = Except.error err ∧
          (Run env v profiles).state.trace =
            [Event.NewAPIClient, Event.Load (viper.GetString v env.MachineProfile),
              Event.Retrieve (viper.GetString v "name"),
              Event.WithError "retrieving node" err])) := by
  cases hapi : env.NewAPIClient with
  | error e =>
    rw [Run_no_api env v profiles e hname hapi]
    refine ⟨rfl, rfl, ⟨_, _, rfl⟩, ?_, rfl, ?_⟩
    · intro e he
      simp at he
      rcases he with h | h <;> subst h <;> rfl
    · intro api h
      exact absurd h (by simp)
  | ok api =>
    rcases hfail with ⟨err, hload⟩ | ⟨cc, hload, hnone⟩
    · rw [Run_no_config env v profiles api err hname hapi hload]
      refine ⟨rfl, rfl, ⟨_, _, rfl⟩, ?_, rfl, ?_⟩
      · intro e he
        simp at he
        rcases he with h | h | h <;> subst h <;> rfl
      · intro api' _
        refine ⟨?_, ?_⟩
        · intro err' h'
          rw [hload] at h'
          cases h'
          rfl
        · intro cc' h'
          rw [hload] at h'
          cases h'
    · obtain ⟨err, hret⟩ := (node.Retrieve_error_iff cc _).mpr hnone
      rw [Run_no_node env v profiles api cc err hname hapi hload hret]
      refine ⟨rfl, rfl, ⟨_, _, rfl⟩, ?_, rfl, ?_⟩
      · intro e he
        simp at he
        rcases he with h | h | h | h <;> subst h <;> rfl
      · intro api' _
        refine ⟨?_, ?_⟩
        · intro err' h'
          rw [hload] at h'
          cases h'
        · intro cc' h'
          rw [hload] at h'
          cases h'
          exact ⟨err, hret, rfl⟩

theorem C10_structural_failure_is_fatal_witness :
    viper.GetString deleteNode9 "name" ≠ "" ∧
    (Run stopFailsEnv deleteNode9 twoNodeProfiles).termination = Termination.fatalError ∧
    (∀ e ∈ (Run stopFailsEnv deleteNode9 twoNodeProfiles).state.trace, e.touchesNode = false) :=
  ⟨by decide,
    (C10_structural_failure_is_fatal stopFailsEnv deleteNode9 twoNodeProfiles (by decide)
      (Or.inr ⟨minikubeProfile, rfl, by decide⟩)).1,
    (C10_structural_failure_is_fatal stopFailsEnv deleteNode9 twoNodeProfiles (by decide)
      (Or.inr ⟨minikubeProfile, rfl, by decide⟩)).2.2.2.1⟩

/-- C11: in every run of the delete-node command that gets past `node.Retrieve`, the
live probe `cluster.IsHostRunning` is called exactly once, for the given name, and
`node.Stop` is called exactly once, on the retrieved node, if the probe reported the host
running and not at all otherwise; a run of the same command on any other persisted
profile store that also gets past `node.Retrieve` makes the same number of `node.Stop`
calls, so the decision rests on the probe and not on what the ClusterConfig holds. -/
theorem C11_stop_iff_live_probe_running (env : Env) (v : viper.Settings)
    (profiles : StrMap config.ClusterConfig) (api : machine.API) (cc : config.ClusterConfig)
    (n : config.Node) (idx : Nat)
    (hname : viper.GetString v "name" ≠ "")
    (hapi : env.NewAPIClient = Except.ok api)
    (hload : config.Load env profiles (viper.GetString v env.MachineProfile) = Except.ok cc)
    (hret : node.Retrieve cc (viper.GetString v "name") = Except.ok (n, idx)) :
    (Run env v profiles).state.trace.filter Event.isIsHostRunning =
      [Event.IsHostRunning (viper.GetString v "name")
        (cluster.IsHostRunning env api (viper.GetString v "name"))] ∧
    (Run env v profiles).state.trace.filter Event.isStop =
      (if cluster.IsHostRunning env api (viper.GetString v "name") = true
        then [Event.Stop n (node.Stop env cc n)] else []) ∧
    (((Run env v profiles).state.trace.filter Event.isStop).length = 1 ↔
      cluster.IsHostRunning env api (viper.GetString v "name") = true) ∧
    (((Run env v profiles).state.trace.filter Event.isStop).length = 0 ↔
      cluster.IsHostRunning env api (viper.GetString v "name") = false) ∧
    (∀ (profiles' : StrMap config.ClusterConfig) (cc' : config.ClusterConfig)
        (n' : config.Node) (idx' : Nat),
      config.Load env profiles' (viper.GetString v env.MachineProfile) = Except.ok cc' →
      node.Retrieve cc' (viper.GetString v "name") = Except.ok (n', idx') →
      ((Run env v profiles').state.trace.filter Event.isStop).length =
        ((Run env v profiles).state.trace.filter Event.isStop).length) := by
  have key : ∀ (profiles : StrMap config.ClusterConfig) (cc : config.ClusterConfig)
      (n : config.Node) (idx : Nat),
      config.Load env profiles (viper.GetString v env.MachineProfile) = Except.ok cc →
      node.Retrieve cc (viper.GetString v "name") = Except.ok (n, idx) →
      (Run env v profiles).state.trace.filter Event.isIsHostRunning =
        [Event.IsHostRunning (viper.GetString v "name")
          (cluster.IsHostRunning env api (viper.GetString v "name"))] ∧
      (Run env v profiles).state.trace.filter Event.isStop =
        (if cluster.IsHostRunning env api (viper.GetString v "name") = true
          then [Event.Stop n (node.Stop env cc n)] else []) := by
    intro profiles cc n idx hload hret
    rw [Run_found env v profiles api cc n idx hname hapi hload hret, deleteStep_eq]
    simp only [cluster.IsHostRunning, node.Stop]
    cases env.Destroy (viper.GetString v "name") <;>
      cases env.IsHostRunning api (viper.GetString v "name") <;>
      cases env.Stop cc n <;>
      simp [Event.isIsHostRunning, Event.isStop, List.filter_cons]
  obtain ⟨h1, h2⟩ := key profiles cc n idx hload hret
  refine ⟨h1, h2, ?_, ?_, ?_⟩
  · rw [h2]
    cases cluster.IsHostRunning env api (viper.GetString v "name") <;> simp
  · rw [h2]
    cases cluster.IsHostRunning env api (viper.GetString v "name") <;> simp
  · intro profiles' cc' n' idx' hload' hret'
    rw [h2, (key profiles' cc' n' idx' hload' hret').2]
    cases cluster.IsHostRunning env api (viper.GetString v "name") <;> simp

theorem C11_stop_iff_live_probe_running_witness :
    viper.GetString deleteNode2 "name" ≠ "" ∧
    (Run stopFailsEnv deleteNode2 twoNodeProfiles).state.trace.filter Event.isIsHostRunning =
      [Event.IsHostRunning "node2" true] ∧
    (Run stopFailsEnv deleteNode2 twoNodeProfiles).state.trace.filter Event.isStop =
      [Event.Stop ⟨"node2", false, true⟩ (some (error.external "stop failed"))] :=
  ⟨by decide,
    (C11_stop_iff_live_probe_running stopFailsEnv deleteNode2 twoNodeProfiles ⟨0⟩
      minikubeProfile ⟨"node2", false, true⟩ 1 (by decide) rfl rfl rfl).1,
    (C11_stop_iff_live_probe_running stopFailsEnv deleteNode2 twoNodeProfiles ⟨0⟩
      minikubeProfile ⟨"node2", false, true⟩ 1 (by decide) rfl rfl rfl).2.1⟩

/-- C12: in every run of the delete-node command no call of `node.Stop` comes after a
call of `node.Delete` in the trace of completed calls, and there is at most one call of
`node.Delete`; in a run that gets past `node.Retrieve`, `node.Delete` is invoked on a
state whose trace already holds every call of `node.Stop` of the run together with what
it returned, and no call follows `node.Delete` but the fatal message. The calls are made
one after the other by the one thread of `Run`, each returning before the next is made. -/
theorem C12_stop_returns_before_delete (env : Env) (v : viper.Settings)
    (profiles : StrMap config.ClusterConfig) :
    (Run env v profiles).state.trace.Pairwise
      (fun a b => a.isDelete = true → b.isStop = false) ∧
    ((Run env v profiles).state.trace.filter Event.isDelete).length ≤ 1 ∧
    (∀ (api : machine.API) (cc : config.ClusterConfig) (n : config.Node) (idx : Nat),
      viper.GetString v "name" ≠ "" →
      env.NewAPIClient = Except.ok api →
      config.Load env profiles (viper.GetString v env.MachineProfile) = Except.ok cc →
      node.Retrieve cc (viper.GetString v "name") = Except.ok (n, idx) →
      ∃ (st : State) (derr : Option error) (rest : List Event),
        Run env v profiles = deleteStep env v cc (viper.GetString v "name") st ∧
        (Run env v profiles).state.trace =
          st.trace ++ Event.Delete (viper.GetString v "name") derr :: rest ∧
        st.trace.filter Event.isStop = (Run env v profiles).state.trace.filter Event.isStop ∧
        st.trace.filter Event.isDelete = [] ∧
        (∀ e ∈ rest, e.isStop = false ∧ e.isDelete = false)) := by
  have found : ∀ (api : machine.API) (cc : config.ClusterConfig) (n : config.Node) (idx : Nat),
      viper.GetString v "name" ≠ "" →
      env.NewAPIClient = Except.ok api →
      config.Load env profiles (viper.GetString v env.MachineProfile) = Except.ok cc →
      node.Retrieve cc (viper.GetString v "name") = Except.ok (n, idx) →
      (Run env v profiles).state.trace.Pairwise
        (fun a b => a.isDelete = true → b.isStop = false) ∧
      ((Run env v profiles).state.trace.filter Event.isDelete).length ≤ 1 ∧
      ∃ (st : State) (derr : Option error) (rest : List Event),
        Run env v profiles = deleteStep env v cc (viper.GetString v "name") st ∧
        (Run env v profiles).state.trace =
          st.trace ++ Event.Delete (viper.GetString v "name") derr :: rest ∧
        st.trace.filter Event.isStop = (Run env v profiles).state.trace.filter Event.isStop ∧
        st.trace.filter Event.isDelete = [] ∧
        (∀ e ∈ rest, e.isStop = false ∧ e.isDelete = false) := by
    intro api cc n idx hname hapi hload hret
    have hrun := Run_found env v profiles api cc n idx hname hapi hload hret
    refine ⟨?_, ?_, _, env.Destroy (viper.GetString v "name"),
      (match env.Destroy (viper.GetString v "name") with
        | some _ => [Event.FatalT "Failed to delete node \x7b\x7b.name\x7d\x7d"
            (viper.GetString v "name")]
        | none => []), hrun, ?_⟩
    · rw [hrun, deleteStep_eq]
      cases env.Destroy (viper.GetString v "name") <;>
        cases env.IsHostRunning api (viper.GetString v "name") <;>
        cases env.Stop cc n <;>
        simp [Event.isDelete, Event.isStop]
    · rw [hrun, deleteStep_eq]
      cases env.Destroy (viper.GetString v "name") <;>
        cases env.IsHostRunning api (viper.GetString v "name") <;>
        cases env.Stop cc n <;>
        simp [Event.isDelete, List.filter_cons]
    · rw [hrun, deleteStep_eq]
      cases env.Destroy (viper.GetString v "name") <;>
        cases env.IsHostRunning api (viper.GetString v "name") <;>
        cases env.Stop cc n <;>
        simp [Event.isDelete, Event.isStop, List.filter_cons]
  refine ⟨?_, ?_, fun api cc n idx hname hapi hload hret =>
    (found api cc n idx hname hapi hload hret).2.2⟩
  · by_cases hname : viper.GetString v "name" = ""
    · rw [Run_no_name env v profiles hname]
      simp [Event.isDelete]
    · cases hapi : env.NewAPIClient with
      | error e =>
        rw [Run_no_api env v profiles e hname hapi]
        simp [Event.isDelete]
      | ok api =>
        cases hload : config.Load env profiles (viper.GetString v env.MachineProfile) with
        | error e =>
          rw [Run_no_config env v profiles api e hname hapi hload]
          simp [Event.isDelete]
        | ok cc =>
          cases hret : node.Retrieve cc (viper.GetString v "name") with
          | error e =>
            rw [Run_no_node env v profiles api cc e hname hapi hload hret]
            simp [Event.isDelete]
          | ok r =>
            exact (found api cc r.1 r.2 hname hapi hload hret).1
  · by_cases hname : viper.GetString v "name" = ""
    · rw [Run_no_name env v profiles hname]
      simp [Event.isDelete]
    · cases hapi : env.NewAPIClient with
      | error e =>
        rw [Run_no_api env v profiles e hname hapi]
        simp [Event.isDelete]
      | ok api =>
        cases hload : config.Load env profiles (viper.GetString v env.MachineProfile) with
        | error e =>
          rw [Run_no_config env v profiles api e hname hapi hload]
          simp [Event.isDelete]
        | ok cc =>
          cases hret : node.Retrieve cc (viper.GetString v "name") with
          | error e =>
            rw [Run_no_node env v profiles api cc e hname hapi hload hret]
            simp [Event.isDelete]
          | ok r =>
            exact (found api cc r.1 r.2 hname hapi hload hret).2.1

end cmd.nodeDeleteCmd


/-! ## Lemmas on groups of goroutines -/

namespace errgroup

variable {τ σ : Type}

theorem perm_cons_eraseIdx (l : List τ) :
    ∀ (i : Nat) (a : τ), l[i]? = some a → (a :: l.eraseIdx i).Perm l := by
  induction l with
  | nil => intro i a h; simp at h
  | cons b t ih =>
    intro i a h
    cases i with
    | zero =>
      simp only [List.getElem?_cons_zero, Option.some.injEq] at h
      subst h
      simp
    | succ j =>
      simp only [List.getElem?_cons_succ] at h
      simp only [List.eraseIdx_cons_succ]
      exact (List.Perm.swap b a _).trans (List.Perm.cons b (ih j a h))

theorem finishOrder_perm (pick : List τ → Nat) :
    ∀ (n : Nat) (running : List τ), running.length = n →
      (finishOrder pick n running).Perm running := by
  intro n
  induction n with
  | zero =>
    intro running h
    have hnil : running = [] := List.length_eq_zero.mp h
    subst hnil
    simp [finishOrder]
  | succ n ih =>
    intro running h
    have hlt : pick running % running.length < running.length :=
      Nat.mod_lt _ (by omega)
    have hget : running[pick running % running.length]? =
        some (running[pick running % running.length]) := List.getElem?_eq_getElem hlt
    simp only [finishOrder, hget]
    have hlen : (running.eraseIdx (pick running % running.length)).length = n := by
      rw [List.length_eraseIdx_of_lt hlt]
      omega
    exact (List.Perm.cons _ (ih _ hlen)).trans (perm_cons_eraseIdx running _ _ hget)

theorem firstError_none_left (e : Option error) : firstError none e = e := rfl

theorem firstError_some_left (e : error) (e' : Option error) :
    firstError (some e) e' = some e := rfl

theorem foldl_firstError_some (result : τ → Option error) (e : error) (l : List τ) :
    l.foldl (fun acc f => firstError acc (result f)) (some e) = some e := by
  induction l with
  | nil => rfl
  | cons a l ih =>
    rw [List.foldl_cons, firstError_some_left]
    exact ih

theorem foldl_firstError_eq_none_iff (result : τ → Option error) (l : List τ) :
    l.foldl (fun acc f => firstError acc (result f)) none = none ↔
      ∀ f ∈ l, result f = none := by
  induction l with
  | nil => simp
  | cons a l ih =>
    rw [List.foldl_cons, firstError_none_left, List.forall_mem_cons]
    cases h : result a with
    | none =>
      rw [ih]
      simp
    | some e =>
      rw [foldl_firstError_some]
      simp

theorem foldl_firstError_eq_some (result : τ → Option error) (e : error) (l : List τ)
    (h : l.foldl (fun acc f => firstError acc (result f)) none = some e) :
    ∃ (pre : List τ) (f : τ) (post : List τ), l = pre ++ f :: post ∧
      (∀ x ∈ pre, result x = none) ∧ result f = some e := by
  induction l with
  | nil => simp at h
  | cons a l ih =>
    rw [List.foldl_cons, firstError_none_left] at h
    cases ha : result a with
    | none =>
      rw [ha] at h
      obtain ⟨pre, f, post, h1, h2, h3⟩ := ih h
      refine ⟨a :: pre, f, post, by simp [h1], ?_, h3⟩
      intro x hx
      rcases List.mem_cons.mp hx with rfl | hx'
      · exact ha
      · exact h2 x hx'
    | some e' =>
      rw [ha, foldl_firstError_some] at h
      rw [h] at ha
      exact ⟨[], a, l, rfl, by simp, ha⟩

end errgroup


/-! ## Lemmas on the caching code -/

namespace machine

theorem cacheAll_snd (fetch : String → Option error) (path : String → String)
    (l : List String) : ∀ files : List String,
      (cacheAll fetch path l files).2 = (cacheAll fetch path l []).2 := by
  induction l with
  | nil => intro files; rfl
  | cons a rest ih =>
    intro files
    cases h : fetch a with
    | none =>
      simp only [cacheAll, h]
      rw [ih (files ++ [path a]), ih ([] ++ [path a])]
    | some err => simp only [cacheAll, h]

theorem cacheAll_keeps (fetch : String → Option error) (path : String → String)
    (l : List String) : ∀ (files : List String) (x : String), x ∈ files →
      x ∈ (cacheAll fetch path l files).1 := by
  induction l with
  | nil => intro files x hx; exact hx
  | cons a rest ih =>
    intro files x hx
    cases h : fetch a with
    | none =>
      simp only [cacheAll, h]
      exact ih _ x (List.mem_append_left _ hx)
    | some err =>
      simp only [cacheAll, h]
      exact ih _ x hx

theorem cacheAll_stores (fetch : String → Option error) (path : String → String)
    (l : List String) : ∀ files : List String, (cacheAll fetch path l files).2 = none →
      ∀ a ∈ l, path a ∈ (cacheAll fetch path l files).1 := by
  induction l with
  | nil => intro files _ a ha; simp at ha
  | cons b rest ih =>
    intro files hnone a ha
    cases h : fetch b with
    | none =>
      simp only [cacheAll, h] at hnone ⊢
      rcases List.mem_cons.mp ha with rfl | hmem
      · exact cacheAll_keeps fetch path rest _ _ (List.mem_append_right _ (List.mem_singleton_self _))
      · exact ih _ hnone a hmem
    | some err => simp [cacheAll, h] at hnone

end machine

namespace node

theorem Task.call_snd (env : CacheEnv) (f : Task) (files : List String) :
    (f.call env files).2 = (f.call env []).2 := by
  cases f with
  | CacheImagesForBootstrapper r ver b =>
    simp only [Task.call, machine.CacheImagesForBootstrapper]
    exact machine.cacheAll_snd _ _ _ files
  | WriteImageToDaemon img => rfl
  | CacheTarball ver => rfl

theorem Task.call_keeps (env : CacheEnv) (f : Task) (files : List String) (x : String)
    (hx : x ∈ files) : x ∈ (f.call env files).1 := by
  cases f with
  | CacheImagesForBootstrapper r ver b =>
    simp only [Task.call, machine.CacheImagesForBootstrapper]
    exact machine.cacheAll_keeps _ _ _ files x hx
  | WriteImageToDaemon img => exact hx
  | CacheTarball ver => exact hx

theorem waitFold (env : CacheEnv) (label : String) (order : List Task) :
    ∀ (w : World) (e : Option error),
      ((order.foldl (fun acc f => ((finish env label f acc.1).1,
          errgroup.firstError acc.2 (finish env label f acc.1).2)) (w, e)).1.steps =
        w.steps ++ order.map (fun f => Step.Done label f (f.call env []).2)) ∧
      ((order.foldl (fun acc f => ((finish env label f acc.1).1,
          errgroup.firstError acc.2 (finish env label f acc.1).2)) (w, e)).2 =
        order.foldl (fun acc f => errgroup.firstError acc (f.call env []).2) e) ∧
      ((order.foldl (fun acc f => ((finish env label f acc.1).1,
          errgroup.firstError acc.2 (finish env label f acc.1).2)) (w, e)).1.proc = w.proc) ∧
      (∀ x ∈ w.files, x ∈ (order.foldl (fun acc f => ((finish env label f acc.1).1,
          errgroup.firstError acc.2 (finish env label f acc.1).2)) (w, e)).1.files) ∧
      (∀ (r ver b : String), Task.CacheImagesForBootstrapper r ver b ∈ order →
        ((Task.CacheImagesForBootstrapper r ver b).call env []).2 = none →
        ∀ img ∈ env.KubeadmCachedImages r ver,
          "images/" ++ img ∈ (order.foldl (fun acc f => ((finish env label f acc.1).1,
            errgroup.firstError acc.2 (finish env label f acc.1).2)) (w, e)).1.files) := by
  induction order with
  | nil =>
    intro w e
    refine ⟨by simp, rfl, rfl, fun x hx => hx, ?_⟩
    intro r ver b h
    simp at h
  | cons f order ih =>
    intro w e
    obtain ⟨h1, h2, h3, h4, h5⟩ := ih (finish env label f w).1
      (errgroup.firstError e (finish env label f w).2)
    simp only [List.foldl_cons]
    refine ⟨?_, ?_, ?_, ?_, ?_⟩
    · rw [h1]
      simp [finish, World.step, Task.call_snd env f w.files]
    · rw [h2]
      simp only [finish, Task.call_snd env f w.files]
    · rw [h3]
      rfl
    · intro x hx
      exact h4 x (Task.call_keeps env f w.files x hx)
    · intro r ver b hmem hnone img himg
      rcases List.mem_cons.mp hmem with heq | hin
      · subst heq
        apply h4
        have hnone' : ((Task.CacheImagesForBootstrapper r ver b).call env w.files).2 = none := by
          rw [Task.call_snd]
          exact hnone
        exact machine.cacheAll_stores env.fetchImage (fun img => "images/" ++ img)
          (env.KubeadmCachedImages r ver) w.files hnone' img himg
      · exact h5 r ver b hin hnone img himg

theorem wait_spec (env : CacheEnv) (g : errgroup.Group Task) (w : World) :
    ∃ order : List Task, order.Perm g.running ∧
      (wait env g w).1.steps =
        w.steps ++ order.map (fun f => Step.Done g.label f (f.call env []).2) ++
          [Step.Wait g.label (wait env g w).2] ∧
      (wait env g w).2 =
        order.foldl (fun acc f => errgroup.firstError acc (f.call env []).2) g.err ∧
      (wait env g w).1.proc = w.proc ∧
      (∀ x ∈ w.files, x ∈ (wait env g w).1.files) ∧
      (∀ (r ver b : String), Task.CacheImagesForBootstrapper r ver b ∈ order →
        ((Task.CacheImagesForBootstrapper r ver b).call env []).2 = none →
        ∀ img ∈ env.KubeadmCachedImages r ver, "images/" ++ img ∈ (wait env g w).1.files) := by
  obtain ⟨h1, h2, h3, h4, h5⟩ := waitFold env g.label
    (errgroup.finishOrder env.pick g.running.length g.running) w g.err
  refine ⟨errgroup.finishOrder env.pick g.running.length g.running,
    errgroup.finishOrder_perm env.pick _ _ rfl, ?_, ?_, ?_, ?_, ?_⟩
  · simp only [wait, errgroup.Group.Wait, World.step]
    rw [h1]
  · simp only [wait, errgroup.Group.Wait]
    exact h2
  · simp only [wait, errgroup.Group.Wait, World.step]
    exact h3
  · simp only [wait, errgroup.Group.Wait, World.step]
    exact h4
  · simp only [wait, errgroup.Group.Wait, World.step]
    exact h5

theorem doCacheBinaries_eq (env : CacheEnv) (v : viper.Settings) (k8sVersion : String)
    (w : World) :
    doCacheBinaries env v k8sVersion w =
      ({ w with files := (machine.CacheBinariesForBootstrapper env k8sVersion w.files).1 }.step
        (Step.CacheBinariesForBootstrapper k8sVersion (viper.GetString v env.Bootstrapper)
          (machine.CacheBinariesForBootstrapper env k8sVersion []).2),
        (machine.CacheBinariesForBootstrapper env k8sVersion []).2) := by
  have h : (machine.CacheBinariesForBootstrapper env k8sVersion w.files).2 =
      (machine.CacheBinariesForBootstrapper env k8sVersion []).2 :=
    machine.cacheAll_snd _ _ _ w.files
  simp only [doCacheBinaries, h]

theorem CacheKubectlBinary_ok (env : CacheEnv) (k8sVersion : String) (w : World)
    (h : env.fetchBinary (if env.GOOS == "windows" then "kubectl.exe" else "kubectl")
      k8sVersion env.GOOS env.GOARCH = none) :
    CacheKubectlBinary env k8sVersion w =
      ({ w with files := w.files ++
          ["cache/" ++ k8sVersion ++ "/" ++
            (if env.GOOS == "windows" then "kubectl.exe" else "kubectl")] }.step
        (Step.CacheBinary (if env.GOOS == "windows" then "kubectl.exe" else "kubectl")
          k8sVersion env.GOOS env.GOARCH
          ("cache/" ++ k8sVersion ++ "/" ++
            (if env.GOOS == "windows" then "kubectl.exe" else "kubectl")) none),
        "cache/" ++ k8sVersion ++ "/" ++
          (if env.GOOS == "windows" then "kubectl.exe" else "kubectl"), none) := by
  simp only [CacheKubectlBinary, machine.CacheBinary, h]

theorem CacheKubectlBinary_err (env : CacheEnv) (k8sVersion : String) (w : World) (e : error)
    (h : env.fetchBinary (if env.GOOS == "windows" then "kubectl.exe" else "kubectl")
      k8sVersion env.GOOS env.GOARCH = some e) :
    CacheKubectlBinary env k8sVersion w =
      (w.step (Step.CacheBinary (if env.GOOS == "windows" then "kubectl.exe" else "kubectl")
          k8sVersion env.GOOS env.GOARCH "" (some e)), "", some e) := by
  simp only [CacheKubectlBinary, machine.CacheBinary, h]

theorem filter_isCall_done (label : String) (result : Task → Option error) (order : List Task) :
    (order.map (fun f => Step.Done label f (result f))).filter Step.isCall = [] := by
  induction order with
  | nil => rfl
  | cons f order ih => simp [List.filter_cons, Step.isCall, Step.isDone]

theorem waitDownloadKicArtifacts_spec (env : CacheEnv) (g : errgroup.Group Task) (w : World) :
    ∃ order : List Task, order.Perm g.running ∧
      (waitDownloadKicArtifacts env g w).steps =
        w.steps ++ order.map (fun f => Step.Done g.label f (f.call env []).2) ++
          [Step.Wait g.label
            (order.foldl (fun acc f => errgroup.firstError acc (f.call env []).2) g.err)] ++
          (match order.foldl (fun acc f => errgroup.firstError acc (f.call env []).2) g.err with
            | some e => [Step.Errorln "Error downloading kic artifacts: " e]
            | none => []) ∧
      (waitDownloadKicArtifacts env g w).proc = w.proc ∧
      (∀ x ∈ w.files, x ∈ (waitDownloadKicArtifacts env g w).files) := by
  obtain ⟨order, hperm, hsteps, herr, hproc, hfiles, _⟩ := wait_spec env g w
  refine ⟨order, hperm, ?_⟩
  rw [herr] at hsteps
  unfold waitDownloadKicArtifacts
  cases hw : wait env g w with
  | mk w' e' =>
    rw [hw] at hsteps herr hproc hfiles
    simp only at hsteps herr hproc hfiles
    rw [← herr] at hsteps ⊢
    cases e' with
    | none => exact ⟨by simp [hsteps], hproc, hfiles⟩
    | some e => exact ⟨by simp [hsteps, World.step], hproc, hfiles⟩

theorem waitCacheRequiredImages_off (env : CacheEnv) (v : viper.Settings)
    (g : errgroup.Group Task) (w : World) (h : viper.GetBool v env.cacheImages = false) :
    waitCacheRequiredImages env v g w = w := by
  simp [waitCacheRequiredImages, h]

theorem waitCacheRequiredImages_on (env : CacheEnv) (v : viper.Settings)
    (g : errgroup.Group Task) (w : World) (h : viper.GetBool v env.cacheImages = true) :
    ∃ order : List Task, order.Perm g.running ∧
      (waitCacheRequiredImages env v g w).steps =
        w.steps ++ order.map (fun f => Step.Done g.label f (f.call env []).2) ++
          [Step.Wait g.label
            (order.foldl (fun acc f => errgroup.firstError acc (f.call env []).2) g.err)] ++
          (match order.foldl (fun acc f => errgroup.firstError acc (f.call env []).2) g.err with
            | some e => [Step.Errorln "Error caching images: " e]
            | none => []) ∧
      (waitCacheRequiredImages env v g w).proc = w.proc ∧
      (∀ x ∈ w.files, x ∈ (waitCacheRequiredImages env v g w).files) ∧
      (∀ (r ver b : String), Task.CacheImagesForBootstrapper r ver b ∈ order →
        ((Task.CacheImagesForBootstrapper r ver b).call env []).2 = none →
        ∀ img ∈ env.KubeadmCachedImages r ver,
          "images/" ++ img ∈ (waitCacheRequiredImages env v g w).files) := by
  obtain ⟨order, hperm, hsteps, herr, hproc, hfiles, himgs⟩ := wait_spec env g w
  refine ⟨order, hperm, ?_⟩
  rw [herr] at hsteps
  simp only [waitCacheRequiredImages, h, Bool.not_true, Bool.false_eq_true, if_false]
  cases hw : wait env g w with
  | mk w' e' =>
    rw [hw] at hsteps herr hproc hfiles himgs
    simp only at hsteps herr hproc hfiles himgs
    rw [← herr] at hsteps ⊢
    cases e' with
    | none => exact ⟨by simp [hsteps], hproc, hfiles, himgs⟩
    | some e => exact ⟨by simp [hsteps, World.step], hproc, hfiles, himgs⟩

theorem foldl_append_singleton {α β : Type} (g : α → β) (l : List α) :
    ∀ init : List β, l.foldl (fun acc e => acc ++ [g e]) init = init ++ l.map g := by
  induction l with
  | nil => intro init; simp
  | cons a l ih => intro init; simp [ih]

theorem imagesInConfigFile_error (env : CacheEnv) (w : World) (e : error)
    (h : env.ReadConfig env.ConfigFile = Except.error e) :
    imagesInConfigFile env w = (w.step (Step.ReadConfig env.ConfigFile), Ret.value ([], some e)) := by
  simp only [imagesInConfigFile, h]

theorem imagesInConfigFile_absent (env : CacheEnv) (w : World) (cfg : config.MinikubeConfig)
    (h : env.ReadConfig env.ConfigFile = Except.ok cfg)
    (hk : cfg.get? env.cacheImageConfigKey = none) :
    imagesInConfigFile env w = (w.step (Step.ReadConfig env.ConfigFile), Ret.value ([], none)) := by
  simp only [imagesInConfigFile, h, hk]

theorem imagesInConfigFile_mapping (env : CacheEnv) (w : World) (cfg : config.MinikubeConfig)
    (m : StrMap config.Scalar) (h : env.ReadConfig env.ConfigFile = Except.ok cfg)
    (hk : cfg.get? env.cacheImageConfigKey = some (config.Value.mapping m)) :
    imagesInConfigFile env w =
      (w.step (Step.ReadConfig env.ConfigFile), Ret.value (m.keys, none)) := by
  simp only [imagesInConfigFile, h, hk, StrMap.keys]
  rw [foldl_append_singleton (fun e : String × config.Scalar => e.1) m.entries []]
  simp

theorem imagesInConfigFile_scalar (env : CacheEnv) (w : World) (cfg : config.MinikubeConfig)
    (x : config.Scalar) (h : env.ReadConfig env.ConfigFile = Except.ok cfg)
    (hk : cfg.get? env.cacheImageConfigKey = some (config.Value.scalar x)) :
    imagesInConfigFile env w =
      (w.step (Step.ReadConfig env.ConfigFile),
        Ret.panic "interface conversion: interface is not map[string]interface") := by
  simp only [imagesInConfigFile, h, hk]

theorem keys_eq_nil_iff {β : Type} (m : StrMap β) : m.keys = [] ↔ m.entries = [] := by
  simp [StrMap.keys]

theorem saveImagesToTarFromConfig_spec (env : CacheEnv) (w : World) :
    ∃ extra : List Step,
      (saveImagesToTarFromConfig env w).1 =
        { w with steps := w.steps ++ Step.ReadConfig env.ConfigFile :: extra } ∧
      (extra = [] ∨ ∃ images : List String,
        extra = [Step.SaveToDir images env.ImageCacheDir
          (env.SaveToDir images env.ImageCacheDir)] ∧
        (saveImagesToTarFromConfig env w).2 =
          Ret.value (env.SaveToDir images env.ImageCacheDir)) ∧
      (∀ w' : World, (saveImagesToTarFromConfig env w').2 =
        (saveImagesToTarFromConfig env w).2) := by
  cases h : env.ReadConfig env.ConfigFile with
  | error e =>
    refine ⟨[], ?_, Or.inl rfl, ?_⟩
    · simp [saveImagesToTarFromConfig, imagesInConfigFile_error env w e h, World.step]
    · intro w'
      simp [saveImagesToTarFromConfig, imagesInConfigFile_error env _ e h]
  | ok cfg =>
    cases hk : cfg.get? env.cacheImageConfigKey with
    | none =>
      refine ⟨[], ?_, Or.inl rfl, ?_⟩
      · simp [saveImagesToTarFromConfig, imagesInConfigFile_absent env w cfg h hk, World.step]
      · intro w'
        simp [saveImagesToTarFromConfig, imagesInConfigFile_absent env _ cfg h hk]
    | some val =>
      cases val with
      | scalar x =>
        refine ⟨[], ?_, Or.inl rfl, ?_⟩
        · simp [saveImagesToTarFromConfig, imagesInConfigFile_scalar env w cfg x h hk, World.step]
        · intro w'
          simp [saveImagesToTarFromConfig, imagesInConfigFile_scalar env _ cfg x h hk]
      | mapping m =>
        by_cases hm : m.keys = []
        · refine ⟨[], ?_, Or.inl rfl, ?_⟩
          · simp [saveImagesToTarFromConfig, imagesInConfigFile_mapping env w cfg m h hk, hm,
              World.step]
          · intro w'
            simp [saveImagesToTarFromConfig, imagesInConfigFile_mapping env _ cfg m h hk, hm]
        · refine ⟨[Step.SaveToDir m.keys env.ImageCacheDir
            (env.SaveToDir m.keys env.ImageCacheDir)], ?_, Or.inr ⟨m.keys, rfl, ?_⟩, ?_⟩
          · simp [saveImagesToTarFromConfig, imagesInConfigFile_mapping env w cfg m h hk, hm,
              World.step]
          · simp [saveImagesToTarFromConfig, imagesInConfigFile_mapping env w cfg m h hk, hm]
          · intro w'
            simp [saveImagesToTarFromConfig, imagesInConfigFile_mapping env _ cfg m h hk, hm]

theorem waitDownloadKicArtifacts_calls (env : CacheEnv) (g : errgroup.Group Task) (w : World) :
    ∃ (n : List Step) (e2 : Option error),
      (waitDownloadKicArtifacts env g w).steps = w.steps ++ n ∧
      n.filter Step.isCall = [Step.Wait g.label e2] ∧
      (waitDownloadKicArtifacts env g w).proc = w.proc ∧
      (∀ x ∈ w.files, x ∈ (waitDownloadKicArtifacts env g w).files) := by
  obtain ⟨order, _, hsteps, hproc, hfiles⟩ := waitDownloadKicArtifacts_spec env g w
  refine ⟨_, order.foldl (fun acc f => errgroup.firstError acc (f.call env []).2) g.err,
    by rw [hsteps, List.append_assoc, List.append_assoc], ?_, hproc, hfiles⟩
  cases order.foldl (fun acc f => errgroup.firstError acc (f.call env []).2) g.err <;>
    simp [List.filter_append, filter_isCall_done, Step.isCall, Step.isDone, Step.isErrorln,
      List.filter_cons]

theorem waitCacheRequiredImages_calls (env : CacheEnv) (v : viper.Settings)
    (g : errgroup.Group Task) (w : World) :
    ∃ (n : List Step) (e1 : Option error),
      (waitCacheRequiredImages env v g w).steps = w.steps ++ n ∧
      n.filter Step.isCall =
        (if viper.GetBool v env.cacheImages = true then [Step.Wait g.label e1] else []) ∧
      (waitCacheRequiredImages env v g w).proc = w.proc ∧
      (∀ x ∈ w.files, x ∈ (waitCacheRequiredImages env v g w).files) ∧
      (viper.GetBool v env.cacheImages = true →
        ∀ f ∈ g.running, Step.Done g.label f (f.call env []).2 ∈ n) ∧
      (viper.GetBool v env.cacheImages = true →
        ∀ (r ver b : String), Task.CacheImagesForBootstrapper r ver b ∈ g.running →
          ((Task.CacheImagesForBootstrapper r ver b).call env []).2 = none →
          ∀ img ∈ env.KubeadmCachedImages r ver,
            "images/" ++ img ∈ (waitCacheRequiredImages env v g w).files) := by
  cases hon : viper.GetBool v env.cacheImages with
  | false =>
    rw [waitCacheRequiredImages_off env v g w hon]
    exact ⟨[], none, by simp, by simp, rfl, fun x hx => hx, by simp, by simp⟩
  | true =>
    obtain ⟨order, hperm, hsteps, hproc, hfiles, himgs⟩ :=
      waitCacheRequiredImages_on env v g w hon
    refine ⟨_, order.foldl (fun acc f => errgroup.firstError acc (f.call env []).2) g.err,
      by rw [hsteps, List.append_assoc, List.append_assoc], ?_, hproc, hfiles, ?_, ?_⟩
    · cases order.foldl (fun acc f => errgroup.firstError acc (f.call env []).2) g.err <;>
        simp [List.filter_append, filter_isCall_done, Step.isCall, Step.isDone, Step.isErrorln,
          List.filter_cons]
    · intro _ f hf
      have hf' : f ∈ order := hperm.mem_iff.mpr hf
      apply List.mem_append_left
      exact List.mem_map_of_mem (fun f => Step.Done g.label f (f.call env []).2) hf'
    · intro _ r ver b hmem hnone img himg
      exact himgs r ver b (hperm.mem_iff.mpr hmem) hnone img himg

theorem finishDownloadOnly_cases (env : CacheEnv) (v : viper.Settings)
    (cg kg : errgroup.Group Task) (w : World) :
    ∃ (new : List Step) (e1 e2 : Option error) (saveSteps : List Step),
      (finishDownloadOnly env v cg kg w).world.steps = w.steps ++ new ∧
      (saveSteps = [] ∨ ∃ images : List String,
        saveSteps = [Step.SaveToDir images env.ImageCacheDir
          (env.SaveToDir images env.ImageCacheDir)] ∧
        (saveImagesToTarFromConfig env w).2 =
          Ret.value (env.SaveToDir images env.ImageCacheDir)) ∧
      (∀ x ∈ w.files, x ∈ (finishDownloadOnly env v cg kg w).world.files) ∧
      (viper.GetBool v env.cacheImages = true →
        ∀ f ∈ cg.running, Step.Done cg.label f (f.call env []).2 ∈ new) ∧
      (viper.GetBool v env.cacheImages = true →
        ∀ (r ver b : String), Task.CacheImagesForBootstrapper r ver b ∈ cg.running →
          ((Task.CacheImagesForBootstrapper r ver b).call env []).2 = none →
          ∀ img ∈ env.KubeadmCachedImages r ver,
            "images/" ++ img ∈ (finishDownloadOnly env v cg kg w).world.files) ∧
      ((∃ reason : String, (saveImagesToTarFromConfig env w).2 = Ret.panic reason ∧
          (finishDownloadOnly env v cg kg w).ending = Ending.panicked reason ∧
          new.filter Step.isCall =
            (if viper.GetBool v env.cacheImages = true then [Step.Wait cg.label e1] else []) ++
              [Step.Wait kg.label e2, Step.ReadConfig env.ConfigFile]) ∨
        (∃ e : error, (saveImagesToTarFromConfig env w).2 = Ret.value (some e) ∧
          (finishDownloadOnly env v cg kg w).ending = Ending.ended Termination.fatalError ∧
          new.filter Step.isCall =
            (if viper.GetBool v env.cacheImages = true then [Step.Wait cg.label e1] else []) ++
              [Step.Wait kg.label e2, Step.ReadConfig env.ConfigFile] ++ saveSteps ++
              [Step.WithError "Failed to cache images to tar" e]) ∨
        ((saveImagesToTarFromConfig env w).2 = Ret.value none ∧
          (finishDownloadOnly env v cg kg w).ending = Ending.exited 0 ∧
          new.filter Step.isCall =
            (if viper.GetBool v env.cacheImages = true then [Step.Wait cg.label e1] else []) ++
              [Step.Wait kg.label e2, Step.ReadConfig env.ConfigFile] ++ saveSteps ++
              [Step.T "Download complete!", Step.Exit 0])) := by
  obtain ⟨n1, e1, hs1, hf1, _, hfiles1, hdone1, himg1⟩ :=
    waitCacheRequiredImages_calls env v cg w
  obtain ⟨n2, e2, hs2, hf2, _, hfiles2⟩ :=
    waitDownloadKicArtifacts_calls env kg (waitCacheRequiredImages env v cg w)
  obtain ⟨extra, hw3, hextra, hindep⟩ := saveImagesToTarFromConfig_spec env
    (waitDownloadKicArtifacts env kg (waitCacheRequiredImages env v cg w))
  have hS := hindep w
  rw [← hS] at hextra
  have hcallsExtra : extra.filter Step.isCall = extra := by
    rcases hextra with h | ⟨images, h, _⟩ <;> subst h <;> rfl
  refine ⟨n1 ++ n2 ++ Step.ReadConfig env.ConfigFile :: extra ++
      (match (saveImagesToTarFromConfig env w).2 with
        | Ret.panic _ => []
        | Ret.value (some e) => [Step.WithError "Failed to cache images to tar" e]
        | Ret.value none => [Step.T "Download complete!", Step.Exit 0]),
    e1, e2, extra, ?_, hextra, ?_, ?_, ?_, ?_⟩
  · unfold finishDownloadOnly
    simp only []
    cases hsv : saveImagesToTarFromConfig env
        (waitDownloadKicArtifacts env kg (waitCacheRequiredImages env v cg w)) with
    | mk w3 S3 =>
      rw [hsv] at hw3 hS
      simp only at hw3 hS
      rw [hS, hw3]
      cases S3 with
      | panic reason => simp [hs2, hs1]
      | value r =>
        cases r with
        | none => simp [os.Exit, World.step, hs2, hs1]
        | some e => simp [fatal, World.step, hs2, hs1]
  · intro x hx
    have hx2 := hfiles2 x (hfiles1 x hx)
    unfold finishDownloadOnly
    simp only []
    cases hsv : saveImagesToTarFromConfig env
        (waitDownloadKicArtifacts env kg (waitCacheRequiredImages env v cg w)) with
    | mk w3 S3 =>
      rw [hsv] at hw3
      simp only at hw3
      rw [hw3]
      cases S3 with
      | panic reason => exact hx2
      | value r =>
        cases r with
        | none => exact hx2
        | some e => exact hx2
  · intro hon f hf
    exact List.mem_append_left _ (List.mem_append_left _ (List.mem_append_left _ (hdone1 hon f hf)))
  · intro hon r ver b hmem hnone img himg
    have hx2 := hfiles2 _ (himg1 hon r ver b hmem hnone img himg)
    unfold finishDownloadOnly
    simp only []
    cases hsv : saveImagesToTarFromConfig env
        (waitDownloadKicArtifacts env kg (waitCacheRequiredImages env v cg w)) with
    | mk w3 S3 =>
      rw [hsv] at hw3
      simp only at hw3
      rw [hw3]
      cases S3 with
      | panic reason => exact hx2
      | value r =>
        cases r with
        | none => exact hx2
        | some e => exact hx2
  · have hend : (finishDownloadOnly env v cg kg w).ending =
        (match (saveImagesToTarFromConfig env w).2 with
          | Ret.panic reason => Ending.panicked reason
          | Ret.value (some _) => Ending.ended Termination.fatalError
          | Ret.value none => Ending.exited 0) := by
      unfold finishDownloadOnly
      simp only []
      cases hsv : saveImagesToTarFromConfig env
          (waitDownloadKicArtifacts env kg (waitCacheRequiredImages env v cg w)) with
      | mk w3 S3 =>
        rw [hsv] at hS
        simp only at hS
        rw [hS]
        cases S3 with
        | panic reason => rfl
        | value r =>
          cases r with
          | none => rfl
          | some e => rfl
    cases hSv : (saveImagesToTarFromConfig env w).2 with
    | panic reason =>
      refine Or.inl ⟨reason, rfl, ?_, ?_⟩
      · rw [hend, hSv]
      · have hex : extra = [] := by
          rcases hextra with h | ⟨images, _, h⟩
          · exact h
          · rw [hSv] at h
            cases h
        subst hex
        simp [List.filter_append, hf1, hf2, List.filter_cons, Step.isCall, Step.isDone,
          Step.isErrorln]
    | value r =>
      cases r with
      | none =>
        refine Or.inr (Or.inr ⟨rfl, ?_, ?_⟩)
        · rw [hend, hSv]
        · simp [List.filter_append, hf1, hf2, hcallsExtra, List.filter_cons, Step.isCall,
            Step.isDone, Step.isErrorln]
      | some e =>
        refine Or.inr (Or.inl ⟨e, rfl, ?_, ?_⟩)
        · rw [hend, hSv]
        · simp [List.filter_append, hf1, hf2, hcallsExtra, List.filter_cons, Step.isCall,
            Step.isDone, Step.isErrorln]

theorem cacheThenFinish_cases (env : CacheEnv) (v : viper.Settings)
    (cg kg : errgroup.Group Task) (k8sVersion : String) (w : World) :
    ∃ (new : List Step) (e1 e2 : Option error) (saveSteps : List Step),
      (cacheThenFinish env v cg kg k8sVersion w).world.steps = w.steps ++ new ∧
      (saveSteps = [] ∨ ∃ images : List String,
        saveSteps = [Step.SaveToDir images env.ImageCacheDir
          (env.SaveToDir images env.ImageCacheDir)] ∧
        (saveImagesToTarFromConfig env w).2 =
          Ret.value (env.SaveToDir images env.ImageCacheDir)) ∧
      (∀ x ∈ w.files, x ∈ (cacheThenFinish env v cg kg k8sVersion w).world.files) ∧
      ((∃ e : error, (machine.CacheBinariesForBootstrapper env k8sVersion []).2 = some e ∧
          (cacheThenFinish env v cg kg k8sVersion w).ending =
            Ending.ended Termination.fatalError ∧
          new.filter Step.isCall =
            [Step.CacheBinariesForBootstrapper k8sVersion (viper.GetString v env.Bootstrapper)
                (some e),
              Step.WithError "Failed to cache binaries" e]) ∨
        (∃ e : error, (machine.CacheBinariesForBootstrapper env k8sVersion []).2 = none ∧
          env.fetchBinary (if env.GOOS == "windows" then "kubectl.exe" else "kubectl")
            k8sVersion env.GOOS env.GOARCH = some e ∧
          (cacheThenFinish env v cg kg k8sVersion w).ending =
            Ending.ended Termination.fatalError ∧
          new.filter Step.isCall =
            [Step.CacheBinariesForBootstrapper k8sVersion (viper.GetString v env.Bootstrapper)
                none,
              Step.CacheBinary (if env.GOOS == "windows" then "kubectl.exe" else "kubectl")
                k8sVersion env.GOOS env.GOARCH "" (some e),
              Step.WithError "Failed to cache kubectl" e]) ∨
        ((machine.CacheBinariesForBootstrapper env k8sVersion []).2 = none ∧
          env.fetchBinary (if env.GOOS == "windows" then "kubectl.exe" else "kubectl")
            k8sVersion env.GOOS env.GOARCH = none ∧
          (∀ bin ∈ env.KubeadmCachedBinaries, "cache/" ++ k8sVersion ++ "/" ++ bin ∈
            (cacheThenFinish env v cg kg k8sVersion w).world.files) ∧
          ("cache/" ++ k8sVersion ++ "/" ++
              (if env.GOOS == "windows" then "kubectl.exe" else "kubectl") ∈
            (cacheThenFinish env v cg kg k8sVersion w).world.files) ∧
          (viper.GetBool v env.cacheImages = true →
            ∀ f ∈ cg.running, Step.Done cg.label f (f.call env []).2 ∈ new) ∧
          (viper.GetBool v env.cacheImages = true →
            ∀ (r ver b : String), Task.CacheImagesForBootstrapper r ver b ∈ cg.running →
              ((Task.CacheImagesForBootstrapper r ver b).call env []).2 = none →
              ∀ img ∈ env.KubeadmCachedImages r ver,
                "images/" ++ img ∈ (cacheThenFinish env v cg kg k8sVersion w).world.files) ∧
          ((∃ reason : String, (saveImagesToTarFromConfig env w).2 = Ret.panic reason ∧
              (cacheThenFinish env v cg kg k8sVersion w).ending = Ending.panicked reason ∧
              new.filter Step.isCall =
                [Step.CacheBinariesForBootstrapper k8sVersion
                    (viper.GetString v env.Bootstrapper) none,
                  Step.CacheBinary (if env.GOOS == "windows" then "kubectl.exe" else "kubectl")
                    k8sVersion env.GOOS env.GOARCH
                    ("cache/" ++ k8sVersion ++ "/" ++
                      (if env.GOOS == "windows" then "kubectl.exe" else "kubectl")) none] ++
                (if viper.GetBool v env.cacheImages = true then [Step.Wait cg.label e1]
                  else []) ++
                [Step.Wait kg.label e2, Step.ReadConfig env.ConfigFile]) ∨
            (∃ e : error, (saveImagesToTarFromConfig env w).2 = Ret.value (some e) ∧
              (cacheThenFinish env v cg kg k8sVersion w).ending =
                Ending.ended Termination.fatalError ∧
              new.filter Step.isCall =
                [Step.CacheBinariesForBootstrapper k8sVersion
                    (viper.GetString v env.Bootstrapper) none,
                  Step.CacheBinary (if env.GOOS == "windows" then "kubectl.exe" else "kubectl")
                    k8sVersion env.GOOS env.GOARCH
                    ("cache/" ++ k8sVersion ++ "/" ++
                      (if env.GOOS == "windows" then "kubectl.exe" else "kubectl")) none] ++
                (if viper.GetBool v env.cacheImages = true then [Step.Wait cg.label e1]
                  else []) ++
                [Step.Wait kg.label e2, Step.ReadConfig env.ConfigFile] ++ saveSteps ++
                [Step.WithError "Failed to cache images to tar" e]) ∨
            ((saveImagesToTarFromConfig env w).2 = Ret.value none ∧
              (cacheThenFinish env v cg kg k8sVersion w).ending = Ending.exited 0 ∧
              new.filter Step.isCall =
                [Step.CacheBinariesForBootstrapper k8sVersion
                    (viper.GetString v env.Bootstrapper) none,
                  Step.CacheBinary (if env.GOOS == "windows" then "kubectl.exe" else "kubectl")
                    k8sVersion env.GOOS env.GOARCH
                    ("cache/" ++ k8sVersion ++ "/" ++
                      (if env.GOOS == "windows" then "kubectl.exe" else "kubectl")) none] ++
                (if viper.GetBool v env.cacheImages = true then [Step.Wait cg.label e1]
                  else []) ++
                [Step.Wait kg.label e2, Step.ReadConfig env.ConfigFile] ++ saveSteps ++
                [Step.T "Download complete!", Step.Exit 0])))) := by
  have hkeepB : ∀ x ∈ w.files, x ∈ (machine.CacheBinariesForBootstrapper env k8sVersion w.files).1 :=
    fun x hx => machine.cacheAll_keeps _ _ _ w.files x hx
  cases hB : (machine.CacheBinariesForBootstrapper env k8sVersion []).2 with
  | some e =>
    refine ⟨[Step.CacheBinariesForBootstrapper k8sVersion (viper.GetString v env.Bootstrapper)
        (some e), Step.WithError "Failed to cache binaries" e], none, none, [], ?_, Or.inl rfl,
      ?_, Or.inl ⟨e, rfl, ?_, rfl⟩⟩
    · simp [cacheThenFinish, doCacheBinaries_eq, hB, fatal, World.step]
    · intro x hx
      simp only [cacheThenFinish, doCacheBinaries_eq, hB, fatal, World.step]
      exact hkeepB x hx
    · simp [cacheThenFinish, doCacheBinaries_eq, hB, fatal, exit.WithError]
  | none =>
    cases hK : env.fetchBinary (if env.GOOS == "windows" then "kubectl.exe" else "kubectl")
        k8sVersion env.GOOS env.GOARCH with
    | some e =>
      refine ⟨[Step.CacheBinariesForBootstrapper k8sVersion (viper.GetString v env.Bootstrapper)
          none, Step.CacheBinary (if env.GOOS == "windows" then "kubectl.exe" else "kubectl")
            k8sVersion env.GOOS env.GOARCH "" (some e),
          Step.WithError "Failed to cache kubectl" e], none, none, [], ?_, Or.inl rfl,
        ?_, Or.inr (Or.inl ⟨e, rfl, rfl, ?_, rfl⟩)⟩
      · simp [cacheThenFinish, doCacheBinaries_eq, hB, CacheKubectlBinary_err _ _ _ e hK,
          fatal, World.step]
      · intro x hx
        simp only [cacheThenFinish, doCacheBinaries_eq, hB, CacheKubectlBinary_err _ _ _ e hK,
          fatal, World.step]
        exact hkeepB x hx
      · simp [cacheThenFinish, doCacheBinaries_eq, hB, CacheKubectlBinary_err _ _ _ e hK,
          fatal, exit.WithError]
    | none =>
      obtain ⟨new, e1, e2, saveSteps, hsteps, hsave, hfiles, hdone, himgs, hcases⟩ :=
        finishDownloadOnly_cases env v cg kg
          ({ w with
              files := (machine.CacheBinariesForBootstrapper env k8sVersion w.files).1 ++
                ["cache/" ++ k8sVersion ++ "/" ++
                  (if env.GOOS == "windows" then "kubectl.exe" else "kubectl")],
              steps := w.steps ++
                [Step.CacheBinariesForBootstrapper k8sVersion
                    (viper.GetString v env.Bootstrapper) none,
                  Step.CacheBinary (if env.GOOS == "windows" then "kubectl.exe" else "kubectl")
                    k8sVersion env.GOOS env.GOARCH
                    ("cache/" ++ k8sVersion ++ "/" ++
                      (if env.GOOS == "windows" then "kubectl.exe" else "kubectl")) none] })
      have hrun' : cacheThenFinish env v cg kg k8sVersion w =
          finishDownloadOnly env v cg kg
            ({ w with
              files := (machine.CacheBinariesForBootstrapper env k8sVersion w.files).1 ++
                ["cache/" ++ k8sVersion ++ "/" ++
                  (if env.GOOS == "windows" then "kubectl.exe" else "kubectl")],
              steps := w.steps ++
                [Step.CacheBinariesForBootstrapper k8sVersion
                    (viper.GetString v env.Bootstrapper) none,
                  Step.CacheBinary (if env.GOOS == "windows" then "kubectl.exe" else "kubectl")
                    k8sVersion env.GOOS env.GOARCH
                    ("cache/" ++ k8sVersion ++ "/" ++
                      (if env.GOOS == "windows" then "kubectl.exe" else "kubectl")) none] }) := by
        simp [cacheThenFinish, doCacheBinaries_eq, hB, CacheKubectlBinary_ok _ _ _ hK, World.step]
      obtain ⟨_, _, _, hindep⟩ := saveImagesToTarFromConfig_spec env w
      rw [hindep] at hsave hcases
      rw [← hrun'] at hsteps hfiles himgs hcases
      have hBw : (machine.CacheBinariesForBootstrapper env k8sVersion w.files).2 = none := by
        have := machine.cacheAll_snd (fun bin => env.fetchBinary bin k8sVersion env.GOOS env.GOARCH)
          (fun bin => "cache/" ++ k8sVersion ++ "/" ++ bin) env.KubeadmCachedBinaries w.files
        simp only [machine.CacheBinariesForBootstrapper] at hB ⊢
        rw [this]
        exact hB
      have hbins : ∀ bin ∈ env.KubeadmCachedBinaries, "cache/" ++ k8sVersion ++ "/" ++ bin ∈
          (machine.CacheBinariesForBootstrapper env k8sVersion w.files).1 :=
        machine.cacheAll_stores _ (fun bin => "cache/" ++ k8sVersion ++ "/" ++ bin) _ w.files hBw
      refine ⟨[Step.CacheBinariesForBootstrapper k8sVersion (viper.GetString v env.Bootstrapper)
          none, Step.CacheBinary (if env.GOOS == "windows" then "kubectl.exe" else "kubectl")
            k8sVersion env.GOOS env.GOARCH
            ("cache/" ++ k8sVersion ++ "/" ++
              (if env.GOOS == "windows" then "kubectl.exe" else "kubectl")) none] ++ new,
        e1, e2, saveSteps, ?_, hsave, ?_, Or.inr (Or.inr ⟨rfl, rfl, ?_, ?_, ?_, himgs, ?_⟩)⟩
      · rw [hsteps]
        simp
      · intro x hx
        exact hfiles x (List.mem_append_left _ (hkeepB x hx))
      · intro bin hbin
        exact hfiles _ (List.mem_append_left _ (hbins bin hbin))
      · exact hfiles _ (List.mem_append_right _ (List.mem_singleton_self _))
      · intro hon f hf
        exact List.mem_append_right _ (hdone hon f hf)
      · rcases hcases with ⟨reason, h1, h2, h3⟩ | ⟨e, h1, h2, h3⟩ | ⟨h1, h2, h3⟩
        · refine Or.inl ⟨reason, h1, h2, ?_⟩
          rw [List.filter_append, h3]
          simp [List.filter_cons, Step.isCall, Step.isDone, Step.isErrorln]
        · refine Or.inr (Or.inl ⟨e, h1, h2, ?_⟩)
          rw [List.filter_append, h3]
          simp [List.filter_cons, Step.isCall, Step.isDone, Step.isErrorln]
        · refine Or.inr (Or.inr ⟨h1, h2, ?_⟩)
          rw [List.filter_append, h3]
          simp [List.filter_cons, Step.isCall, Step.isDone, Step.isErrorln]

theorem handleDownloadOnly_off (env : CacheEnv) (v : viper.Settings)
    (cg : errgroup.Group Task) (k8sVersion driverName : String) (w : World)
    (h : viper.GetBool v "download-only" = false) :
    handleDownloadOnly env v cg k8sVersion driverName w = ⟨w, Ending.returned⟩ := by
  simp [handleDownloadOnly, h]

theorem handleDownloadOnly_on (env : CacheEnv) (v : viper.Settings)
    (cg : errgroup.Group Task) (k8sVersion driverName : String) (w : World)
    (h : viper.GetBool v "download-only" = true) :
    handleDownloadOnly env v cg k8sVersion driverName w =
      cacheThenFinish env v cg
        ⟨"kicArtifactsGroup",
          (if env.IsKIC driverName = true then
            [Task.WriteImageToDaemon env.BaseImage, Task.CacheTarball k8sVersion] else []), none⟩
        k8sVersion
        { w with steps := w.steps ++ Step.IsKIC driverName (env.IsKIC driverName) ::
          (if env.IsKIC driverName = true then
            [Step.Go "kicArtifactsGroup" (Task.WriteImageToDaemon env.BaseImage),
              Step.Go "kicArtifactsGroup" (Task.CacheTarball k8sVersion)] else []) } := by
  cases hk : env.IsKIC driverName <;>
    simp [handleDownloadOnly, h, hk, beginDownloadKicArtifacts, errgroup.zero,
      errgroup.Group.Go, World.step]

theorem handleDownloadOnly_ending (env : CacheEnv) (v : viper.Settings)
    (cg : errgroup.Group Task) (k8sVersion driverName : String) (w : World)
    (h : viper.GetBool v "download-only" = true) :
    (handleDownloadOnly env v cg k8sVersion driverName w).ending =
      (match (machine.CacheBinariesForBootstrapper env k8sVersion []).2 with
        | some _ => Ending.ended Termination.fatalError
        | none =>
          match env.fetchBinary (if env.GOOS == "windows" then "kubectl.exe" else "kubectl")
              k8sVersion env.GOOS env.GOARCH with
          | some _ => Ending.ended Termination.fatalError
          | none =>
            match (saveImagesToTarFromConfig env w).2 with
            | Ret.panic reason => Ending.panicked reason
            | Ret.value (some _) => Ending.ended Termination.fatalError
            | Ret.value none => Ending.exited 0) := by
  rw [handleDownloadOnly_on env v cg k8sVersion driverName w h]
  obtain ⟨new, e1, e2, saveSteps, _, _, _, hcases⟩ := cacheThenFinish_cases env v cg
    ⟨"kicArtifactsGroup",
      (if env.IsKIC driverName = true then
        [Task.WriteImageToDaemon env.BaseImage, Task.CacheTarball k8sVersion] else []), none⟩
    k8sVersion
    { w with steps := w.steps ++ Step.IsKIC driverName (env.IsKIC driverName) ::
      (if env.IsKIC driverName = true then
        [Step.Go "kicArtifactsGroup" (Task.WriteImageToDaemon env.BaseImage),
          Step.Go "kicArtifactsGroup" (Task.CacheTarball k8sVersion)] else []) }
  obtain ⟨_, _, _, hindep⟩ := saveImagesToTarFromConfig_spec env w
  rw [hindep] at hcases
  rcases hcases with ⟨e, hB, hend, _⟩ | ⟨e, hB, hK, hend, _⟩ | ⟨hB, hK, _, _, _, _, hS⟩
  · rw [hend, hB]
  · rw [hend, hB, hK]
  · rcases hS with ⟨reason, h1, h2, _⟩ | ⟨e, h1, h2, _⟩ | ⟨h1, h2, _⟩
    · rw [h2, hB, hK, h1]
    · rw [h2, hB, hK, h1]
    · rw [h2, hB, hK, h1]

theorem CacheKubectlBinary_err_eq (env : CacheEnv) (k8sVersion : String) (w : World) :
    (CacheKubectlBinary env k8sVersion w).2.2 =
      env.fetchBinary (if env.GOOS == "windows" then "kubectl.exe" else "kubectl")
        k8sVersion env.GOOS env.GOARCH := by
  cases h : env.fetchBinary (if env.GOOS == "windows" then "kubectl.exe" else "kubectl")
      k8sVersion env.GOOS env.GOARCH with
  | none => rw [CacheKubectlBinary_ok env k8sVersion w h]
  | some e => rw [CacheKubectlBinary_err env k8sVersion w e h]

theorem doCacheBinaries_err_eq (env : CacheEnv) (v : viper.Settings) (k8sVersion : String)
    (w : World) :
    (doCacheBinaries env v k8sVersion w).2 =
      (machine.CacheBinariesForBootstrapper env k8sVersion []).2 := by
  rw [doCacheBinaries_eq]

theorem handleDownloadOnly_kinds (env : CacheEnv) (v : viper.Settings)
    (cg : errgroup.Group Task) (k8sVersion driverName : String) (w : World)
    (h : viper.GetBool v "download-only" = true) :
    (handleDownloadOnly env v cg k8sVersion driverName w).ending ≠ Ending.returned ∧
    ((handleDownloadOnly env v cg k8sVersion driverName w).ending = Ending.exited 0 ∨
      (handleDownloadOnly env v cg k8sVersion driverName w).ending =
        Ending.ended Termination.fatalError ∨
      ∃ reason : String,
        (handleDownloadOnly env v cg k8sVersion driverName w).ending =
          Ending.panicked reason) ∧
    ((handleDownloadOnly env v cg k8sVersion driverName w).ending = Ending.exited 0 ∨
      (handleDownloadOnly env v cg k8sVersion driverName w).ending.nonZeroExit = true) := by
  rw [handleDownloadOnly_ending env v cg k8sVersion driverName w h]
  cases (machine.CacheBinariesForBootstrapper env k8sVersion []).2 with
  | some e => simp [Ending.nonZeroExit, Termination.nonZeroExit]
  | none =>
    cases env.fetchBinary (if env.GOOS == "windows" then "kubectl.exe" else "kubectl")
        k8sVersion env.GOOS env.GOARCH with
    | some e => simp [Ending.nonZeroExit, Termination.nonZeroExit]
    | none =>
      cases (saveImagesToTarFromConfig env w).2 with
      | panic reason => simp [Ending.nonZeroExit]
      | value r =>
        cases r with
        | none => simp
        | some e => simp [Ending.nonZeroExit, Termination.nonZeroExit]

/-! ## Properties of the caching code -/

/-- C13: when the download-only option is disabled `handleDownloadOnly` returns to its
caller at once and leaves the world as it was: no caching step, no join, no exit. When
the option is enabled it never returns: the process ends through `os.Exit(0)`, through
`exit.WithError`, or through the panic of the type assertion in `imagesInConfigFile`,
the last two with a non-zero status. -/
theorem C13_download_only_returns_iff_disabled (env : CacheEnv) (v : viper.Settings)
    (cg : errgroup.Group Task) (k8sVersion driverName : String) (w : World) :
    (viper.GetBool v "download-only" = false →
      handleDownloadOnly env v cg k8sVersion driverName w = ⟨w, Ending.returned⟩) ∧
    (viper.GetBool v "download-only" = true →
      (handleDownloadOnly env v cg k8sVersion driverName w).ending ≠ Ending.returned ∧
      ((handleDownloadOnly env v cg k8sVersion driverName w).ending = Ending.exited 0 ∨
        (handleDownloadOnly env v cg k8sVersion driverName w).ending =
          Ending.ended Termination.fatalError ∨
        ∃ reason : String,
          (handleDownloadOnly env v cg k8sVersion driverName w).ending =
            Ending.panicked reason) ∧
      ((handleDownloadOnly env v cg k8sVersion driverName w).ending = Ending.exited 0 ∨
        (handleDownloadOnly env v cg k8sVersion driverName w).ending.nonZeroExit = true)) := by
  exact ⟨handleDownloadOnly_off env v cg k8sVersion driverName w,
    handleDownloadOnly_kinds env v cg k8sVersion driverName w⟩

/-- C18: `CacheKubectlBinary` makes one call of `machine.CacheBinary`, for the binary
`kubectl.exe` when the host OS is windows and `kubectl` for every other host OS, for the
Kubernetes version it was given and the host OS and architecture, and hands back the
path and the error of that call unchanged. -/
theorem C18_kubectl_binary_name_by_host_os (env : CacheEnv) (k8sVersion : String) (w : World) :
    (∃ binary : String,
      (binary = if env.GOOS = "windows" then "kubectl.exe" else "kubectl") ∧
      (CacheKubectlBinary env k8sVersion w).2 =
        (machine.CacheBinary env binary k8sVersion env.GOOS env.GOARCH w.files).2 ∧
      (CacheKubectlBinary env k8sVersion w).1.files =
        (machine.CacheBinary env binary k8sVersion env.GOOS env.GOARCH w.files).1 ∧
      (CacheKubectlBinary env k8sVersion w).1.steps =
        w.steps ++ [Step.CacheBinary binary k8sVersion env.GOOS env.GOARCH
          (machine.CacheBinary env binary k8sVersion env.GOOS env.GOARCH w.files).2.1
          (machine.CacheBinary env binary k8sVersion env.GOOS env.GOARCH w.files).2.2]) ∧
    (env.GOOS = "windows" →
      (CacheKubectlBinary env k8sVersion w).2 =
        (machine.CacheBinary env "kubectl.exe" k8sVersion "windows" env.GOARCH w.files).2) ∧
    (env.GOOS ≠ "windows" →
      (CacheKubectlBinary env k8sVersion w).2 =
        (machine.CacheBinary env "kubectl" k8sVersion env.GOOS env.GOARCH w.files).2) := by
  refine ⟨⟨if env.GOOS = "windows" then "kubectl.exe" else "kubectl", rfl, ?_, ?_, ?_⟩, ?_, ?_⟩
  · by_cases h : env.GOOS = "windows" <;> simp [CacheKubectlBinary, h]
  · by_cases h : env.GOOS = "windows" <;> simp [CacheKubectlBinary, h, World.step]
  · by_cases h : env.GOOS = "windows" <;> simp [CacheKubectlBinary, h, World.step]
  · intro h
    simp [CacheKubectlBinary, h]
  · intro h
    simp [CacheKubectlBinary, h]

end node

namespace performance.cmd

/-- C19: `validateArgs` returns an error exactly when the number of arguments is not 2,
whatever the arguments are: two lists of the same length get the same result, the lists
of length 0, 1 and 3 are rejected and every list of length 2 is accepted. -/
theorem C19_validateArgs_accepts_exactly_two (args : List String) :
    ((validateArgs args).isSome ↔ args.length ≠ 2) ∧
    (validateArgs args = none ↔ args.length = 2) ∧
    (args.length ≠ 2 → validateArgs args = some (errors.New
      "mkcmp requries two minikube binaries to compare: mkcmp [path to first binary] [path to second binary]")) ∧
    (∀ args' : List String, args'.length = args.length → validateArgs args' = validateArgs args) ∧
    (validateArgs [] ≠ none) ∧
    (∀ a : String, validateArgs [a] ≠ none) ∧
    (∀ a b : String, validateArgs [a, b] = none) ∧
    (∀ (a b c : String) (rest : List String), validateArgs (a :: b :: c :: rest) ≠ none) := by
  refine ⟨?_, ?_, ?_, ?_, ?_, ?_, ?_, ?_⟩
  · by_cases h : args.length = 2 <;> simp [validateArgs, h]
  · by_cases h : args.length = 2 <;> simp [validateArgs, h]
  · intro h
    simp [validateArgs, h]
  · intro args' h
    simp [validateArgs, h]
  · simp [validateArgs]
  · intro a
    simp [validateArgs]
  · intro a b
    simp [validateArgs]
  · intro a b c rest
    simp [validateArgs]

end performance.cmd

namespace node

/-- C16, as stated, fails: the configuration `stringValueConfig` is read without error
and the cache-image key is neither absent nor bound to an empty mapping, so the claim
has `machine.CacheAndLoadImages` called once and its result returned; but the value under
the key is a string, the type assertion on it panics, and `CacheAndLoadImagesInConfig`
makes no call of `machine.CacheAndLoadImages` and returns nothing. The same holds of
`saveImagesToTarFromConfig` and `image.SaveToDir`. -/
theorem C16_non_mapping_value_panics :
    stringValueEnv.ReadConfig stringValueEnv.ConfigFile = Except.ok stringValueConfig ∧
    stringValueConfig.get? stringValueEnv.cacheImageConfigKey =
      some (config.Value.scalar (config.Scalar.string "busybox:latest")) ∧
    (CacheAndLoadImagesInConfig stringValueEnv emptyWorld).2 =
      Ret.panic "interface conversion: interface is not map[string]interface" ∧
    (CacheAndLoadImagesInConfig stringValueEnv emptyWorld).1.steps.filter
      Step.isCacheAndLoadImages = [] ∧
    (¬ ∃ r : Option error,
      (CacheAndLoadImagesInConfig stringValueEnv emptyWorld).2 = Ret.value r) ∧
    (saveImagesToTarFromConfig stringValueEnv emptyWorld).2 =
      Ret.panic "interface conversion: interface is not map[string]interface" ∧
    (saveImagesToTarFromConfig stringValueEnv emptyWorld).1.steps.filter Step.isSaveToDir = [] ∧
    (¬ ∃ r : Option error,
      (saveImagesToTarFromConfig stringValueEnv emptyWorld).2 = Ret.value r) := by
  have h1 : (CacheAndLoadImagesInConfig stringValueEnv emptyWorld).2 =
      Ret.panic "interface conversion: interface is not map[string]interface" := rfl
  have h2 : (saveImagesToTarFromConfig stringValueEnv emptyWorld).2 =
      Ret.panic "interface conversion: interface is not map[string]interface" := rfl
  refine ⟨rfl, rfl, h1, rfl, ?_, h2, rfl, ?_⟩
  · rintro ⟨r, hr⟩
    rw [h1] at hr
    exact Ret.noConfusion hr
  · rintro ⟨r, hr⟩
    rw [h2] at hr
    exact Ret.noConfusion hr

/-- C16, amended: `CacheAndLoadImagesInConfig` returns the error of a failed read of the
configuration without loading anything; when the cache-image key is absent or maps to an
empty mapping it returns success without a call of `machine.CacheAndLoadImages`; when the
key maps to a non-empty mapping it calls `machine.CacheAndLoadImages` exactly once, with
the keys of that mapping, and returns its result unchanged. `saveImagesToTarFromConfig`
does the same with `image.SaveToDir` and the image cache directory. -/
theorem C16_config_images_loaded_only_if_any (env : CacheEnv) (w : World) :
    (∀ e : error, env.ReadConfig env.ConfigFile = Except.error e →
      CacheAndLoadImagesInConfig env w =
        (w.step (Step.ReadConfig env.ConfigFile), Ret.value (some e)) ∧
      saveImagesToTarFromConfig env w =
        (w.step (Step.ReadConfig env.ConfigFile), Ret.value (some e))) ∧
    (∀ cfg : config.MinikubeConfig, env.ReadConfig env.ConfigFile = Except.ok cfg →
      (cfg.get? env.cacheImageConfigKey = none ∨
        ∃ m : StrMap config.Scalar,
          cfg.get? env.cacheImageConfigKey = some (config.Value.mapping m) ∧ m.entries = []) →
      CacheAndLoadImagesInConfig env w =
        (w.step (Step.ReadConfig env.ConfigFile), Ret.value none) ∧
      saveImagesToTarFromConfig env w =
        (w.step (Step.ReadConfig env.ConfigFile), Ret.value none)) ∧
    (∀ (cfg : config.MinikubeConfig) (m : StrMap config.Scalar),
      env.ReadConfig env.ConfigFile = Except.ok cfg →
      cfg.get? env.cacheImageConfigKey = some (config.Value.mapping m) → m.entries ≠ [] →
      CacheAndLoadImagesInConfig env w =
        ((w.step (Step.ReadConfig env.ConfigFile)).step
          (Step.CacheAndLoadImages m.keys (env.CacheAndLoadImages m.keys)),
          Ret.value (env.CacheAndLoadImages m.keys)) ∧
      (CacheAndLoadImagesInConfig env w).1.steps.filter Step.isCacheAndLoadImages =
        w.steps.filter Step.isCacheAndLoadImages ++
          [Step.CacheAndLoadImages m.keys (env.CacheAndLoadImages m.keys)] ∧
      saveImagesToTarFromConfig env w =
        ((w.step (Step.ReadConfig env.ConfigFile)).step
          (Step.SaveToDir m.keys env.ImageCacheDir (env.SaveToDir m.keys env.ImageCacheDir)),
          Ret.value (env.SaveToDir m.keys env.ImageCacheDir)) ∧
      (saveImagesToTarFromConfig env w).1.steps.filter Step.isSaveToDir =
        w.steps.filter Step.isSaveToDir ++
          [Step.SaveToDir m.keys env.ImageCacheDir (env.SaveToDir m.keys env.ImageCacheDir)]) ∧
    ((w.step (Step.ReadConfig env.ConfigFile)).steps.filter Step.isCacheAndLoadImages =
        w.steps.filter Step.isCacheAndLoadImages ∧
      (w.step (Step.ReadConfig env.ConfigFile)).steps.filter Step.isSaveToDir =
        w.steps.filter Step.isSaveToDir) := by
  refine ⟨?_, ?_, ?_, ?_⟩
  · intro e h
    simp [CacheAndLoadImagesInConfig, saveImagesToTarFromConfig,
      imagesInConfigFile_error env w e h]
  · intro cfg h hk
    rcases hk with hk | ⟨m, hk, hm⟩
    · simp [CacheAndLoadImagesInConfig, saveImagesToTarFromConfig,
        imagesInConfigFile_absent env w cfg h hk]
    · have hkeys : m.keys = [] := (keys_eq_nil_iff m).mpr hm
      simp [CacheAndLoadImagesInConfig, saveImagesToTarFromConfig,
        imagesInConfigFile_mapping env w cfg m h hk, hkeys]
  · intro cfg m h hk hm
    have hkeys : ¬ m.keys = [] := fun hc => hm ((keys_eq_nil_iff m).mp hc)
    simp [CacheAndLoadImagesInConfig, saveImagesToTarFromConfig,
      imagesInConfigFile_mapping env w cfg m h hk, hkeys, World.step, List.filter_append,
      List.filter_cons, Step.isCacheAndLoadImages, Step.isSaveToDir]
  · simp [World.step, List.filter_append, List.filter_cons, Step.isCacheAndLoadImages,
      Step.isSaveToDir]

/-- C17: the function `wait`, on any group, lets every function launched on the group
finish, each exactly once, whatever the others return, before the call of `Wait`
returns, and the error `Wait` returns is the first non-nil error in the order in which
they finished, none if all returned nil. The group of `beginDownloadKicArtifacts` holds
exactly the two functions writing the base image and caching the preloaded tarball, and
`waitDownloadKicArtifacts` joins it that way; with image caching enabled the group of
`beginCacheRequiredImages` holds the one image-cache function and
`waitCacheRequiredImages` joins it that way. The error a function returns does not
depend on the files present, so it is written as the one it returns on no files. -/
theorem C17_groups_run_to_completion_first_error (env : CacheEnv) (v : viper.Settings)
    (imageRepository k8sVersion : String) (w : World) :
    (∀ g : errgroup.Group Task, ∃ order : List Task, order.Perm g.running ∧
      (wait env g w).1.steps =
        w.steps ++ order.map (fun f => Step.Done g.label f (f.call env []).2) ++
          [Step.Wait g.label (wait env g w).2] ∧
      (wait env g w).2 =
        order.foldl (fun acc f => errgroup.firstError acc (f.call env []).2) g.err ∧
      (g.err = none →
        ((wait env g w).2 = none ↔ ∀ f ∈ g.running, (f.call env []).2 = none) ∧
        (∀ e : error, (wait env g w).2 = some e →
          ∃ (pre : List Task) (f : Task) (post : List Task), order = pre ++ f :: post ∧
            (∀ x ∈ pre, (x.call env []).2 = none) ∧ (f.call env []).2 = some e))) ∧
    ((beginDownloadKicArtifacts env (errgroup.zero "kicArtifactsGroup") k8sVersion w).1.running =
        [Task.WriteImageToDaemon env.BaseImage, Task.CacheTarball k8sVersion] ∧
      ∃ order : List Task,
        order.Perm [Task.WriteImageToDaemon env.BaseImage, Task.CacheTarball k8sVersion] ∧
        (waitDownloadKicArtifacts env
            (beginDownloadKicArtifacts env (errgroup.zero "kicArtifactsGroup") k8sVersion w).1
            (beginDownloadKicArtifacts env (errgroup.zero "kicArtifactsGroup") k8sVersion w).2).steps =
          w.steps ++
            [Step.Go "kicArtifactsGroup" (Task.WriteImageToDaemon env.BaseImage),
              Step.Go "kicArtifactsGroup" (Task.CacheTarball k8sVersion)] ++
            order.map (fun f => Step.Done "kicArtifactsGroup" f (f.call env []).2) ++
            [Step.Wait "kicArtifactsGroup"
              (order.foldl (fun acc f => errgroup.firstError acc (f.call env []).2) none)] ++
            (match order.foldl (fun acc f => errgroup.firstError acc (f.call env []).2) none with
              | some e => [Step.Errorln "Error downloading kic artifacts: " e]
              | none => []) ∧
        (order.foldl (fun acc f => errgroup.firstError acc (f.call env []).2) none = none ↔
          env.WriteImageToDaemon env.BaseImage = none ∧ env.CacheTarball k8sVersion = none)) ∧
    (viper.GetBool v "cache-images" = true → viper.GetBool v env.cacheImages = true →
      (waitCacheRequiredImages env v
          (beginCacheRequiredImages env v (errgroup.zero "cacheGroup") imageRepository
            k8sVersion w).1
          (beginCacheRequiredImages env v (errgroup.zero "cacheGroup") imageRepository
            k8sVersion w).2).steps =
        w.steps ++
          [Step.Go "cacheGroup" (Task.CacheImagesForBootstrapper imageRepository k8sVersion
              (viper.GetString v env.Bootstrapper)),
            Step.Done "cacheGroup" (Task.CacheImagesForBootstrapper imageRepository k8sVersion
              (viper.GetString v env.Bootstrapper))
              (machine.CacheImagesForBootstrapper env imageRepository k8sVersion []).2,
            Step.Wait "cacheGroup"
              (machine.CacheImagesForBootstrapper env imageRepository k8sVersion []).2] ++
          (match (machine.CacheImagesForBootstrapper env imageRepository k8sVersion []).2 with
            | some e => [Step.Errorln "Error caching images: " e]
            | none => [])) := by
  refine ⟨?_, ⟨rfl, ?_⟩, ?_⟩
  · intro g
    obtain ⟨order, hperm, hsteps, herr, _, _, _⟩ := wait_spec env g w
    refine ⟨order, hperm, hsteps, herr, ?_⟩
    intro hg
    rw [herr, hg]
    refine ⟨?_, ?_⟩
    · rw [errgroup.foldl_firstError_eq_none_iff (fun f : Task => (f.call env []).2)]
      exact ⟨fun h f hf => h f (hperm.mem_iff.mpr hf), fun h f hf => h f (hperm.mem_iff.mp hf)⟩
    · intro e he
      exact errgroup.foldl_firstError_eq_some (fun f : Task => (f.call env []).2) e order he
  · obtain ⟨order, hperm, hsteps, _, _⟩ := waitDownloadKicArtifacts_spec env
      (beginDownloadKicArtifacts env (errgroup.zero "kicArtifactsGroup") k8sVersion w).1
      (beginDownloadKicArtifacts env (errgroup.zero "kicArtifactsGroup") k8sVersion w).2
    refine ⟨order, hperm, ?_, ?_⟩
    · rw [hsteps]
      simp [beginDownloadKicArtifacts, errgroup.zero, errgroup.Group.Go, World.step]
    · rw [errgroup.foldl_firstError_eq_none_iff (fun f : Task => (f.call env []).2)]
      have hmem : ∀ f : Task, f ∈ order ↔
          f ∈ [Task.WriteImageToDaemon env.BaseImage, Task.CacheTarball k8sVersion] :=
        fun f => hperm.mem_iff
      constructor
      · intro h
        exact ⟨h (Task.WriteImageToDaemon env.BaseImage) ((hmem _).mpr (by simp)),
          h (Task.CacheTarball k8sVersion) ((hmem _).mpr (by simp))⟩
      · intro h f hf
        rcases List.mem_cons.mp ((hmem f).mp hf) with rfl | hf'
        · exact h.1
        · rcases List.mem_cons.mp hf' with rfl | hf''
          · exact h.2
          · simp at hf''
  · intro hlit hon
    have hbegin : beginCacheRequiredImages env v (errgroup.zero "cacheGroup") imageRepository
        k8sVersion w =
        (⟨"cacheGroup", [Task.CacheImagesForBootstrapper imageRepository k8sVersion
            (viper.GetString v env.Bootstrapper)], none⟩,
          w.step (Step.Go "cacheGroup" (Task.CacheImagesForBootstrapper imageRepository
            k8sVersion (viper.GetString v env.Bootstrapper)))) := by
      simp [beginCacheRequiredImages, hlit, errgroup.zero, errgroup.Group.Go]
    rw [hbegin]
    obtain ⟨order, hperm, hsteps, _, _, _⟩ := waitCacheRequiredImages_on env v
      ⟨"cacheGroup", [Task.CacheImagesForBootstrapper imageRepository k8sVersion
        (viper.GetString v env.Bootstrapper)], none⟩
      (w.step (Step.Go "cacheGroup" (Task.CacheImagesForBootstrapper imageRepository
        k8sVersion (viper.GetString v env.Bootstrapper)))) hon
    have horder : order = [Task.CacheImagesForBootstrapper imageRepository k8sVersion
        (viper.GetString v env.Bootstrapper)] := List.perm_singleton.mp hperm
    subst horder
    rw [hsteps]
    simp [World.step, Task.call, errgroup.firstError]

/-- C20: in every run of `handleDownloadOnly` with download-only enabled that ends in
`os.Exit(0)`, the calls made by its own thread are, in this order: the probe of the
driver; if and only if the driver is a KIC driver, the launch of exactly two functions on
the KIC group, writing the base image and caching the preloaded tarball; the caching of
the bootstrapper binaries, without error; the caching of kubectl, without error; if
image caching is enabled, the join of the image-cache group; the join of the KIC group;
the read of the config file and, if it records images, the saving of them to tar,
without error; the report `Download complete!`; and the exit with code 0. -/
theorem C20_download_only_step_order (env : CacheEnv) (v : viper.Settings)
    (cg : errgroup.Group Task) (k8sVersion driverName : String) (w : World)
    (h : viper.GetBool v "download-only" = true)
    (hend : (handleDownloadOnly env v cg k8sVersion driverName w).ending = Ending.exited 0) :
    ∃ (new : List Step) (e1 e2 : Option error) (saveSteps : List Step),
      (handleDownloadOnly env v cg k8sVersion driverName w).world.steps = w.steps ++ new ∧
      (saveSteps = [] ∨ ∃ images : List String,
        saveSteps = [Step.SaveToDir images env.ImageCacheDir none]) ∧
      new.filter Step.isCall =
        Step.IsKIC driverName (env.IsKIC driverName) ::
          (if env.IsKIC driverName = true then
            [Step.Go "kicArtifactsGroup" (Task.WriteImageToDaemon env.BaseImage),
              Step.Go "kicArtifactsGroup" (Task.CacheTarball k8sVersion)] else []) ++
        [Step.CacheBinariesForBootstrapper k8sVersion (viper.GetString v env.Bootstrapper) none,
          Step.CacheBinary (if env.GOOS == "windows" then "kubectl.exe" else "kubectl")
            k8sVersion env.GOOS env.GOARCH
            ("cache/" ++ k8sVersion ++ "/" ++
              (if env.GOOS == "windows" then "kubectl.exe" else "kubectl")) none] ++
        (if viper.GetBool v env.cacheImages = true then [Step.Wait cg.label e1] else []) ++
        [Step.Wait "kicArtifactsGroup" e2, Step.ReadConfig env.ConfigFile] ++ saveSteps ++
        [Step.T "Download complete!", Step.Exit 0] := by
  rw [handleDownloadOnly_on env v cg k8sVersion driverName w h] at hend ⊢
  obtain ⟨new, e1, e2, saveSteps, hsteps, hsave, _, hcases⟩ := cacheThenFinish_cases env v cg
    ⟨"kicArtifactsGroup",
      (if env.IsKIC driverName = true then
        [Task.WriteImageToDaemon env.BaseImage, Task.CacheTarball k8sVersion] else []), none⟩
    k8sVersion
    { w with steps := w.steps ++ Step.IsKIC driverName (env.IsKIC driverName) ::
      (if env.IsKIC driverName = true then
        [Step.Go "kicArtifactsGroup" (Task.WriteImageToDaemon env.BaseImage),
          Step.Go "kicArtifactsGroup" (Task.CacheTarball k8sVersion)] else []) }
  obtain ⟨_, _, _, hindep⟩ := saveImagesToTarFromConfig_spec env w
  rw [hindep] at hcases hsave
  rcases hcases with ⟨e, _, hE, _⟩ | ⟨e, _, _, hE, _⟩ | ⟨_, _, _, _, _, _, hS⟩
  · rw [hE] at hend
    cases hend
  · rw [hE] at hend
    cases hend
  · rcases hS with ⟨reason, _, hE, _⟩ | ⟨e, _, hE, _⟩ | ⟨hSv, _, hcalls⟩
    · rw [hE] at hend
      cases hend
    · rw [hE] at hend
      cases hend
    · refine ⟨Step.IsKIC driverName (env.IsKIC driverName) ::
          (if env.IsKIC driverName = true then
            [Step.Go "kicArtifactsGroup" (Task.WriteImageToDaemon env.BaseImage),
              Step.Go "kicArtifactsGroup" (Task.CacheTarball k8sVersion)] else []) ++ new,
        e1, e2, saveSteps, ?_, ?_, ?_⟩
      · rw [hsteps]
        simp
      · rcases hsave with hs | ⟨images, hs, hval⟩
        · exact Or.inl hs
        · rw [hSv] at hval
          have hnone : env.SaveToDir images env.ImageCacheDir = none :=
            (Ret.value.inj hval).symm
          rw [hnone] at hs
          exact Or.inr ⟨images, hs⟩
      · rw [List.filter_append, hcalls]
        cases env.IsKIC driverName <;>
          simp [List.filter_cons, Step.isCall, Step.isDone, Step.isErrorln]

theorem C20_download_only_step_order_witness :
    viper.GetBool downloadOnly "download-only" = true ∧
    (handleDownloadOnly allSucceedEnv downloadOnly (errgroup.zero "cacheGroup") "v1.20.0"
      "docker" emptyWorld).ending = Ending.exited 0 ∧
    ∃ (new : List Step) (e1 e2 : Option error) (saveSteps : List Step),
      (handleDownloadOnly allSucceedEnv downloadOnly (errgroup.zero "cacheGroup") "v1.20.0"
        "docker" emptyWorld).world.steps = emptyWorld.steps ++ new ∧
      (saveSteps = [] ∨ ∃ images : List String,
        saveSteps = [Step.SaveToDir images allSucceedEnv.ImageCacheDir none]) ∧
      new.filter Step.isCall =
        Step.IsKIC "docker" (allSucceedEnv.IsKIC "docker") ::
          (if allSucceedEnv.IsKIC "docker" = true then
            [Step.Go "kicArtifactsGroup" (Task.WriteImageToDaemon allSucceedEnv.BaseImage),
              Step.Go "kicArtifactsGroup" (Task.CacheTarball "v1.20.0")] else []) ++
        [Step.CacheBinariesForBootstrapper "v1.20.0"
            (viper.GetString downloadOnly allSucceedEnv.Bootstrapper) none,
          Step.CacheBinary (if allSucceedEnv.GOOS == "windows" then "kubectl.exe" else "kubectl")
            "v1.20.0" allSucceedEnv.GOOS allSucceedEnv.GOARCH
            ("cache/" ++ "v1.20.0" ++ "/" ++
              (if allSucceedEnv.GOOS == "windows" then "kubectl.exe" else "kubectl")) none] ++
        (if viper.GetBool downloadOnly allSucceedEnv.cacheImages = true then
          [Step.Wait (errgroup.zero "cacheGroup" : errgroup.Group Task).label e1] else []) ++
        [Step.Wait "kicArtifactsGroup" e2, Step.ReadConfig allSucceedEnv.ConfigFile] ++
        saveSteps ++ [Step.T "Download complete!", Step.Exit 0] :=
  ⟨by decide, by decide,
    C20_download_only_step_order allSucceedEnv downloadOnly (errgroup.zero "cacheGroup")
      "v1.20.0" "docker" emptyWorld (by decide) (by decide)⟩

theorem not_mem_of_not_mem_calls {s : Step} {new : List Step} (hs : s.isCall = true)
    (h : s ∉ new.filter Step.isCall) : s ∉ new :=
  fun hmem => h (List.mem_filter.mpr ⟨hmem, hs⟩)

/-- C14: with download-only enabled, `handleDownloadOnly` ends the process with exit code
0 if and only if `doCacheBinaries` and `CacheKubectlBinary` return no error and
`saveImagesToTarFromConfig` returns nil; then the last two calls are the report
`Download complete!` and `os.Exit(0)`. Otherwise the exit status is non-zero, completion
is not reported and `os.Exit` is not called; when one of the three returns an error, the
call of `exit.WithError` with its message follows the failed step at once and no later
step is run. What the KIC downloads and the image-cache task return, the order in which
they finish and the group handed in have no influence on how the process ends. -/
theorem C14_exit_zero_iff_binaries_kubectl_save_succeed (env : CacheEnv) (v : viper.Settings)
    (cg : errgroup.Group Task) (k8sVersion driverName : String) (w : World)
    (h : viper.GetBool v "download-only" = true) :
    ((handleDownloadOnly env v cg k8sVersion driverName w).ending = Ending.exited 0 ↔
      (doCacheBinaries env v k8sVersion w).2 = none ∧
      (CacheKubectlBinary env k8sVersion w).2.2 = none ∧
      (saveImagesToTarFromConfig env w).2 = Ret.value none) ∧
    ((handleDownloadOnly env v cg k8sVersion driverName w).ending ≠ Ending.exited 0 →
      (handleDownloadOnly env v cg k8sVersion driverName w).ending.nonZeroExit = true) ∧
    (∃ new : List Step,
      (handleDownloadOnly env v cg k8sVersion driverName w).world.steps = w.steps ++ new ∧
      ((handleDownloadOnly env v cg k8sVersion driverName w).ending = Ending.exited 0 →
        ∃ calls : List Step,
          new.filter Step.isCall = calls ++ [Step.T "Download complete!", Step.Exit 0]) ∧
      ((handleDownloadOnly env v cg k8sVersion driverName w).ending ≠ Ending.exited 0 →
        Step.T "Download complete!" ∉ new ∧ ∀ code : Nat, Step.Exit code ∉ new) ∧
      (∀ e : error, (doCacheBinaries env v k8sVersion w).2 = some e →
        (handleDownloadOnly env v cg k8sVersion driverName w).ending =
          Ending.ended Termination.fatalError ∧
        new.filter Step.isCall =
          Step.IsKIC driverName (env.IsKIC driverName) ::
            (if env.IsKIC driverName = true then
              [Step.Go "kicArtifactsGroup" (Task.WriteImageToDaemon env.BaseImage),
                Step.Go "kicArtifactsGroup" (Task.CacheTarball k8sVersion)] else []) ++
          [Step.CacheBinariesForBootstrapper k8sVersion (viper.GetString v env.Bootstrapper)
              (some e),
            Step.WithError "Failed to cache binaries" e]) ∧
      (∀ e : error, (doCacheBinaries env v k8sVersion w).2 = none →
        (CacheKubectlBinary env k8sVersion w).2.2 = some e →
        (handleDownloadOnly env v cg k8sVersion driverName w).ending =
          Ending.ended Termination.fatalError ∧
        new.filter Step.isCall =
          Step.IsKIC driverName (env.IsKIC driverName) ::
            (if env.IsKIC driverName = true then
              [Step.Go "kicArtifactsGroup" (Task.WriteImageToDaemon env.BaseImage),
                Step.Go "kicArtifactsGroup" (Task.CacheTarball k8sVersion)] else []) ++
          [Step.CacheBinariesForBootstrapper k8sVersion (viper.GetString v env.Bootstrapper)
              none,
            Step.CacheBinary (if env.GOOS == "windows" then "kubectl.exe" else "kubectl")
              k8sVersion env.GOOS env.GOARCH "" (some e),
            Step.WithError "Failed to cache kubectl" e]) ∧
      (∀ e : error, (doCacheBinaries env v k8sVersion w).2 = none →
        (CacheKubectlBinary env k8sVersion w).2.2 = none →
        (saveImagesToTarFromConfig env w).2 = Ret.value (some e) →
        (handleDownloadOnly env v cg k8sVersion driverName w).ending =
          Ending.ended Termination.fatalError ∧
        ∃ calls : List Step,
          new.filter Step.isCall =
            calls ++ [Step.WithError "Failed to cache images to tar" e])) ∧
    (∀ (a b c : String → Option error) (p : List Task → Nat) (cg' : errgroup.Group Task),
      (handleDownloadOnly
          { env with WriteImageToDaemon := a, CacheTarball := b, fetchImage := c, pick := p }
          v cg' k8sVersion driverName w).ending =
        (handleDownloadOnly env v cg k8sVersion driverName w).ending) := by
  have hending := handleDownloadOnly_ending env v cg k8sVersion driverName w h
  rw [doCacheBinaries_err_eq, CacheKubectlBinary_err_eq]
  refine ⟨?_, ?_, ?_, ?_⟩
  · rw [hending]
    cases (machine.CacheBinariesForBootstrapper env k8sVersion []).2 with
    | some e => simp
    | none =>
      cases env.fetchBinary (if env.GOOS == "windows" then "kubectl.exe" else "kubectl")
          k8sVersion env.GOOS env.GOARCH with
      | some e => simp
      | none =>
        cases (saveImagesToTarFromConfig env w).2 with
        | panic reason => simp
        | value r =>
          cases r with
          | none => simp
          | some e => simp
  · have h13 := handleDownloadOnly_kinds env v cg k8sVersion driverName w h
    intro hne
    rcases h13.2.2 with h0 | h1
    · exact absurd h0 hne
    · exact h1
  · rw [handleDownloadOnly_on env v cg k8sVersion driverName w h]
    obtain ⟨new, e1, e2, saveSteps, hsteps, hsave, _, hcases⟩ := cacheThenFinish_cases env v cg
      ⟨"kicArtifactsGroup",
        (if env.IsKIC driverName = true then
          [Task.WriteImageToDaemon env.BaseImage, Task.CacheTarball k8sVersion] else []), none⟩
      k8sVersion
      { w with steps := w.steps ++ Step.IsKIC driverName (env.IsKIC driverName) ::
        (if env.IsKIC driverName = true then
          [Step.Go "kicArtifactsGroup" (Task.WriteImageToDaemon env.BaseImage),
            Step.Go "kicArtifactsGroup" (Task.CacheTarball k8sVersion)] else []) }
    obtain ⟨_, _, _, hindep⟩ := saveImagesToTarFromConfig_spec env w
    rw [hindep] at hcases hsave
    have hpre : ∀ l : List Step,
        (Step.IsKIC driverName (env.IsKIC driverName) ::
          (if env.IsKIC driverName = true then
            [Step.Go "kicArtifactsGroup" (Task.WriteImageToDaemon env.BaseImage),
              Step.Go "kicArtifactsGroup" (Task.CacheTarball k8sVersion)] else []) ++ new).filter
            Step.isCall =
          Step.IsKIC driverName (env.IsKIC driverName) ::
            (if env.IsKIC driverName = true then
              [Step.Go "kicArtifactsGroup" (Task.WriteImageToDaemon env.BaseImage),
                Step.Go "kicArtifactsGroup" (Task.CacheTarball k8sVersion)] else []) ++
            new.filter Step.isCall := by
      intro _
      rw [List.filter_append]
      cases env.IsKIC driverName <;>
        simp [List.filter_cons, Step.isCall, Step.isDone, Step.isErrorln]
    refine ⟨Step.IsKIC driverName (env.IsKIC driverName) ::
        (if env.IsKIC driverName = true then
          [Step.Go "kicArtifactsGroup" (Task.WriteImageToDaemon env.BaseImage),
            Step.Go "kicArtifactsGroup" (Task.CacheTarball k8sVersion)] else []) ++ new,
      by rw [hsteps]; simp, ?_⟩
    rw [hpre []]
    have hsaveCases : saveSteps = [] ∨ ∃ images res, saveSteps =
        [Step.SaveToDir images env.ImageCacheDir res] := by
      rcases hsave with hs | ⟨images, hs, _⟩
      · exact Or.inl hs
      · exact Or.inr ⟨images, _, hs⟩
    rcases hcases with ⟨e, hB, hE, hcalls⟩ | ⟨e, hB, hK, hE, hcalls⟩ |
      ⟨hB, hK, _, _, _, _, hS⟩
    · rw [hE, hB, hcalls]
      refine ⟨by simp, ?_, ?_, by simp, by simp⟩
      · intro _
        refine ⟨not_mem_of_not_mem_calls rfl ?_, fun code => not_mem_of_not_mem_calls rfl ?_⟩
        · rw [hpre [], hcalls]
          cases env.IsKIC driverName <;> simp
        · rw [hpre [], hcalls]
          cases env.IsKIC driverName <;> simp
      · intro e' he'
        cases he'
        exact ⟨rfl, by simp⟩
    · rw [hE, hB, hK, hcalls]
      refine ⟨by simp, ?_, by simp, ?_, by simp⟩
      · intro _
        refine ⟨not_mem_of_not_mem_calls rfl ?_, fun code => not_mem_of_not_mem_calls rfl ?_⟩
        · rw [hpre [], hcalls]
          cases env.IsKIC driverName <;> simp
        · rw [hpre [], hcalls]
          cases env.IsKIC driverName <;> simp
      · intro e' _ he'
        cases he'
        exact ⟨rfl, by simp⟩
    · rw [hB, hK]
      rcases hS with ⟨reason, hSv, hE, hcalls⟩ | ⟨e, hSv, hE, hcalls⟩ | ⟨hSv, hE, hcalls⟩
      · rw [hE, hSv, hcalls]
        refine ⟨by simp, ?_, by simp, by simp, by simp⟩
        intro _
        refine ⟨not_mem_of_not_mem_calls rfl ?_, fun code => not_mem_of_not_mem_calls rfl ?_⟩
        · rw [hpre [], hcalls]
          cases env.IsKIC driverName <;> cases viper.GetBool v env.cacheImages <;> simp
        · rw [hpre [], hcalls]
          cases env.IsKIC driverName <;> cases viper.GetBool v env.cacheImages <;> simp
      · rw [hE, hSv, hcalls]
        refine ⟨by simp, ?_, by simp, by simp, ?_⟩
        · intro _
          refine ⟨not_mem_of_not_mem_calls rfl ?_, fun code => not_mem_of_not_mem_calls rfl ?_⟩
          · rw [hpre [], hcalls]
            rcases hsaveCases with hs | ⟨images, res, hs⟩ <;> subst hs <;>
              cases env.IsKIC driverName <;> cases viper.GetBool v env.cacheImages <;> simp
          · rw [hpre [], hcalls]
            rcases hsaveCases with hs | ⟨images, res, hs⟩ <;> subst hs <;>
              cases env.IsKIC driverName <;> cases viper.GetBool v env.cacheImages <;> simp
        · intro e' _ _ he'
          have hee : e = e' := by
            injection he' with he''
            injection he''
          subst hee
          exact ⟨rfl, _, by rw [← List.append_assoc]⟩
      · rw [hE, hSv, hcalls]
        refine ⟨?_, by simp, by simp, by simp, by simp⟩
        intro _
        exact ⟨_, by rw [← List.append_assoc]⟩
  · intro a b c p cg'
    rw [hending, handleDownloadOnly_ending _ v cg' k8sVersion driverName w h]
    rfl

theorem C14_exit_zero_iff_binaries_kubectl_save_succeed_witness :
    viper.GetBool downloadOnly "download-only" = true ∧
    (handleDownloadOnly binaryFailsEnv downloadOnly (errgroup.zero "cacheGroup") "v1.20.0"
      "docker" emptyWorld).ending ≠ Ending.exited 0 ∧
    (handleDownloadOnly binaryFailsEnv downloadOnly (errgroup.zero "cacheGroup") "v1.20.0"
      "docker" emptyWorld).ending.nonZeroExit = true :=
  ⟨by decide, by decide,
    (C14_exit_zero_iff_binaries_kubectl_save_succeed binaryFailsEnv downloadOnly
      (errgroup.zero "cacheGroup") "v1.20.0" "docker" emptyWorld (by decide)).2.1 (by decide)⟩

/-- C15, as stated, fails: with download-only and image caching enabled, a start whose
image-cache task fails on the etcd image still ends in `os.Exit(0)`, after that task has
finished with its error, and the etcd image, required for the version, is not on disk
under `images/`. -/
theorem C15_exit_zero_with_image_not_cached :
    (startDownloadOnly imageFailsEnv downloadOnly "" "v1.20.0" "docker" emptyWorld).ending =
      Ending.exited 0 ∧
    "k8s.gcr.io/etcd:3.4.3-0" ∈ imageFailsEnv.KubeadmCachedImages "" "v1.20.0" ∧
    "images/k8s.gcr.io/etcd:3.4.3-0" ∉
      (startDownloadOnly imageFailsEnv downloadOnly "" "v1.20.0" "docker" emptyWorld).world.files ∧
    Step.Done "cacheGroup" (Task.CacheImagesForBootstrapper "" "v1.20.0" "kubeadm")
        (some (error.external "pull failed")) ∈
      (startDownloadOnly imageFailsEnv downloadOnly "" "v1.20.0" "docker" emptyWorld).world.steps ∧
    ¬ ((startDownloadOnly imageFailsEnv downloadOnly "" "v1.20.0" "docker" emptyWorld).ending =
        Ending.exited 0 →
      ∀ img ∈ imageFailsEnv.KubeadmCachedImages "" "v1.20.0",
        "images/" ++ img ∈
          (startDownloadOnly imageFailsEnv downloadOnly "" "v1.20.0" "docker"
            emptyWorld).world.files) := by
  refine ⟨by decide, by decide, by decide, by decide, ?_⟩
  intro hc
  have h1 := hc (by decide) "k8s.gcr.io/etcd:3.4.3-0" (by decide)
  exact absurd h1 (by decide)

/-- C15, amended: whenever a start with download-only ends in `os.Exit(0)`, the caching
of the bootstrapper binaries and of kubectl have returned no error before the exit, and
every bootstrapper binary and kubectl are on disk under `cache/<version>/<binary>`. If
image caching is enabled, the image-cache task has finished before the exit as well, but
its error is only logged: every image required for the version is on disk under
`images/<image>` provided that task returned no error. -/
theorem C15_exit_zero_means_binaries_cached (env : CacheEnv) (v : viper.Settings)
    (imageRepository k8sVersion driverName : String) (w : World)
    (hend : (startDownloadOnly env v imageRepository k8sVersion driverName w).ending =
      Ending.exited 0) :
    (∀ bin ∈ env.KubeadmCachedBinaries, "cache/" ++ k8sVersion ++ "/" ++ bin ∈
      (startDownloadOnly env v imageRepository k8sVersion driverName w).world.files) ∧
    ("cache/" ++ k8sVersion ++ "/" ++
        (if env.GOOS == "windows" then "kubectl.exe" else "kubectl") ∈
      (startDownloadOnly env v imageRepository k8sVersion driverName w).world.files) ∧
    (machine.CacheBinariesForBootstrapper env k8sVersion []).2 = none ∧
    (∃ (new calls : List Step),
      (startDownloadOnly env v imageRepository k8sVersion driverName w).world.steps =
        w.steps ++ new ∧
      new.filter Step.isCall = calls ++ [Step.T "Download complete!", Step.Exit 0] ∧
      Step.CacheBinariesForBootstrapper k8sVersion (viper.GetString v env.Bootstrapper) none ∈
        calls ∧
      Step.CacheBinary (if env.GOOS == "windows" then "kubectl.exe" else "kubectl")
        k8sVersion env.GOOS env.GOARCH
        ("cache/" ++ k8sVersion ++ "/" ++
          (if env.GOOS == "windows" then "kubectl.exe" else "kubectl")) none ∈ calls ∧
      (viper.GetBool v "cache-images" = true → viper.GetBool v env.cacheImages = true →
        Step.Done "cacheGroup"
            (Task.CacheImagesForBootstrapper imageRepository k8sVersion
              (viper.GetString v env.Bootstrapper))
            (machine.CacheImagesForBootstrapper env imageRepository k8sVersion []).2 ∈ new)) ∧
    (viper.GetBool v "cache-images" = true → viper.GetBool v env.cacheImages = true →
      (machine.CacheImagesForBootstrapper env imageRepository k8sVersion []).2 = none →
      ∀ img ∈ env.KubeadmCachedImages imageRepository k8sVersion, "images/" ++ img ∈
        (startDownloadOnly env v imageRepository k8sVersion driverName w).world.files) := by
  have hdl : viper.GetBool v "download-only" = true := by
    cases hd : viper.GetBool v "download-only" with
    | true => rfl
    | false =>
      simp only [startDownloadOnly] at hend
      rw [handleDownloadOnly_off env v _ k8sVersion driverName _ hd] at hend
      cases hend
  have hstart : ∃ (cg : errgroup.Group Task) (pre : List Step),
      startDownloadOnly env v imageRepository k8sVersion driverName w =
        handleDownloadOnly env v cg k8sVersion driverName { w with steps := w.steps ++ pre } ∧
      cg.label = "cacheGroup" ∧
      pre.filter Step.isCall = pre ∧
      (viper.GetBool v "cache-images" = true →
        cg.running = [Task.CacheImagesForBootstrapper imageRepository k8sVersion
          (viper.GetString v env.Bootstrapper)]) := by
    cases hc : viper.GetBool v "cache-images" with
    | false =>
      refine ⟨errgroup.zero "cacheGroup", [], ?_, rfl, rfl, by simp⟩
      simp [startDownloadOnly, beginCacheRequiredImages, hc]
    | true =>
      refine ⟨⟨"cacheGroup", [Task.CacheImagesForBootstrapper imageRepository k8sVersion
          (viper.GetString v env.Bootstrapper)], none⟩,
        [Step.Go "cacheGroup" (Task.CacheImagesForBootstrapper imageRepository k8sVersion
          (viper.GetString v env.Bootstrapper))], ?_, rfl, rfl, fun _ => rfl⟩
      simp [startDownloadOnly, beginCacheRequiredImages, hc, errgroup.zero, errgroup.Group.Go,
        World.step]
  obtain ⟨cg, pre, hrun, hlabel, hprecalls, hrunning⟩ := hstart
  rw [hrun] at hend ⊢
  rw [handleDownloadOnly_on env v cg k8sVersion driverName _ hdl] at hend ⊢
  obtain ⟨new, e1, e2, saveSteps, hsteps, _, _, hcases⟩ := cacheThenFinish_cases env v cg
    ⟨"kicArtifactsGroup",
      (if env.IsKIC driverName = true then
        [Task.WriteImageToDaemon env.BaseImage, Task.CacheTarball k8sVersion] else []), none⟩
    k8sVersion
    { w with steps := w.steps ++ pre ++ Step.IsKIC driverName (env.IsKIC driverName) ::
      (if env.IsKIC driverName = true then
        [Step.Go "kicArtifactsGroup" (Task.WriteImageToDaemon env.BaseImage),
          Step.Go "kicArtifactsGroup" (Task.CacheTarball k8sVersion)] else []) }
  rcases hcases with ⟨e, _, hE, _⟩ | ⟨e, _, _, hE, _⟩ |
    ⟨hB, _, hbins, hkubectl, hdone, himgs, hS⟩
  · rw [hE] at hend
    cases hend
  · rw [hE] at hend
    cases hend
  · rcases hS with ⟨reason, _, hE, _⟩ | ⟨e, _, hE, _⟩ | ⟨_, _, hcalls⟩
    · rw [hE] at hend
      cases hend
    · rw [hE] at hend
      cases hend
    · refine ⟨hbins, hkubectl, hB, ⟨pre ++ Step.IsKIC driverName (env.IsKIC driverName) ::
          (if env.IsKIC driverName = true then
            [Step.Go "kicArtifactsGroup" (Task.WriteImageToDaemon env.BaseImage),
              Step.Go "kicArtifactsGroup" (Task.CacheTarball k8sVersion)] else []) ++ new,
          pre ++ Step.IsKIC driverName (env.IsKIC driverName) ::
            (if env.IsKIC driverName = true then
              [Step.Go "kicArtifactsGroup" (Task.WriteImageToDaemon env.BaseImage),
                Step.Go "kicArtifactsGroup" (Task.CacheTarball k8sVersion)] else []) ++
            ([Step.CacheBinariesForBootstrapper k8sVersion (viper.GetString v env.Bootstrapper)
                none,
              Step.CacheBinary (if env.GOOS == "windows" then "kubectl.exe" else "kubectl")
                k8sVersion env.GOOS env.GOARCH
                ("cache/" ++ k8sVersion ++ "/" ++
                  (if env.GOOS == "windows" then "kubectl.exe" else "kubectl")) none] ++
              (if viper.GetBool v env.cacheImages = true then [Step.Wait cg.label e1]
                else []) ++
              [Step.Wait "kicArtifactsGroup" e2, Step.ReadConfig env.ConfigFile] ++ saveSteps),
          ?_, ?_, ?_, ?_, ?_⟩, ?_⟩
      · rw [hsteps]
        simp
      · rw [List.filter_append, List.filter_append, hprecalls, hcalls]
        cases env.IsKIC driverName <;>
          simp [List.filter_cons, Step.isCall, Step.isDone, Step.isErrorln]
      · simp
      · simp
      · intro hlit hon
        apply List.mem_append_right
        have hmem := hdone hon (Task.CacheImagesForBootstrapper imageRepository k8sVersion
          (viper.GetString v env.Bootstrapper)) (by rw [hrunning hlit]; simp)
        rw [hlabel] at hmem
        exact hmem
      · intro hlit hon hnone img himg
        exact himgs hon imageRepository k8sVersion (viper.GetString v env.Bootstrapper)
          (by rw [hrunning hlit]; simp) hnone img himg

theorem C15_exit_zero_means_binaries_cached_witness :
    (startDownloadOnly imageFailsEnv downloadOnly "" "v1.20.0" "docker" emptyWorld).ending =
      Ending.exited 0 ∧
    (∀ bin ∈ imageFailsEnv.KubeadmCachedBinaries, "cache/" ++ "v1.20.0" ++ "/" ++ bin ∈
      (startDownloadOnly imageFailsEnv downloadOnly "" "v1.20.0" "docker" emptyWorld).world.files) :=
  ⟨by decide,
    (C15_exit_zero_means_binaries_cached imageFailsEnv downloadOnly "" "v1.20.0" "docker"
      emptyWorld (by decide)).1⟩

end node

/-! ## More lemmas on string-keyed maps -/

namespace StrMap

variable {β : Type}

theorem get?_set_self (m : StrMap β) (k : String) (v : β) : (m.set k v).get? k = some v := by
  simp [get?, set]

theorem get?_set_ne (m : StrMap β) {k k' : String} (v : β) (h : k' ≠ k) :
    (m.set k v).get? k' = m.get? k' := by
  have h2 : ¬ k = k' := fun h3 => h h3.symm
  simp [get?, set, List.find?_cons, h2, find_filter_ne _ h]

theorem mem_keys_set (m : StrMap β) (k : String) (v : β) (x : String) :
    x ∈ (m.set k v).keys ↔ x = k ∨ x ∈ m.keys := by
  rw [← get?_isSome_iff, ← get?_isSome_iff]
  by_cases h : x = k
  · subst h
    simp [get?_set_self]
  · simp [get?_set_ne m v h, h]

end StrMap

/-! ## Properties of the image names in the config file -/

namespace node

/-- C21: `imagesInConfigFile` reads the configuration once and, when it is readable and
holds a string-keyed mapping under the cache-image key, returns with no error and no
failed type assertion a list that is a permutation without duplicates of the keys of the
mapping, of the length of the mapping, and that is the same for any other readable
configuration whose mapping has the same keys, whatever the values; when the key is
absent it returns the empty list and no error; when the configuration cannot be read it
returns the read error and no list. -/
theorem C21_imagesInConfigFile_enumerates_keys (env : CacheEnv) (w : World) :
    (∀ (cfg : config.MinikubeConfig) (m : StrMap config.Scalar),
      env.ReadConfig env.ConfigFile = Except.ok cfg →
      cfg.get? env.cacheImageConfigKey = some (config.Value.mapping m) →
      ∃ images : List String,
        imagesInConfigFile env w =
          (w.step (Step.ReadConfig env.ConfigFile), Ret.value (images, none)) ∧
        images.Perm m.keys ∧ images.Nodup ∧ images.length = m.entries.length ∧
        (∀ name : String, name ∈ images ↔ (m.get? name).isSome) ∧
        (∀ (env' : CacheEnv) (w' : World) (cfg' : config.MinikubeConfig)
          (m' : StrMap config.Scalar),
          env'.ReadConfig env'.ConfigFile = Except.ok cfg' →
          cfg'.get? env'.cacheImageConfigKey = some (config.Value.mapping m') →
          m'.keys = m.keys →
          (imagesInConfigFile env' w').2 = Ret.value (images, none))) ∧
    (∀ cfg : config.MinikubeConfig, env.ReadConfig env.ConfigFile = Except.ok cfg →
      cfg.get? env.cacheImageConfigKey = none →
      imagesInConfigFile env w =
        (w.step (Step.ReadConfig env.ConfigFile), Ret.value ([], none))) ∧
    (∀ e : error, env.ReadConfig env.ConfigFile = Except.error e →
      imagesInConfigFile env w =
        (w.step (Step.ReadConfig env.ConfigFile), Ret.value ([], some e))) := by
  refine ⟨?_, ?_, ?_⟩
  · intro cfg m h hk
    refine ⟨m.keys, imagesInConfigFile_mapping env w cfg m h hk, List.Perm.refl _,
      m.nodupKeys, ?_, ?_, ?_⟩
    · simp [StrMap.keys]
    · intro name
      exact (StrMap.get?_isSome_iff m name).symm
    · intro env' w' cfg' m' h' hk' hkeys
      rw [imagesInConfigFile_mapping env' w' cfg' m' h' hk', hkeys]
  · intro cfg h hk
    exact imagesInConfigFile_absent env w cfg h hk
  · intro e h
    exact imagesInConfigFile_error env w e h

end node

/-! ## Properties of the addons -/

namespace assets

/-- C22: for every addon built by `NewAddon` and every ClusterConfig, `IsEnabled` is the
value stored under the name of the addon in the map `Addons` of the profile when the
name is a key of it, whatever the default, and the default enabled flag given to
`NewAddon` otherwise; it is the same on any profile whose map holds the same for that
name, and setting any other name in the map does not change it. -/
theorem C22_IsEnabled_profile_overrides_default (files : List BinAsset) (enabled : Bool)
    (addonName : String) (images registries : Option (StrMap String))
    (cc : config.ClusterConfig) :
    (∀ status : Bool, cc.Addons.get? addonName = some status →
      (NewAddon files enabled addonName images registries).IsEnabled cc = status) ∧
    (cc.Addons.get? addonName = none →
      (NewAddon files enabled addonName images registries).IsEnabled cc = enabled) ∧
    (∀ status : Bool,
      (NewAddon files enabled addonName images registries).IsEnabled
        { cc with Addons := cc.Addons.set addonName status } = status) ∧
    (∀ cc' : config.ClusterConfig, cc'.Addons.get? addonName = cc.Addons.get? addonName →
      (NewAddon files enabled addonName images registries).IsEnabled cc' =
        (NewAddon files enabled addonName images registries).IsEnabled cc) ∧
    (∀ (other : String) (status : Bool), other ≠ addonName →
      (NewAddon files enabled addonName images registries).IsEnabled
        { cc with Addons := cc.Addons.set other status } =
        (NewAddon files enabled addonName images registries).IsEnabled cc) := by
  refine ⟨?_, ?_, ?_, ?_, ?_⟩
  · intro status h
    simp [Addon.IsEnabled, Addon.Name, NewAddon, h]
  · intro h
    simp [Addon.IsEnabled, Addon.Name, NewAddon, h]
  · intro status
    simp [Addon.IsEnabled, Addon.Name, NewAddon, StrMap.get?_set_self]
  · intro cc' h
    simp [Addon.IsEnabled, Addon.Name, NewAddon, h]
  · intro other status h
    simp [Addon.IsEnabled, Addon.Name, NewAddon, StrMap.get?_set_ne cc.Addons status (Ne.symm h)]

end assets

/-! ## Properties of the systemd service manager -/

namespace sysinit.Systemd

variable {σ : Type}

/-- C23: for every runner, state of it and service name, `Start` and `Restart` first
issue `sudo systemctl daemon-reload`; if the runner fails it they return that error and
have issued nothing else; if it succeeds they issue after it the one command
`sudo systemctl start svc`, respectively `restart svc`, and return what the runner
returns for it. `Stop`, `ForceStop`, `Enable` and `Disable` issue one command, which is
not the reload, and return what the runner returns for it. -/
theorem C23_start_restart_reload_first (s : Systemd σ) (svc : String) (w : Session σ) :
    strings.Join (exec.Command "sudo" ["systemctl", "daemon-reload"]).Args " " =
      "sudo systemctl daemon-reload" ∧
    (exec.Command "sudo" ["systemctl", "start", svc]).Args = ["sudo", "systemctl", "start", svc] ∧
    (exec.Command "sudo" ["systemctl", "restart", svc]).Args =
      ["sudo", "systemctl", "restart", svc] ∧
    (∀ err : error,
      (s.r.RunCmd w.state (exec.Command "sudo" ["systemctl", "daemon-reload"])).2.2 = some err →
      s.Start svc w =
        (⟨(s.r.RunCmd w.state (exec.Command "sudo" ["systemctl", "daemon-reload"])).1,
          w.issued ++ [exec.Command "sudo" ["systemctl", "daemon-reload"]]⟩, some err) ∧
      s.Restart svc w =
        (⟨(s.r.RunCmd w.state (exec.Command "sudo" ["systemctl", "daemon-reload"])).1,
          w.issued ++ [exec.Command "sudo" ["systemctl", "daemon-reload"]]⟩, some err)) ∧
    ((s.r.RunCmd w.state (exec.Command "sudo" ["systemctl", "daemon-reload"])).2.2 = none →
      s.Start svc w =
        (⟨(s.r.RunCmd (s.r.RunCmd w.state (exec.Command "sudo" ["systemctl", "daemon-reload"])).1
            (exec.Command "sudo" ["systemctl", "start", svc])).1,
          w.issued ++ [exec.Command "sudo" ["systemctl", "daemon-reload"],
            exec.Command "sudo" ["systemctl", "start", svc]]⟩,
          (s.r.RunCmd (s.r.RunCmd w.state (exec.Command "sudo" ["systemctl", "daemon-reload"])).1
            (exec.Command "sudo" ["systemctl", "start", svc])).2.2) ∧
      s.Restart svc w =
        (⟨(s.r.RunCmd (s.r.RunCmd w.state (exec.Command "sudo" ["systemctl", "daemon-reload"])).1
            (exec.Command "sudo" ["systemctl", "restart", svc])).1,
          w.issued ++ [exec.Command "sudo" ["systemctl", "daemon-reload"],
            exec.Command "sudo" ["systemctl", "restart", svc]]⟩,
          (s.r.RunCmd (s.r.RunCmd w.state (exec.Command "sudo" ["systemctl", "daemon-reload"])).1
            (exec.Command "sudo" ["systemctl", "restart", svc])).2.2)) ∧
    (s.Stop svc w =
        (⟨(s.r.RunCmd w.state (exec.Command "sudo" ["systemctl", "stop", svc])).1,
          w.issued ++ [exec.Command "sudo" ["systemctl", "stop", svc]]⟩,
          (s.r.RunCmd w.state (exec.Command "sudo" ["systemctl", "stop", svc])).2.2) ∧
      s.ForceStop svc w =
        (⟨(s.r.RunCmd w.state (exec.Command "sudo" ["systemctl", "stop", "-f", svc])).1,
          w.issued ++ [exec.Command "sudo" ["systemctl", "stop", "-f", svc]]⟩,
          (s.r.RunCmd w.state (exec.Command "sudo" ["systemctl", "stop", "-f", svc])).2.2) ∧
      s.Enable svc w =
        (⟨(s.r.RunCmd w.state (exec.Command "sudo" ["systemctl", "enable", svc])).1,
          w.issued ++ [exec.Command "sudo" ["systemctl", "enable", svc]]⟩,
          (s.r.RunCmd w.state (exec.Command "sudo" ["systemctl", "enable", svc])).2.2) ∧
      s.Disable svc w =
        (⟨(s.r.RunCmd w.state (exec.Command "sudo" ["systemctl", "disable", svc])).1,
          w.issued ++ [exec.Command "sudo" ["systemctl", "disable", svc]]⟩,
          (s.r.RunCmd w.state (exec.Command "sudo" ["systemctl", "disable", svc])).2.2)) ∧
    (exec.Command "sudo" ["systemctl", "stop", svc] ≠
        exec.Command "sudo" ["systemctl", "daemon-reload"] ∧
      exec.Command "sudo" ["systemctl", "stop", "-f", svc] ≠
        exec.Command "sudo" ["systemctl", "daemon-reload"] ∧
      exec.Command "sudo" ["systemctl", "enable", svc] ≠
        exec.Command "sudo" ["systemctl", "daemon-reload"] ∧
      exec.Command "sudo" ["systemctl", "disable", svc] ≠
        exec.Command "sudo" ["systemctl", "daemon-reload"]) := by
  refine ⟨by decide, rfl, rfl, ?_, ?_, ⟨rfl, rfl, rfl, rfl⟩, ?_⟩
  · intro err h
    simp [Start, Restart, reload, run, h]
  · intro h
    simp [Start, Restart, reload, run, h]
  · simp [exec.Command]

end sysinit.Systemd

/-! ## More properties of the Fake runner -/

namespace command.FakeCommandRunner

theorem RunCmd_congr (Command : RunResult → String) {f g : FakeCommandRunner}
    (h : g.cmdMap = f.cmdMap) (cmd : exec.Cmd) : g.RunCmd Command cmd = f.RunCmd Command cmd := by
  simp only [RunCmd, commands, h]

theorem SetFileToContents_cmdMap (l : List (String × String)) :
    ∀ f : FakeCommandRunner,
      (l.foldl (fun f e => { f with fileMap := f.fileMap.Store e.1 e.2 }) f).cmdMap = f.cmdMap := by
  induction l with
  | nil => intro f; rfl
  | cons e l ih =>
    intro f
    rw [List.foldl_cons, ih]

theorem SetCommandToOutput_fileMap (l : List (String × String)) :
    ∀ f : FakeCommandRunner,
      (l.foldl (fun f e => { f with cmdMap := f.cmdMap.Store e.1 (some e.2) }) f).fileMap =
        f.fileMap := by
  induction l with
  | nil => intro f; rfl
  | cons e l ih =>
    intro f
    rw [List.foldl_cons, ih]

theorem Copy_cmdMap (f : FakeCommandRunner) (file : assets.CopyableFile) :
    (f.Copy file).1.cmdMap = f.cmdMap := by
  cases hr : file.readErr with
  | none => rw [Copy_readable f file hr]
  | some err => simp [Copy, io.Copy, hr]

/-- C24: whenever `RunCmd` returns no error, the `Stderr` of its result is the `Stdout`
of its result, and the command is registered with a canned output that both hold: the
output itself when it is a string, nothing when it is the nil interface. In particular
after `SetCommandToOutput` both hold the output registered for the command, and a canned
output that is not empty gives a standard error that is not empty. -/
theorem C24_stderr_is_stdout (Command : RunResult → String) (f : FakeCommandRunner)
    (cmd : exec.Cmd) (h : (f.RunCmd Command cmd).2 = none) :
    (f.RunCmd Command cmd).1.Stderr = (f.RunCmd Command cmd).1.Stdout ∧
    (∃ out : Option String, f.cmdMap.Load (strings.Join cmd.Args " ") = some out ∧
      (f.RunCmd Command cmd).1.Stdout.String = out.getD "" ∧
      (f.RunCmd Command cmd).1.Stderr.String = out.getD "") ∧
    (∀ o : String, f.cmdMap.Load (strings.Join cmd.Args " ") = some (some o) →
      (f.RunCmd Command cmd).1.Stdout.String = o ∧
      (f.RunCmd Command cmd).1.Stderr.String = o ∧
      (o ≠ "" → (f.RunCmd Command cmd).1.Stderr.String ≠ "" ∧
        (f.RunCmd Command cmd).1.Stderr ≠ bytes.Buffer.empty)) ∧
    (∀ (g : FakeCommandRunner) (m : StrMap String) (o : String),
      m.get? (strings.Join cmd.Args " ") = some o →
      ((g.SetCommandToOutput m).RunCmd Command cmd).2 = none ∧
      ((g.SetCommandToOutput m).RunCmd Command cmd).1.Stdout.String = o ∧
      ((g.SetCommandToOutput m).RunCmd Command cmd).1.Stderr.String = o) := by
  have he : ∀ o : String, ("" : String) ++ o = o := by
    intro o
    apply String.ext
    simp
  have hsome : ∀ o : String, f.cmdMap.Load (strings.Join cmd.Args " ") = some (some o) →
      f.RunCmd Command cmd = (⟨⟨o⟩, ⟨o⟩, cmd.Args⟩, none) :=
    fun o ho => RunCmd_of_Load_some Command f cmd o ho
  refine ⟨?_, ?_, ?_, ?_⟩
  · cases hl : f.cmdMap.Load (strings.Join cmd.Args " ") with
    | none => simp [RunCmd, hl]
    | some out => simp [RunCmd, hl, bytes.Buffer.WriteString]
  · cases hl : f.cmdMap.Load (strings.Join cmd.Args " ") with
    | none =>
      rw [RunCmd_of_Load_none Command f cmd hl] at h
      simp at h
    | some out =>
      refine ⟨out, rfl, ?_⟩
      cases out with
      | none =>
        simp [RunCmd, hl, bytes.Buffer.WriteString, bytes.Buffer.empty, bytes.Buffer.String, he]
      | some o =>
        rw [hsome o hl]
        exact ⟨rfl, rfl⟩
  · intro o ho
    rw [hsome o ho]
    refine ⟨rfl, rfl, fun hne => ⟨hne, ?_⟩⟩
    intro hc
    apply hne
    simp only [bytes.Buffer.empty] at hc
    exact congrArg bytes.Buffer.buf hc
  · intro g m o hm
    rw [RunCmd_of_Load_some Command (g.SetCommandToOutput m) cmd o
      (Load_SetCommandToOutput_of_get? g m hm)]
    exact ⟨rfl, rfl, rfl⟩

theorem C24_stderr_is_stdout_witness :
    (echoRunner.RunCmd plainCommand ⟨["echo", "hi"]⟩).2 = none ∧
    (echoRunner.RunCmd plainCommand ⟨["echo", "hi"]⟩).1.Stderr =
      (echoRunner.RunCmd plainCommand ⟨["echo", "hi"]⟩).1.Stdout :=
  ⟨by decide, (C24_stderr_is_stdout plainCommand echoRunner ⟨["echo", "hi"]⟩ (by decide)).1⟩

/-- C25: `Copy`, `Remove` and `SetFileToContents` leave the command map as it was, so
that `RunCmd` gives on every command, registered or not, the same result and the same
error after them as before; `SetCommandToOutput` leaves the file map as it was, so
that `GetFileToContents` gives the same for every name; and `Copy` as well as `Remove`
of a file leave what is stored under every name other than the name of the file as it
was. `RunCmd` and `GetFileToContents` only look the maps up and list their keys, by
`Load` and `Range`, and hand no changed runner back. -/
theorem C25_mappings_independent (Command : RunResult → String) (f : FakeCommandRunner) :
    (∀ file : assets.CopyableFile,
      (f.Copy file).1.cmdMap = f.cmdMap ∧ (f.Remove file).1.cmdMap = f.cmdMap) ∧
    (∀ m : StrMap String, (f.SetFileToContents m).cmdMap = f.cmdMap) ∧
    (∀ (file : assets.CopyableFile) (cmd : exec.Cmd),
      (f.Copy file).1.RunCmd Command cmd = f.RunCmd Command cmd ∧
      (f.Remove file).1.RunCmd Command cmd = f.RunCmd Command cmd) ∧
    (∀ (m : StrMap String) (cmd : exec.Cmd),
      (f.SetFileToContents m).RunCmd Command cmd = f.RunCmd Command cmd) ∧
    (∀ m : StrMap String, (f.SetCommandToOutput m).fileMap = f.fileMap) ∧
    (∀ (m : StrMap String) (name : String),
      (f.SetCommandToOutput m).GetFileToContents name = f.GetFileToContents name) ∧
    (∀ (file : assets.CopyableFile) (name : String), name ≠ file.GetAssetName →
      (f.Copy file).1.fileMap.Load name = f.fileMap.Load name ∧
      (f.Remove file).1.fileMap.Load name = f.fileMap.Load name ∧
      (f.Copy file).1.GetFileToContents name = f.GetFileToContents name ∧
      (f.Remove file).1.GetFileToContents name = f.GetFileToContents name) := by
  have hcopy : ∀ (file : assets.CopyableFile) (name : String), name ≠ file.GetAssetName →
      (f.Copy file).1.fileMap.Load name = f.fileMap.Load name := by
    intro file name hne
    cases hr : file.readErr with
    | none =>
      rw [Copy_readable f file hr]
      exact syncmap.Map.Load_Store_ne _ _ hne
    | some err => simp [Copy, io.Copy, hr]
  have hremove : ∀ (file : assets.CopyableFile) (name : String), name ≠ file.GetAssetName →
      (f.Remove file).1.fileMap.Load name = f.fileMap.Load name := by
    intro file name hne
    exact syncmap.Map.Load_Delete_ne _ hne
  refine ⟨fun file => ⟨Copy_cmdMap f file, rfl⟩, fun m => SetFileToContents_cmdMap m.entries f,
    fun file cmd => ⟨RunCmd_congr Command (Copy_cmdMap f file) cmd,
      RunCmd_congr Command rfl cmd⟩,
    fun m cmd => RunCmd_congr Command (SetFileToContents_cmdMap m.entries f) cmd,
    fun m => SetCommandToOutput_fileMap m.entries f, ?_, ?_⟩
  · intro m name
    simp only [GetFileToContents, SetCommandToOutput, SetCommandToOutput_fileMap m.entries f]
  · intro file name hne
    refine ⟨hcopy file name hne, hremove file name hne, ?_, ?_⟩
    · simp only [GetFileToContents, hcopy file name hne]
    · simp only [GetFileToContents, hremove file name hne]

end command.FakeCommandRunner

/-! ## Lemmas on the template data of the addons -/

namespace strings

theorem HasSuffix_append_slash (v : String) : HasSuffix (v ++ "/") "/" = true := by
  simp [HasSuffix]

theorem splitLoop_count (c : Char) (l : List Char) :
    ∀ cur : List Char, (splitLoop [c] l cur 0).length = l.count c + 1 := by
  induction l with
  | nil => intro cur; simp [splitLoop]
  | cons x rest ih =>
    intro cur
    by_cases h : c = x
    · subst h
      simp [splitLoop, List.isPrefixOf, ih]
    · have h2 : ¬ x = c := fun h3 => h h3.symm
      simp [splitLoop, List.isPrefixOf, ih, h, h2, List.count_cons]

theorem splitLoop_not_mem (c : Char) (l : List Char) (h : c ∉ l) :
    ∀ cur : List Char, splitLoop [c] l cur 0 = [String.mk (cur.reverse ++ l)] := by
  induction l with
  | nil => intro cur; simp [splitLoop]
  | cons x rest ih =>
    intro cur
    have hx : ¬ c = x := fun hc => h (by simp [hc])
    have hr : c ∉ rest := fun hc => h (by simp [hc])
    simp [splitLoop, List.isPrefixOf, hx, ih hr]

theorem splitLoop_append (c : Char) (a b : List Char) (h : c ∉ a) :
    ∀ cur : List Char, splitLoop [c] (a ++ c :: b) cur 0 =
      String.mk (cur.reverse ++ a) :: splitLoop [c] b [] 0 := by
  induction a with
  | nil => intro cur; simp [splitLoop, List.isPrefixOf]
  | cons x rest ih =>
    intro cur
    have hx : ¬ c = x := fun hc => h (by simp [hc])
    have hr : c ∉ rest := fun hc => h (by simp [hc])
    simp [splitLoop, List.isPrefixOf, hx, ih hr]

theorem Split_eq_length (s : String) : (Split s "=").length = s.data.count '=' + 1 := by
  have h : ("=" : String).data = ['='] := rfl
  simp [Split, h, splitLoop_count]

theorem Split_eq_pair (a b : String) (ha : '=' ∉ a.data) (hb : '=' ∉ b.data) :
    Split (a ++ "=" ++ b) "=" = [a, b] := by
  have h : ("=" : String).data = ['='] := rfl
  have hd : (a ++ "=" ++ b).data = a.data ++ '=' :: b.data := by
    simp [String.data_append, h]
  simp only [Split, h, hd]
  rw [if_neg (by simp), splitLoop_append '=' a.data b.data ha, splitLoop_not_mem '=' b.data hb]
  simp

end strings

namespace StrMap
variable {β : Type}

theorem find_none_of_not_mem (l : List (String × β)) (k : String) (h : k ∉ l.map Prod.fst) :
    l.find? (fun e => e.1 == k) = none := by
  simp only [List.find?_eq_none]
  intro e he hk
  apply h
  simp only [beq_iff_eq] at hk
  rw [← hk]
  exact List.mem_map_of_mem Prod.fst he

/-- A loop over the entries of a Go map that sets some of their keys anew. -/
theorem get?_foldl_set (c : β → Bool) (f : β → β) (k : String) (l : List (String × β)) :
    (l.map Prod.fst).Nodup → ∀ acc : StrMap β,
      (l.foldl (fun acc e => if c e.2 then acc.set e.1 (f e.2) else acc) acc).get? k =
        match l.find? (fun e => e.1 == k) with
        | some e => if c e.2 then some (f e.2) else acc.get? k
        | none => acc.get? k := by
  induction l with
  | nil => intro _ acc; rfl
  | cons e l ih =>
    obtain ⟨a, b⟩ := e
    intro hnd acc
    simp only [List.map_cons, List.nodup_cons] at hnd
    rw [List.foldl_cons, ih hnd.2]
    by_cases hak : a = k
    · subst hak
      rw [find_none_of_not_mem l a hnd.1]
      by_cases hc : c b = true
      · simp [hc, get?_set_self]
      · simp [hc]
    · have hka : k ≠ a := fun h => hak h.symm
      have hacc : (if c b = true then acc.set a (f b) else acc).get? k = acc.get? k := by
        by_cases hc : c b = true
        · simp [hc, get?_set_ne acc (f b) hka]
        · simp [hc]
      have hb : (a == k) = false := by simp [hak]
      simp only [List.find?_cons, hb, hacc]

end StrMap

namespace assets

theorem foldl_fst {α σ τ : Type} (F : σ → α → σ) (G : σ × τ → α → τ) (l : List α) :
    ∀ (a : σ) (b : τ), (l.foldl (fun acc e => (F acc.1 e, G acc e)) (a, b)).1 = l.foldl F a := by
  induction l with
  | nil => intro a b; rfl
  | cons e l ih => intro a b; rw [List.foldl_cons, List.foldl_cons, ih]

/-- The value with the postfix `/` that the loops over the registries leave. -/
theorem get?_appendSlashes (m : StrMap String) (k : String) :
    (appendSlashes m).get? k =
      (m.get? k).map (fun v => if v != "" && !strings.HasSuffix v "/" then v ++ "/" else v) := by
  unfold appendSlashes
  rw [StrMap.get?_foldl_set (fun v => v != "" && !strings.HasSuffix v "/") (fun v => v ++ "/") k
    m.entries m.nodupKeys m]
  simp only [StrMap.get?]
  cases h : m.entries.find? (fun e => e.1 == k) with
  | none => rfl
  | some e =>
    simp only [Option.map_some']
    by_cases hc : (e.2 != "" && !strings.HasSuffix e.2 "/") = true
    · rw [if_pos hc, if_pos hc]
    · rw [if_neg hc, if_neg hc]

theorem useImage_fst (ir : String) (custom reg : StrMap String) (name image : String) :
    (useImage ir custom reg name image).1 =
      if (reg.get? name).isSome then reg else reg.set name "" := by
  unfold useImage
  cases custom.get? name with
  | some o => rfl
  | none =>
    by_cases h : (ir != "") = true
    · simp [h]
    · simp [h]

theorem get?_fill (k : String) (l : List (String × String)) :
    ∀ reg : StrMap String,
      (l.foldl (fun r e => if (r.get? e.1).isSome then r else r.set e.1 "") reg).get? k =
        match reg.get? k with
        | some r => some r
        | none => if k ∈ l.map Prod.fst then some "" else none := by
  induction l with
  | nil =>
    intro reg
    simp only [List.foldl_nil]
    cases reg.get? k <;> simp
  | cons e l ih =>
    obtain ⟨a, b⟩ := e
    intro reg
    rw [List.foldl_cons, ih]
    by_cases hak : k = a
    · subst hak
      cases h : reg.get? k with
      | none => simp [h, StrMap.get?_set_self]
      | some r => simp [h]
    · have hstep : (if (reg.get? a).isSome then reg else reg.set a "").get? k = reg.get? k := by
        by_cases hs : (reg.get? a).isSome = true
        · simp [hs]
        · simp [hs, StrMap.get?_set_ne reg "" hak]
      simp only [hstep, List.map_cons, List.mem_cons, hak, false_or]

theorem slash_spec (v r : String)
    (h : r = if v != "" && !strings.HasSuffix v "/" then v ++ "/" else v) :
    normalised v r ∧ (r = "" ∨ strings.HasSuffix r "/" = true) := by
  by_cases h1 : v = ""
  · subst h1
    have hr : r = "" := by rw [h]; rfl
    subst hr
    refine ⟨⟨fun _ => rfl, fun _ => rfl, fun hc => absurd rfl hc⟩, Or.inl rfl⟩
  · by_cases hs : strings.HasSuffix v "/" = true
    · have hr : r = v := by rw [h]; simp [hs]
      subst hr
      refine ⟨⟨fun hc => absurd hc h1, fun _ => rfl, fun _ hc => ?_⟩, Or.inr hs⟩
      rw [hs] at hc
      exact absurd hc (by decide)
    · have hr : r = v ++ "/" := by rw [h]; simp [hs, h1]
      subst hr
      exact ⟨⟨fun hc => absurd hc h1, fun hc => absurd hc hs, fun _ _ => rfl⟩,
        Or.inr (strings.HasSuffix_append_slash v)⟩

theorem opts_Images (env : TemplateEnv) (v : viper.Settings) (addon : Addon)
    (cfg : config.KubernetesConfig) :
    (GenerateTemplateData env v addon cfg).opts.Images =
      (entriesOf (viper.GetString v env.AddonImages)).foldl (fun m e => (customImage m e).1)
        (addon.Images.getD StrMap.empty) :=
  foldl_fst (fun m e => (customImage m e).1) (fun acc e => acc.2 ++ (customImage acc.1 e).2) _ _ _

theorem opts_CustomRegistries (env : TemplateEnv) (v : viper.Settings) (addon : Addon)
    (cfg : config.KubernetesConfig) :
    (GenerateTemplateData env v addon cfg).opts.CustomRegistries =
      appendSlashes ((entriesOf (viper.GetString v env.AddonRegistries)).foldl
        (fun m e => (customRegistry (GenerateTemplateData env v addon cfg).opts.Images m e).1)
        StrMap.empty) := by
  show appendSlashes (eachEntry _ _ _).1 = _
  unfold eachEntry
  rw [foldl_fst (fun m e => (customRegistry _ m e).1)
    (fun acc e => acc.2 ++ (customRegistry _ acc.1 e).2)]
  rfl

theorem opts_Registries_get? (env : TemplateEnv) (v : viper.Settings) (addon : Addon)
    (cfg : config.KubernetesConfig) (k : String) :
    (GenerateTemplateData env v addon cfg).opts.Registries.get? k =
      match ((addon.Registries.getD StrMap.empty).get? k).map
          (fun v => if v != "" && !strings.HasSuffix v "/" then v ++ "/" else v) with
      | some r => some r
      | none =>
        if k ∈ (GenerateTemplateData env v addon cfg).opts.Images.keys then some "" else none := by
  rw [← get?_appendSlashes]
  refine Eq.trans ?_ (get?_fill k (GenerateTemplateData env v addon cfg).opts.Images.entries
    (appendSlashes (addon.Registries.getD StrMap.empty)))
  show StrMap.get? (Prod.fst (List.foldl _ _ _)) k = _
  rw [foldl_fst (fun r (e : String × String) => (useImage _ _ r e.1 e.2).1)
    (fun acc (e : String × String) => acc.2 ++ [(useImage _ _ acc.1 e.1 e.2).2])]
  simp only [useImage_fst]
  rfl

theorem customImage_fst (m : StrMap String) (entry : String) :
    (customImage m entry).1 =
      match validOverride entry with
      | some (n, value) => if (m.get? n).isSome then m.set n value else m
      | none => m := by
  unfold customImage validOverride
  rcases strings.Split entry "=" with _ | ⟨a, _ | ⟨b, _ | ⟨c, l⟩⟩⟩
  · rfl
  · rfl
  · by_cases hb : b = ""
    · simp [hb]
    · by_cases hm : (m.get? a).isSome = true
      · simp [hb, hm]
      · simp [hb, hm]
  · rfl

theorem customImage_isSome (m : StrMap String) (entry k : String) :
    ((customImage m entry).1.get? k).isSome = (m.get? k).isSome := by
  rw [customImage_fst]
  cases validOverride entry with
  | none => rfl
  | some p =>
    obtain ⟨n, value⟩ := p
    by_cases hm : (m.get? n).isSome = true
    · simp only [hm, if_true]
      by_cases hk : k = n
      · subst hk
        rw [StrMap.get?_set_self, hm]
        rfl
      · rw [StrMap.get?_set_ne m value hk]
    · simp only [hm]
      rfl

theorem foldl_customImage_isSome (k : String) (entries : List String) :
    ∀ m : StrMap String,
      ((entries.foldl (fun m e => (customImage m e).1) m).get? k).isSome = (m.get? k).isSome := by
  induction entries with
  | nil => intro m; rfl
  | cons e later ih =>
    intro m
    rw [List.foldl_cons, ih, customImage_isSome]

theorem lastOverride_cons_other (name entry : String) (later : List String)
    (h : ∀ value : String, validOverride entry ≠ some (name, value)) :
    lastOverride name (entry :: later) = lastOverride name later := by
  simp only [lastOverride]
  cases lastOverride name later with
  | some value => rfl
  | none =>
    cases hv : validOverride entry with
    | none => rfl
    | some p =>
      obtain ⟨n, value⟩ := p
      by_cases hn : n = name
      · subst hn
        exact absurd hv (h value)
      · simp [hn]

theorem lastOverride_cons_self (name entry value : String) (later : List String)
    (h : validOverride entry = some (name, value)) :
    lastOverride name (entry :: later) = some ((lastOverride name later).getD value) := by
  simp only [lastOverride, h]
  cases lastOverride name later with
  | some value => rfl
  | none => simp

theorem get?_foldl_customImage (name : String) (entries : List String) :
    ∀ m : StrMap String,
      (entries.foldl (fun m e => (customImage m e).1) m).get? name =
        (m.get? name).map (fun d => (lastOverride name entries).getD d) := by
  induction entries with
  | nil =>
    intro m
    simp [lastOverride]
  | cons e later ih =>
    intro m
    rw [List.foldl_cons, ih, customImage_fst]
    cases hv : validOverride e with
    | none =>
      rw [lastOverride_cons_other name e later (by simp [hv])]
    | some p =>
      obtain ⟨n, value⟩ := p
      by_cases hn : n = name
      · subst hn
        rw [lastOverride_cons_self n e value later hv]
        cases hm : m.get? n with
        | none => simp [hm]
        | some d => simp [hm, StrMap.get?_set_self]
      · have hother : ∀ value' : String, validOverride e ≠ some (name, value') := by
          intro value' hc
          rw [hv] at hc
          exact hn (congrArg Prod.fst (Option.some.inj hc))
        rw [lastOverride_cons_other name e later hother]
        by_cases hm : (m.get? n).isSome = true
        · simp only [hm, if_true]
          rw [StrMap.get?_set_ne m value (Ne.symm hn)]
        · simp only [hm]
          rfl

theorem customRegistry_isSome (images custom : StrMap String) (entry k : String)
    (h : ((customRegistry images custom entry).1.get? k).isSome = true) :
    (custom.get? k).isSome = true ∨ (images.get? k).isSome = true := by
  unfold customRegistry at h
  rcases hs : strings.Split entry "=" with _ | ⟨a, _ | ⟨b, _ | ⟨c, l⟩⟩⟩
  · rw [hs] at h
    exact Or.inl h
  · rw [hs] at h
    exact Or.inl h
  · rw [hs] at h
    by_cases hm : (images.get? a).isSome = true
    · simp only [hm, if_true] at h
      by_cases hk : k = a
      · subst hk
        exact Or.inr hm
      · rw [StrMap.get?_set_ne custom b hk] at h
        exact Or.inl h
    · simp only [hm] at h
      exact Or.inl h
  · rw [hs] at h
    exact Or.inl h

theorem foldl_customRegistry_isSome (images : StrMap String) (k : String)
    (entries : List String) :
    ∀ custom : StrMap String,
      ((entries.foldl (fun m e => (customRegistry images m e).1) custom).get? k).isSome = true →
      (custom.get? k).isSome = true ∨ (images.get? k).isSome = true := by
  induction entries with
  | nil => intro custom h; exact Or.inl h
  | cons e later ih =>
    intro custom h
    rw [List.foldl_cons] at h
    rcases ih _ h with h1 | h1
    · exact customRegistry_isSome images custom e k h1
    · exact Or.inr h1

/-- The template data of `freshpod` under `customSettings`, computed. -/
theorem GenerateTemplateData_freshpod :
    (GenerateTemplateData arm64Env customSettings freshpod mirrorConfig).opts =
      { Arch := "arm64", ExoticArch := "-arm64", ImageRepository := "registry.local/",
        LoadBalancerStartIP := "", LoadBalancerEndIP := "", CustomIngressCert := "",
        Images := ⟨[("FreshPod", "freshpod:v2")], by decide⟩,
        Registries := ⟨[("FreshPod", "gcr.io/")], by decide⟩,
        CustomRegistries := ⟨[("FreshPod", "docker.io/")], by decide⟩ } := by
  decide

/-! ## Properties of the template data of the addons -/

/-- C26: in the data `GenerateTemplateData` returns, for every addon, KubernetesConfig
and settings, the `ImageRepository` is the normalised form of the one configured, every
value of `Registries` and every value of `CustomRegistries` is empty or ends with `/`,
the registry of a name for which the addon declares one is the normalised form of the
declared one, a custom registry is the normalised form of the one the setting gives, every
image name in `Images` has an entry in `Registries`, and that entry is empty when the
addon declares no registry for the name. Normalised means: empty stays empty, a value
ending with `/` is unchanged, any other value has one `/` appended. -/
theorem C26_registry_prefixes_normalised (env : TemplateEnv) (v : viper.Settings)
    (addon : Addon) (cfg : config.KubernetesConfig) :
    normalised cfg.ImageRepository (GenerateTemplateData env v addon cfg).opts.ImageRepository ∧
    ((GenerateTemplateData env v addon cfg).opts.ImageRepository = "" ∨
      strings.HasSuffix (GenerateTemplateData env v addon cfg).opts.ImageRepository "/" = true) ∧
    (∀ name r : String,
      (GenerateTemplateData env v addon cfg).opts.Registries.get? name = some r →
      r = "" ∨ strings.HasSuffix r "/" = true) ∧
    (∀ name r : String,
      (GenerateTemplateData env v addon cfg).opts.CustomRegistries.get? name = some r →
      r = "" ∨ strings.HasSuffix r "/" = true) ∧
    (∀ (m : StrMap String) (name declared : String), addon.Registries = some m →
      m.get? name = some declared →
      ∃ r : String, (GenerateTemplateData env v addon cfg).opts.Registries.get? name = some r ∧
        normalised declared r) ∧
    (∀ name given : String,
      (eachEntry (customRegistry (GenerateTemplateData env v addon cfg).opts.Images)
        (viper.GetString v env.AddonRegistries) StrMap.empty).1.get? name = some given →
      ∃ r : String,
        (GenerateTemplateData env v addon cfg).opts.CustomRegistries.get? name = some r ∧
        normalised given r) ∧
    (∀ name : String, name ∈ (GenerateTemplateData env v addon cfg).opts.Images.keys →
      name ∈ (GenerateTemplateData env v addon cfg).opts.Registries.keys) ∧
    (∀ name : String, name ∈ (GenerateTemplateData env v addon cfg).opts.Images.keys →
      (addon.Registries.getD StrMap.empty).get? name = none →
      (GenerateTemplateData env v addon cfg).opts.Registries.get? name = some "") := by
  refine ⟨(slash_spec _ _ rfl).1, (slash_spec _ _ rfl).2, ?_, ?_, ?_, ?_, ?_, ?_⟩
  · intro name r h
    rw [opts_Registries_get?] at h
    cases hd : (addon.Registries.getD StrMap.empty).get? name with
    | none =>
      rw [hd] at h
      simp only [Option.map_none'] at h
      by_cases hk : name ∈ (GenerateTemplateData env v addon cfg).opts.Images.keys
      · rw [if_pos hk] at h
        exact Or.inl (Option.some.inj h).symm
      · rw [if_neg hk] at h
        exact absurd h (by simp)
    | some d =>
      rw [hd] at h
      simp only [Option.map_some'] at h
      exact (slash_spec d r (Option.some.inj h).symm).2
  · intro name r h
    show r = "" ∨ strings.HasSuffix r "/" = true
    have h2 : (appendSlashes (eachEntry (customRegistry
        (GenerateTemplateData env v addon cfg).opts.Images)
        (viper.GetString v env.AddonRegistries) StrMap.empty).1).get? name = some r := h
    rw [get?_appendSlashes] at h2
    cases hd : (eachEntry (customRegistry (GenerateTemplateData env v addon cfg).opts.Images)
        (viper.GetString v env.AddonRegistries) StrMap.empty).1.get? name with
    | none =>
      rw [hd] at h2
      exact absurd h2 (by simp)
    | some d =>
      rw [hd] at h2
      simp only [Option.map_some'] at h2
      exact (slash_spec d r (Option.some.inj h2).symm).2
  · intro m name declared hm hd
    refine ⟨_, ?_, (slash_spec declared _ rfl).1⟩
    rw [opts_Registries_get?, hm]
    simp only [Option.getD_some, hd, Option.map_some']
  · intro name given hg
    refine ⟨_, ?_, (slash_spec given _ rfl).1⟩
    show (appendSlashes (eachEntry (customRegistry
        (GenerateTemplateData env v addon cfg).opts.Images)
        (viper.GetString v env.AddonRegistries) StrMap.empty).1).get? name = _
    rw [get?_appendSlashes, hg]
    rfl
  · intro name hk
    rw [← StrMap.get?_isSome_iff, opts_Registries_get?]
    cases hd : ((addon.Registries.getD StrMap.empty).get? name).map
        (fun v => if v != "" && !strings.HasSuffix v "/" then v ++ "/" else v) with
    | none => simp [hk]
    | some d => rfl
  · intro name hk hd
    rw [opts_Registries_get?, hd]
    simp [hk]

/-- C27: the images `GenerateTemplateData` returns are those of the addon after the loop
over the entries of the custom images setting, in which an entry changes the images only
when it is a valid override, one that splits on `=` into exactly two parts with the second
not empty, for a name that is a key of the images, whose value then becomes the second
part; every other entry leaves them as they are, among them every entry in which the
number of `=` is not one, every entry with an empty second part and every entry for an
unknown name, so that dropping such an entry from the setting changes no image. The value
returned for an image of the addon is that of the last valid override for its name, or
the one the addon declares when there is none; the image names returned are those of
the addon; and a custom registry is returned only for a name that is one of them. -/
theorem C27_custom_images_only_for_declared (env : TemplateEnv) (v : viper.Settings)
    (addon : Addon) (cfg : config.KubernetesConfig) :
    (GenerateTemplateData env v addon cfg).opts.Images =
      (entriesOf (viper.GetString v env.AddonImages)).foldl (fun m e => (customImage m e).1)
        (addon.Images.getD StrMap.empty) ∧
    (∀ (m : StrMap String) (entry : String),
      (validOverride entry = none → (customImage m entry).1 = m) ∧
      (∀ name value : String, validOverride entry = some (name, value) →
        (m.get? name = none → (customImage m entry).1 = m) ∧
        ((m.get? name).isSome = true → (customImage m entry).1 = m.set name value ∧
          (customImage m entry).1.get? name = some value ∧
          ∀ other : String, other ≠ name →
            (customImage m entry).1.get? other = m.get? other))) ∧
    (∀ entry : String, entry.data.count '=' ≠ 1 → validOverride entry = none) ∧
    (∀ name value : String, '=' ∉ name.data → '=' ∉ value.data →
      validOverride (name ++ "=" ++ value) = if value = "" then none else some (name, value)) ∧
    (∀ name declared : String, (addon.Images.getD StrMap.empty).get? name = some declared →
      (GenerateTemplateData env v addon cfg).opts.Images.get? name =
        some ((lastOverride name (entriesOf (viper.GetString v env.AddonImages))).getD
          declared)) ∧
    (∀ name : String, name ∈ (GenerateTemplateData env v addon cfg).opts.Images.keys ↔
      name ∈ (addon.Images.getD StrMap.empty).keys) ∧
    (∀ (m : StrMap String) (before later : List String) (entry : String),
      (validOverride entry = none ∨
        ∃ name value : String, validOverride entry = some (name, value) ∧ m.get? name = none) →
      (before ++ entry :: later).foldl (fun m e => (customImage m e).1) m =
        (before ++ later).foldl (fun m e => (customImage m e).1) m) ∧
    (∀ name : String, name ∈ (GenerateTemplateData env v addon cfg).opts.CustomRegistries.keys →
      name ∈ (addon.Images.getD StrMap.empty).keys) := by
  have hkeys : ∀ name : String,
      ((GenerateTemplateData env v addon cfg).opts.Images.get? name).isSome =
        ((addon.Images.getD StrMap.empty).get? name).isSome := by
    intro name
    rw [opts_Images, foldl_customImage_isSome]
  refine ⟨opts_Images env v addon cfg, ?_, ?_, ?_, ?_, ?_, ?_, ?_⟩
  · intro m entry
    refine ⟨fun h => by rw [customImage_fst, h], fun name value h => ⟨fun hm => ?_, fun hm => ?_⟩⟩
    · rw [customImage_fst, h]
      simp [hm]
    · have he : (customImage m entry).1 = m.set name value := by
        rw [customImage_fst, h]
        simp [hm]
      rw [he]
      exact ⟨rfl, StrMap.get?_set_self m name value,
        fun other ho => StrMap.get?_set_ne m value ho⟩
  · intro entry hc
    have hl : (strings.Split entry "=").length ≠ 2 := by
      rw [strings.Split_eq_length]
      omega
    unfold validOverride
    rcases hs : strings.Split entry "=" with _ | ⟨a, _ | ⟨b, _ | ⟨c, l⟩⟩⟩
    · rfl
    · rfl
    · rw [hs] at hl
      exact absurd rfl hl
    · rfl
  · intro name value hn hv
    unfold validOverride
    rw [strings.Split_eq_pair name value hn hv]
  · intro name declared hd
    rw [opts_Images, get?_foldl_customImage, hd]
    rfl
  · intro name
    rw [← StrMap.get?_isSome_iff, ← StrMap.get?_isSome_iff, hkeys]
  · intro m before later entry h
    rw [List.foldl_append, List.foldl_append, List.foldl_cons]
    congr 1
    rw [customImage_fst]
    rcases h with h | ⟨name, value, h, hm⟩
    · rw [h]
    · rw [h]
      have hm2 : ((before.foldl (fun m e => (customImage m e).1) m).get? name).isSome = false := by
        rw [foldl_customImage_isSome, hm]
        rfl
      simp [hm2]
  · intro name hk
    rw [← StrMap.get?_isSome_iff] at hk
    rw [opts_CustomRegistries] at hk
    rw [← StrMap.get?_isSome_iff, ← hkeys]
    have h2 : ((List.foldl (fun m e =>
        (customRegistry (GenerateTemplateData env v addon cfg).opts.Images m e).1) StrMap.empty
        (entriesOf (viper.GetString v env.AddonRegistries))).get? name).isSome = true := by
      rw [get?_appendSlashes] at hk
      simpa using hk
    rcases foldl_customRegistry_isSome _ name _ _ h2 with h3 | h3
    · exact absurd h3 (by simp [StrMap.get?, StrMap.empty])
    · exact h3

end assets

end Minikube
